import Mathlib

/-!
vsgXchange: the finite-element (Nastran) reader and the assimp scene converter

A shallow embedding of `src/src/nastran/nastran.cpp` and of the parts of
`src/src/assimp/assimp.cpp` that build material bindings, mesh geometry and index
buffers, attach cameras and lights by name, choose the up axis of the source,
register the file extensions, choose the import flags and traverse the node tree,
with theorems about them.

Conventions of the embedding

* `std::vector<T>` is `List T`; `push_back` appends at the end.
* `int` is `Int`; `std::stoi` checks the 32-bit range itself.  Container sizes and
  loop counters are natural numbers or integers without bound: the casts of a size
  to 32 bits and the `int` counter of `read` keep their value on every file of fewer
  than 2^31 records.  The conversion of an index to 16 bits is modelled (`% 2 ^ 16`).
* `float` values are exact rationals (`ℚ`).  `std::stof` is a library routine whose
  result depends on floating-point rounding; it is a parameter `stof` of the
  embedding, returning the rational that is stored.  A quotient whose divisor is zero
  has no rational value (IEEE arithmetic gives a NaN or an infinity); it is `none`.
  The product of the shininess and its strength in the assimp converter, whose
  result is compared with `0.01f`, is rounded to single precision (`fmul`); sums,
  differences and quotients are exact.
* A thrown exception or an operation whose behaviour the language leaves undefined
  ends the run with a `Fault`.
* `vsg::ref_ptr<vsg::Object>` results are `Option`: `none` is the empty pointer `{}`.
* Debug printing (`debugOutput`) has no effect on the results and is left out.
* The import library (assimp) and the scene-graph library (vsg) are not part of the
  repository; what the converter takes from them is described at the definitions
  `Get`, `Environment` and `ShaderStage.create`.
* The scene graph under construction is a store of groups (`List Group`); a
  `vsg::ref_ptr` to a group is the place of the group in the store.  The loop over
  the work stack of nodes takes a bound on its rounds, and its result is `none` when
  the bound is reached with a stack that is not empty.
-/

set_option autoImplicit false

namespace NastranImplementation

/-- Ways in which a run leaves the normal control flow. -/
inductive Fault where
  /-- The exception `std::invalid_argument`, thrown by `std::stoi` and `std::stof`. -/
  | invalid_argument
  /-- The exception `std::out_of_range`, thrown by `std::stoi` and `std::stof`. -/
  | out_of_range
  /-- Dereference of an end iterator or a vector subscript past the end. -/
  | undefined_behaviour
  deriving DecidableEq, Repr

/-- The `vsg::vec3` of the reader: three single-precision components. -/
structure vec3 where
  x : ℚ
  y : ℚ
  z : ℚ
  deriving DecidableEq

/-! ## Text helpers: `std::string::find`, the comma tokenizer, `std::stoi` -/

/-- Does `s` begin with `pat`? -/
def startsWith : List Char → List Char → Bool
  | [], _ => true
  | _ :: _, [] => false
  | p :: ps, c :: cs => p == c && startsWith ps cs

/-- The test `line.find(pat) != std::string::npos`: `pat` occurs somewhere in `line`. -/
def found (pat : List Char) : List Char → Bool
  | [] => startsWith pat []
  | c :: cs => startsWith pat (c :: cs) || found pat cs

/-- All fields of a line between commas; a line without comma is one field. -/
def fields : List Char → List (List Char)
  | [] => [[]]
  | c :: cs =>
    if c = ',' then [] :: fields cs
    else
      match fields cs with
      | [] => [[c]]
      | t :: ts => (c :: t) :: ts

/-- The vector `out` of the parse functions: the sequence delivered by
`std::sregex_token_iterator(line.begin(), line.end(), regex(","), -1)`.  It is the
text before each comma, followed by the text after the last comma unless that text
is empty; a line without comma is delivered whole. -/
def tokens (line : List Char) : List (List Char) :=
  match fields line with
  | [t] => [t]
  | fs => if fs.getLast? = some [] then fs.dropLast else fs

/-- The `isspace` of the C locale. -/
def isspace (c : Char) : Bool :=
  c.toNat = 32 || (9 ≤ c.toNat && c.toNat ≤ 13)

/-- Is `c` a decimal digit? -/
def isdigit (c : Char) : Bool :=
  48 ≤ c.toNat && c.toNat ≤ 57

/-- Value of the longest run of decimal digits at the start of the text, read after
the digits accumulated in `acc`. -/
def readDigits (acc : Nat) : List Char → Nat
  | [] => acc
  | c :: cs => if isdigit c then readDigits (10 * acc + (c.toNat - 48)) cs else acc

/-- Smallest value of `int`. -/
def INT_MIN : Int := -2147483648

/-- Largest value of `int`. -/
def INT_MAX : Int := 2147483647

/-- The digits (after white space and sign) of `std::stoi`: at least one digit is
required, the digits are read as far as they go and what follows them is ignored; a
value outside `int` is an `out_of_range` fault. -/
def stoiDigits (negative : Bool) (s : List Char) : Except Fault Int :=
  match s with
  | [] => .error .invalid_argument
  | c :: cs =>
    if isdigit c then
      let v : Int := if negative then -(readDigits 0 (c :: cs) : Int) else (readDigits 0 (c :: cs) : Int)
      if INT_MIN ≤ v ∧ v ≤ INT_MAX then .ok v else .error .out_of_range
    else .error .invalid_argument

/-- The conversion `std::stoi(s)` (base 10): leading white space is skipped, one sign
is accepted, then `stoiDigits`. -/
def stoi (s : List Char) : Except Fault Int :=
  match s.dropWhile isspace with
  | [] => .error .invalid_argument
  | c :: cs =>
    if c = '-' then stoiDigits true cs
    else if c = '+' then stoiDigits false cs
    else stoiDigits false (c :: cs)

/-! ## The record parsers -/

/-- The token loop of `parseGridsToIDAndVec3Vec` (lines 84-104), at column `index`:
column 1 is converted by `std::stoi` and pushed on `idList`, columns 3, 4 and 5 are
converted by `std::stof` into the components of `vec3Value`. -/
def parseGridsLoop (stof : List Char → Except Fault ℚ) :
    Nat → List (List Char) → vec3 → List Int → Except Fault (vec3 × List Int)
  | _, [], vec3Value, idList => .ok (vec3Value, idList)
  | index, s :: out, vec3Value, idList =>
    if index = 1 then
      match stoi s with
      | .error e => .error e
      | .ok id => parseGridsLoop stof (index + 1) out vec3Value (idList ++ [id])
    else if index = 3 then
      match stof s with
      | .error e => .error e
      | .ok v => parseGridsLoop stof (index + 1) out { vec3Value with x := v } idList
    else if index = 4 then
      match stof s with
      | .error e => .error e
      | .ok v => parseGridsLoop stof (index + 1) out { vec3Value with y := v } idList
    else if index = 5 then
      match stof s with
      | .error e => .error e
      | .ok v => parseGridsLoop stof (index + 1) out { vec3Value with z := v } idList
    else parseGridsLoop stof (index + 1) out vec3Value idList

/-- The function `parseGridsToIDAndVec3Vec` (lines 72-108): the results are the new
`gridList` and `idList`.  One position is pushed for every line, an ID only when the
line has a column 1. -/
def parseGridsToIDAndVec3Vec (stof : List Char → Except Fault ℚ) (line : List Char)
    (gridList : List vec3) (idList : List Int) : Except Fault (List vec3 × List Int) :=
  match parseGridsLoop stof 0 (tokens line) ⟨0, 0, 0⟩ idList with
  | .error e => .error e
  | .ok (vec3Value, idList1) => .ok (gridList ++ [vec3Value], idList1)

/-- The token loop of `parseTRIAToIDList` (lines 121-129). -/
def parseTRIALoop : Nat → List (List Char) → List Int → Except Fault (List Int)
  | _, [], idArray => .ok idArray
  | index, s :: out, idArray =>
    if index ≤ 5 ∧ index > 2 then
      match stoi s with
      | .error e => .error e
      | .ok id => parseTRIALoop (index + 1) out (idArray ++ [id])
    else parseTRIALoop (index + 1) out idArray

/-- The function `parseTRIAToIDList` (lines 110-131). -/
def parseTRIAToIDList (line : List Char) (idArray : List Int) : Except Fault (List Int) :=
  parseTRIALoop 0 (tokens line) idArray

/-- The token loop of `parseQUADToIDList` (lines 147-155), filling `quadIndices`. -/
def parseQUADLoop : Nat → List (List Char) → List Int → Except Fault (List Int)
  | _, [], quadIndices => .ok quadIndices
  | index, s :: out, quadIndices =>
    if index ≤ 6 ∧ index > 2 then
      match stoi s with
      | .error e => .error e
      | .ok id => parseQUADLoop (index + 1) out (quadIndices ++ [id])
    else parseQUADLoop (index + 1) out quadIndices

/-- The vector `unfoldIndices` of line 137. -/
def unfoldIndices : List Nat := [0, 1, 2, 2, 3, 0]

/-- The unfold loop of `parseQUADToIDList` (lines 159-164): `quadIndices[unfoldIndex]`
is pushed on `idArray`; the subscript of a position that `quadIndices` does not have
is undefined behaviour. -/
def unfoldLoop (quadIndices : List Int) : List Nat → List Int → Except Fault (List Int)
  | [], idArray => .ok idArray
  | unfoldIndex :: rest, idArray =>
    match quadIndices[unfoldIndex]? with
    | none => .error .undefined_behaviour
    | some unfoldedID => unfoldLoop quadIndices rest (idArray ++ [unfoldedID])

/-- The function `parseQUADToIDList` (lines 133-166). -/
def parseQUADToIDList (line : List Char) (idArray : List Int) : Except Fault (List Int) :=
  match parseQUADLoop 0 (tokens line) [] with
  | .error e => .error e
  | .ok quadIndices => unfoldLoop quadIndices unfoldIndices idArray

/-- The token loop of `parseTempToIDandFloatVec` (lines 180-198): column 2 is pushed
on `idList`, column 3 on `temperatureList`. -/
def parseTempLoop (stof : List Char → Except Fault ℚ) :
    Nat → List (List Char) → List ℚ → List Int → Except Fault (List ℚ × List Int)
  | _, [], temperatureList, idList => .ok (temperatureList, idList)
  | index, s :: out, temperatureList, idList =>
    if index = 2 then
      match stoi s with
      | .error e => .error e
      | .ok id => parseTempLoop stof (index + 1) out temperatureList (idList ++ [id])
    else if index = 3 then
      match stof s with
      | .error e => .error e
      | .ok temperature =>
        parseTempLoop stof (index + 1) out (temperatureList ++ [temperature]) idList
    else parseTempLoop stof (index + 1) out temperatureList idList

/-- The function `parseTempToIDandFloatVec` (lines 168-201). -/
def parseTempToIDandFloatVec (stof : List Char → Except Fault ℚ) (line : List Char)
    (temperatureList : List ℚ) (idList : List Int) : Except Fault (List ℚ × List Int) :=
  parseTempLoop stof 0 (tokens line) temperatureList idList

/-! ## Temperature normalization -/

/-- The scan of `std::max_element` with the largest value so far. -/
def maxElementFrom (largest : ℚ) : List ℚ → ℚ
  | [] => largest
  | t :: ts => maxElementFrom (if largest < t then t else largest) ts

/-- The scan of `std::min_element` with the smallest value so far. -/
def minElementFrom (smallest : ℚ) : List ℚ → ℚ
  | [] => smallest
  | t :: ts => minElementFrom (if t < smallest then t else smallest) ts

/-- The value `*std::max_element(begin, end)`: on an empty range the end iterator is
dereferenced. -/
def maxElement : List ℚ → Except Fault ℚ
  | [] => .error .undefined_behaviour
  | t :: ts => .ok (maxElementFrom t ts)

/-- The value `*std::min_element(begin, end)`. -/
def minElement : List ℚ → Except Fault ℚ
  | [] => .error .undefined_behaviour
  | t :: ts => .ok (minElementFrom t ts)

/-- The quotient `a / b` of two single-precision values, exact when the divisor is
not zero and without a rational value otherwise. -/
def divide (a b : ℚ) : Option ℚ :=
  if b = 0 then none else some (a / b)

/-- The function `normalizeTemperatures` (lines 52-70): every entry `temp` becomes
`(temp - minTemp) / (maxTemp - minTemp)`. -/
def normalizeTemperatures (temperatures : List ℚ) : Except Fault (List (Option ℚ)) :=
  match maxElement temperatures with
  | .error e => .error e
  | .ok maxTemp =>
    match minElement temperatures with
    | .error e => .error e
    | .ok minTemp =>
      .ok (temperatures.map (fun temp => divide (temp - minTemp) (maxTemp - minTemp)))

/-! ## The reader -/

/-- The five vectors that the line loop of `read` fills (lines 213-225). -/
structure ParseState where
  gridList : List vec3
  gridIDs : List Int
  temperatureList : List ℚ
  temperatureIDs : List Int
  unfoldedIDList : List Int

/-- The state before the first line: all vectors are empty. -/
def ParseState.initial : ParseState := ⟨[], [], [], [], []⟩

/-- The text `GRID,`. -/
def keyGRID : List Char := ['G', 'R', 'I', 'D', ',']

/-- The text `CTRIA3,`. -/
def keyCTRIA3 : List Char := ['C', 'T', 'R', 'I', 'A', '3', ',']

/-- The text `QUAD4,`. -/
def keyQUAD4 : List Char := ['Q', 'U', 'A', 'D', '4', ',']

/-- The text `TEMP,`. -/
def keyTEMP : List Char := ['T', 'E', 'M', 'P', ',']

/-- The body of the line loop of `read` (lines 229-244): the first of the four texts
that occurs in the line selects the parser. -/
def readLine (stof : List Char → Except Fault ℚ) (st : ParseState) (line : List Char) :
    Except Fault ParseState :=
  if found keyGRID line then
    match parseGridsToIDAndVec3Vec stof line st.gridList st.gridIDs with
    | .error e => .error e
    | .ok (gridList, gridIDs) => .ok { st with gridList := gridList, gridIDs := gridIDs }
  else if found keyCTRIA3 line then
    match parseTRIAToIDList line st.unfoldedIDList with
    | .error e => .error e
    | .ok unfoldedIDList => .ok { st with unfoldedIDList := unfoldedIDList }
  else if found keyQUAD4 line then
    match parseQUADToIDList line st.unfoldedIDList with
    | .error e => .error e
    | .ok unfoldedIDList => .ok { st with unfoldedIDList := unfoldedIDList }
  else if found keyTEMP line then
    match parseTempToIDandFloatVec stof line st.temperatureList st.temperatureIDs with
    | .error e => .error e
    | .ok (temperatureList, temperatureIDs) =>
      .ok { st with temperatureList := temperatureList, temperatureIDs := temperatureIDs }
  else .ok st

/-- The line loop of `read` (lines 227-245) over the lines that `getline` delivers. -/
def readLoop (stof : List Char → Except Fault ℚ) :
    List (List Char) → ParseState → Except Fault ParseState
  | [], st => .ok st
  | line :: rest, st =>
    match readLine stof st line with
    | .error e => .error e
    | .ok st1 => readLoop stof rest st1

/-- The call `std::sort(v.begin(), v.end())` on a vector of `int`: the ascending
rearrangement. -/
def sort (v : List Int) : List Int :=
  v.insertionSort (fun a b => a ≤ b)

/-- The value stored for `key` in a `std::map<int, int>`, kept as its list of
(key, value) pairs.  Only `insert` and `operator[]` are used on the map and it is
never traversed, so the order of the pairs plays no role. -/
def mapFind : List (Int × Int) → Int → Option Int
  | [], _ => none
  | (k, v) :: rest, key => if k = key then some v else mapFind rest key

/-- The call `map.insert(pair)`: a pair whose key is present already is not
inserted. -/
def mapInsert (m : List (Int × Int)) (pair : Int × Int) : List (Int × Int) :=
  match mapFind m pair.1 with
  | some _ => m
  | none => m ++ [pair]

/-- The access `map[key]`: the stored value, and for an absent key the value `0`,
which is inserted. -/
def mapSubscript (m : List (Int × Int)) (key : Int) : Int × List (Int × Int) :=
  match mapFind m key with
  | some v => (v, m)
  | none => (0, m ++ [(key, 0)])

/-- The loop of lines 261-270: every element of the sorted `gridIDs` is inserted
with the running counter `normalizeIDIndex`. -/
def buildGridToIndexMap : List Int → Int → List (Int × Int) → List (Int × Int)
  | [], _, gridToIndexMap => gridToIndexMap
  | gridID :: rest, normalizeIDIndex, gridToIndexMap =>
    buildGridToIndexMap rest (normalizeIDIndex + 1)
      (mapInsert gridToIndexMap (gridID, normalizeIDIndex))

/-- The map `gridToIndexMap` as `read` has it after line 270. -/
def gridToIndexMap (st : ParseState) : List (Int × Int) :=
  buildGridToIndexMap (sort st.gridIDs) 0 []

/-- The loop of lines 274-278: entry `i` of the two arrays is `gridList[i]` and
`temperatureList[i]`, for every position `i` of `gridList`; the subscript of a
position that `temperatureList` does not have is undefined behaviour. -/
def copyArrays : List vec3 → List (Option ℚ) → Except Fault (List vec3 × List (Option ℚ))
  | [], _ => .ok ([], [])
  | _ :: _, [] => .error .undefined_behaviour
  | g :: gridList, t :: temperatureList =>
    match copyArrays gridList temperatureList with
    | .error e => .error e
    | .ok (vertices, temperatures) => .ok (g :: vertices, t :: temperatures)

/-- The loop of lines 281-284: every entry of `unfoldedIDList` is replaced by
`gridToIndexMap[entry]`. -/
def remapLoop : List Int → List (Int × Int) → List Int
  | [], _ => []
  | id :: rest, gridToIndexMap =>
    (mapSubscript gridToIndexMap id).1 :: remapLoop rest (mapSubscript gridToIndexMap id).2

/-- The two shader stages of the reader. -/
inductive ShaderStageFlag where
  | VERTEX_BIT
  | FRAGMENT_BIT
  deriving DecidableEq

/-- A `vsg::ShaderStage`: its stage and entry point (the GLSL text is fixed). -/
structure ShaderStage where
  stage : ShaderStageFlag
  entryPointName : List Char
  deriving DecidableEq

/-- The call `vsg::ShaderStage::create(stage, "main", source)`: it allocates the
object from the text and hands back a pointer that is not empty. -/
def ShaderStage.create (stage : ShaderStageFlag) (entryPointName : List Char) :
    Option ShaderStage :=
  some ⟨stage, entryPointName⟩

/-- The scene that `read` returns: the state group with the two shader stages of its
pipeline and its one child, the `vsg::VertexIndexDraw` with the arrays. -/
structure StateGroup where
  vertexShader : ShaderStage
  fragmentShader : ShaderStage
  vsg_vertices : List vec3
  vsg_temperatures : List (Option ℚ)
  vsg_indices : List Int
  indexCount : Nat
  instanceCount : Nat
  deriving DecidableEq

/-- The part of `read` after the line loop (lines 248-346). -/
def assemble (st : ParseState) : Except Fault (Option StateGroup) :=
  let gridIDs := sort st.gridIDs
  let temperatureIDs := sort st.temperatureIDs
  if temperatureIDs ≠ gridIDs then .ok none
  else
    match normalizeTemperatures st.temperatureList with
    | .error e => .error e
    | .ok temperatureList =>
      match copyArrays st.gridList temperatureList with
      | .error e => .error e
      | .ok (vsg_vertices, vsg_temperatures) =>
        let vsg_indices := remapLoop st.unfoldedIDList (gridToIndexMap st)
        match ShaderStage.create .VERTEX_BIT ['m', 'a', 'i', 'n'],
              ShaderStage.create .FRAGMENT_BIT ['m', 'a', 'i', 'n'] with
        | some vertexShader, some fragmentShader =>
          .ok (some
            { vertexShader := vertexShader
              fragmentShader := fragmentShader
              vsg_vertices := vsg_vertices
              vsg_temperatures := vsg_temperatures
              vsg_indices := vsg_indices
              indexCount := vsg_indices.length
              instanceCount := 1 })
        | _, _ => .ok none

/-- The function `NastranImplementation::read` (lines 208-347) on the lines of the
stream. -/
def read (stof : List Char → Except Fault ℚ) (lines : List (List Char)) :
    Except Fault (Option StateGroup) :=
  match readLoop stof lines ParseState.initial with
  | .error e => .error e
  | .ok st => assemble st

/-- A conversion that agrees with `std::stof` on texts that `std::stoi` accepts
(integer literals): used to run the reader on sample files. -/
def stofInteger (s : List Char) : Except Fault ℚ :=
  match stoi s with
  | .error e => .error e
  | .ok v => .ok (v : ℚ)

/-- The relation between the four vectors that every line keeps: no more IDs than
positions on the GRID side, no more values than IDs on the TEMP side. -/
def ParseState.Balanced (st : ParseState) : Prop :=
  st.gridIDs.length ≤ st.gridList.length ∧ st.temperatureList.length ≤ st.temperatureIDs.length

/-- The value that `gridToIndexMap[key]` yields. -/
def mapIndex (m : List (Int × Int)) (key : Int) : Int :=
  (mapSubscript m key).1

/-- First-seen numbering, in the words of the specification: the dense index of an ID
is the zero-based position, in file order, of the first GRID record that carries
it. -/
def firstSeenIndex (gridIDsInFileOrder : List Int) (id : Int) : Int :=
  (gridIDsInFileOrder.indexOf id : Nat)

/-- The line made of the given columns, separated by commas. -/
def joinComma : List (List Char) → List Char
  | [] => []
  | [t] => t
  | t :: u :: ts => t ++ ',' :: joinComma (u :: ts)

/-- A sample file whose two GRID records are not in ascending ID order:
`GRID,10,,1,0,0`, `GRID,5,,2,0,0`, `CTRIA3,1,1,10,5,10`, `TEMP,1,10,0`, `TEMP,1,5,1`. -/
def descendingLines : List (List Char) :=
  [['G', 'R', 'I', 'D', ',', '1', '0', ',', ',', '1', ',', '0', ',', '0'],
   ['G', 'R', 'I', 'D', ',', '5', ',', ',', '2', ',', '0', ',', '0'],
   ['C', 'T', 'R', 'I', 'A', '3', ',', '1', ',', '1', ',', '1', '0', ',', '5', ',', '1', '0'],
   ['T', 'E', 'M', 'P', ',', '1', ',', '1', '0', ',', '0'],
   ['T', 'E', 'M', 'P', ',', '1', ',', '5', ',', '1']]

/-- A sample file in which two GRID records carry the same ID:
`GRID,5,,1,0,0`, `GRID,5,,2,0,0`, `TEMP,1,5,0`, `TEMP,1,5,1`. -/
def duplicateLines : List (List Char) :=
  [['G', 'R', 'I', 'D', ',', '5', ',', ',', '1', ',', '0', ',', '0'],
   ['G', 'R', 'I', 'D', ',', '5', ',', ',', '2', ',', '0', ',', '0'],
   ['T', 'E', 'M', 'P', ',', '1', ',', '5', ',', '0'],
   ['T', 'E', 'M', 'P', ',', '1', ',', '5', ',', '1']]

/-- A sample file with distinct GRID IDs:
`GRID,5,,1,0,0`, `GRID,10,,2,0,0`, `TEMP,1,5,0`, `TEMP,1,10,1`. -/
def distinctLines : List (List Char) :=
  [['G', 'R', 'I', 'D', ',', '5', ',', ',', '1', ',', '0', ',', '0'],
   ['G', 'R', 'I', 'D', ',', '1', '0', ',', ',', '2', ',', '0', ',', '0'],
   ['T', 'E', 'M', 'P', ',', '1', ',', '5', ',', '0'],
   ['T', 'E', 'M', 'P', ',', '1', ',', '1', '0', ',', '1']]

/-- The vertex stage of every scene of the reader. -/
def mainVertexShader : ShaderStage := ⟨.VERTEX_BIT, ['m', 'a', 'i', 'n']⟩

/-- The fragment stage of every scene of the reader. -/
def mainFragmentShader : ShaderStage := ⟨.FRAGMENT_BIT, ['m', 'a', 'i', 'n']⟩

end NastranImplementation

namespace assimp

/-! ## The assimp converter: material properties -/

/-- Ways in which a run of the converter leaves the normal control flow. -/
inductive Fault where
  /-- A null pointer is dereferenced or an array is read outside its bounds. -/
  | undefined_behaviour
  /-- The exception `std::out_of_range`, thrown by `std::string::substr`. -/
  | out_of_range
  deriving DecidableEq, Repr

/-- The enumeration `aiReturn` of the import library. -/
inductive aiReturn where
  | aiReturn_SUCCESS
  | aiReturn_FAILURE
  | aiReturn_OUTOFMEMORY
  deriving DecidableEq, Repr

/-- The enumerator values of `aiReturn` in the header of the import library:
`aiReturn_SUCCESS = 0x0`, `aiReturn_FAILURE = -0x1`, `aiReturn_OUTOFMEMORY = -0x3`. -/
def aiReturn.value : aiReturn → Int
  | .aiReturn_SUCCESS => 0
  | .aiReturn_FAILURE => -1
  | .aiReturn_OUTOFMEMORY => -3

/-- The macro `AI_SUCCESS`. -/
def AI_SUCCESS : aiReturn := .aiReturn_SUCCESS

/-- The implicit C++ conversion of an `aiReturn` to `bool`: an enumerator converts to
`true` exactly when its value is not zero. -/
def aiReturn.toBool (r : aiReturn) : Bool :=
  decide (r.value ≠ 0)

/-- A `vsg::vec4`, used for colours. -/
structure vec4 where
  r : ℚ
  g : ℚ
  b : ℚ
  a : ℚ
  deriving DecidableEq

/-- The enumeration `aiTextureMapMode`; `other` stands for every value that is none
of the four named ones. -/
inductive aiTextureMapMode where
  | aiTextureMapMode_Wrap
  | aiTextureMapMode_Clamp
  | aiTextureMapMode_Decal
  | aiTextureMapMode_Mirror
  | other (value : Int)
  deriving DecidableEq

/-- The values of `VkSamplerAddressMode` that the converter uses. -/
inductive VkSamplerAddressMode where
  | REPEAT
  | MIRRORED_REPEAT
  | CLAMP_TO_EDGE
  | CLAMP_TO_BORDER
  deriving DecidableEq

/-- The enumeration `aiTextureType`, with the members that `getTexture` names;
`other` stands for the remaining ones. -/
inductive aiTextureType where
  | DIFFUSE
  | SPECULAR
  | AMBIENT
  | EMISSIVE
  | HEIGHT
  | NORMALS
  | SHININESS
  | OPACITY
  | DISPLACEMENT
  | LIGHTMAP
  | REFLECTION
  | UNKNOWN
  | other (value : Nat)
  deriving DecidableEq

/-- What `aiMaterial::GetTexture(type, 0, ...)` delivers for a texture that the
material has: the path and the three wrap modes as they stand in `wrapMode` after the
call (they start as `aiTextureMapMode_Wrap`). -/
structure MaterialTexture where
  texPath : List Char
  wrapMode0 : aiTextureMapMode
  wrapMode1 : aiTextureMapMode
  wrapMode2 : aiTextureMapMode

/-- An `aiMaterial` through the properties that `processMaterials` asks for: `none`
is a property that the material does not have. -/
structure aiMaterial where
  /-- Property `AI_MATKEY_BASE_COLOR`. -/
  baseColor : Option vec4
  /-- Property `AI_MATKEY_COLOR_SPECULAR`. -/
  colorSpecular : Option vec4
  /-- Property `AI_MATKEY_COLOR_DIFFUSE`. -/
  colorDiffuse : Option vec4
  /-- Property `AI_MATKEY_COLOR_EMISSIVE`. -/
  colorEmissive : Option vec4
  /-- Property `AI_MATKEY_COLOR_AMBIENT`. -/
  colorAmbient : Option vec4
  /-- Property `AI_MATKEY_GLOSSINESS_FACTOR`. -/
  glossinessFactor : Option ℚ
  /-- Property `AI_MATKEY_SHININESS`. -/
  shininess : Option ℚ
  /-- Property `AI_MATKEY_SHININESS_STRENGTH`. -/
  shininessStrength : Option ℚ
  /-- Property `AI_MATKEY_METALLIC_FACTOR`. -/
  metallicFactor : Option ℚ
  /-- Property `AI_MATKEY_ROUGHNESS_FACTOR`. -/
  roughnessFactor : Option ℚ
  /-- Property `AI_MATKEY_GLTF_ALPHACUTOFF`. -/
  alphaCutoff : Option ℚ
  /-- Property `AI_MATKEY_TWOSIDED`. -/
  twoSided : Option Bool
  /-- The first texture of each type. -/
  texture : aiTextureType → Option MaterialTexture

/-- A material without any property and without texture. -/
def aiMaterial.blank : aiMaterial :=
  { baseColor := none, colorSpecular := none, colorDiffuse := none, colorEmissive := none,
    colorAmbient := none, glossinessFactor := none, shininess := none,
    shininessStrength := none, metallicFactor := none, roughnessFactor := none,
    alphaCutoff := none, twoSided := none, texture := fun _ => none }

/-- The call `material->Get(key, pOut)` of the import library on a property: when the
material has the property, its value is stored in `pOut` and `AI_SUCCESS` is
returned; otherwise `pOut` keeps its value and `aiReturn_FAILURE` is returned.  The
result is the return value and the content of `pOut` after the call. -/
def Get {α : Type} (property : Option α) (pOut : α) : aiReturn × α :=
  match property with
  | some v => (.aiReturn_SUCCESS, v)
  | none => (.aiReturn_FAILURE, pOut)

/-- The material value `vsg::PbrMaterial`. -/
structure PbrMaterial where
  baseColorFactor : vec4
  emissiveFactor : vec4
  diffuseFactor : vec4
  specularFactor : vec4
  metallicFactor : ℚ
  roughnessFactor : ℚ
  alphaMask : ℚ
  alphaMaskCutoff : ℚ
  deriving DecidableEq

/-- The material value `vsg::PhongMaterial`. -/
structure PhongMaterial where
  ambient : vec4
  diffuse : vec4
  specular : vec4
  emissive : vec4
  shininess : ℚ
  alphaMask : ℚ
  alphaMaskCutoff : ℚ
  deriving DecidableEq

/-- Image data as `vsg::read_cast<vsg::Data>` delivers it, through the fields that the
converter reads. -/
structure Data where
  width : Nat
  height : Nat
  maxNumMipmaps : Nat
  deriving DecidableEq

/-- An embedded texture `aiTexture` of the scene. -/
structure aiTexture where
  mWidth : Nat
  mHeight : Nat
  achFormatHint : List Char
  pcData : List Nat

/-- What the converter takes from its surroundings: the default-constructed material
values of the scene-graph library, its image readers, and the value found in the
local `shininess` of line 645 when nothing was stored in it. -/
structure Environment where
  /-- A default-constructed `vsg::PbrMaterial`. -/
  pbr : PbrMaterial
  /-- A default-constructed `vsg::PhongMaterial`. -/
  phong : PhongMaterial
  /-- The call `vsg::read_cast<vsg::Data>(pcData, mWidth, imageOptions)` on an embedded
  texture; `none` is an invalid pointer. -/
  readMemory : aiTexture → Option Data
  /-- The calls `vsg::findFile` and `vsg::read_cast<vsg::Data>(filename, options)` on a
  texture path; `none` is an invalid pointer. -/
  readFile : List Char → Option Data
  /-- Content of the uninitialised local `shininess`. -/
  indeterminate : ℚ

/-- The options that `processMaterials` reads: `two_sided`, `none` when the caller did
not set it. -/
structure Options where
  two_sided : Option Bool

/-- A `vsg::Sampler` through the fields that `getTexture` sets (the level-of-detail
bound `maxLod`, a floating-point logarithm, is left out). -/
structure Sampler where
  addressModeU : VkSamplerAddressMode
  addressModeV : VkSamplerAddressMode
  addressModeW : VkSamplerAddressMode
  anisotropyEnable : Bool
  maxAnisotropy : ℚ
  deriving DecidableEq

/-- The pair `SamplerData` of lines 47-51; `none` is an empty pointer. -/
structure SamplerData where
  sampler : Option Sampler
  data : Option Data
  deriving DecidableEq

/-- The function `getWrapMode` (lines 107-118). -/
def getWrapMode (mode : aiTextureMapMode) : VkSamplerAddressMode :=
  match mode with
  | .aiTextureMapMode_Wrap => .REPEAT
  | .aiTextureMapMode_Clamp => .CLAMP_TO_EDGE
  | .aiTextureMapMode_Decal => .CLAMP_TO_BORDER
  | .aiTextureMapMode_Mirror => .MIRRORED_REPEAT
  | .other _ => .REPEAT

/-- The define that the `switch` of lines 155-170 pushes for a texture type. -/
def textureDefine (type : aiTextureType) : List String :=
  match type with
  | .DIFFUSE => ["VSG_DIFFUSE_MAP"]
  | .SPECULAR => ["VSG_SPECULAR_MAP"]
  | .EMISSIVE => ["VSG_EMISSIVE_MAP"]
  | .HEIGHT => ["VSG_HEIGHT_MAP"]
  | .NORMALS => ["VSG_NORMAL_MAP"]
  | .SHININESS => ["VSG_SHININESS_MAP"]
  | .OPACITY => ["VSG_OPACITY_MAP"]
  | .DISPLACEMENT => ["VSG_DISPLACEMENT_MAP"]
  | .AMBIENT => ["VSG_LIGHTMAP_MAP"]
  | .LIGHTMAP => ["VSG_LIGHTMAP_MAP"]
  | .REFLECTION => ["VSG_REFLECTION_MAP"]
  | .UNKNOWN => ["VSG_METALLROUGHNESS_MAP"]
  | .other _ => []

/-- The call `std::atoi(s)`: white space, one sign, then the decimal digits as far as
they go; `0` when there is no digit. -/
def atoi (s : List Char) : Int :=
  match s.dropWhile NastranImplementation.isspace with
  | [] => 0
  | c :: cs =>
    if c = '-' then -(NastranImplementation.readDigits 0 cs : Int)
    else if c = '+' then (NastranImplementation.readDigits 0 cs : Int)
    else (NastranImplementation.readDigits 0 (c :: cs) : Int)

/-- The image of lines 129-153 for a texture path: for a path that begins with `*`
the embedded texture `scene->mTextures[texIndex]` is read when it is compressed
(`mWidth > 0 && mHeight == 0`) and otherwise no image is stored; every other path is
read as a file.  The outer `none` is the early `return {}` after a failed read, the
inner one is the pointer `samplerImage.data` that is still empty. -/
def loadImage (env : Environment) (mTextures : List aiTexture) (texPath : List Char) :
    Except Fault (Option (Option Data)) :=
  match texPath with
  | '*' :: digits =>
    let texIndex := atoi digits
    if texIndex < 0 then .error .undefined_behaviour
    else
      match mTextures[texIndex.toNat]? with
      | none => .error .undefined_behaviour
      | some texture =>
        if texture.mWidth > 0 ∧ texture.mHeight = 0 then
          match env.readMemory texture with
          | none => .ok none
          | some data => .ok (some (some data))
        else .ok (some none)
  | _ =>
    match env.readFile texPath with
    | none => .ok none
    | some data => .ok (some (some data))

/-- The function `getTexture` (lines 120-197): the result is the `SamplerData` and the
vector `defines` after the call.  The read of `samplerImage.data->getLayout()` at line
181 dereferences the image pointer. -/
def getTexture (env : Environment) (mTextures : List aiTexture) (material : aiMaterial)
    (type : aiTextureType) (defines : List String) :
    Except Fault (SamplerData × List String) :=
  match material.texture type with
  | none => .ok (⟨none, none⟩, defines)
  | some tex =>
    match loadImage env mTextures tex.texPath with
    | .error e => .error e
    | .ok none => .ok (⟨none, none⟩, defines)
    | .ok (some image) =>
      let defines1 := defines ++ textureDefine type
      let sampler : Sampler :=
        { addressModeU := getWrapMode tex.wrapMode0
          addressModeV := getWrapMode tex.wrapMode1
          addressModeW := getWrapMode tex.wrapMode2
          anisotropyEnable := true
          maxAnisotropy := 16 }
      match image with
      | none => .error .undefined_behaviour
      | some data => .ok (⟨some sampler, some data⟩, defines1)

/-! ## The assimp converter: `processMaterials` -/

/-- The descriptors that `processMaterials` puts in `descList`. -/
inductive Descriptor where
  /-- The descriptor `vsg::DescriptorBuffer::create(vsg::PbrMaterialValue::create(pbr), dstBinding)` -/
  | pbrBuffer (value : PbrMaterial) (dstBinding : Nat)
  /-- The descriptor `vsg::DescriptorBuffer::create(vsg::PhongMaterialValue::create(mat), dstBinding)` -/
  | phongBuffer (value : PhongMaterial) (dstBinding : Nat)
  /-- The descriptor `vsg::DescriptorImage::create(sampler, data, dstBinding, 0, ...)` -/
  | image (sampler : Option Sampler) (data : Data) (dstBinding : Nat)
  deriving DecidableEq

/-- The cull modes that `createPipeline` sets. -/
inductive VkCullMode where
  | VK_CULL_MODE_NONE
  | VK_CULL_MODE_BACK_BIT
  deriving DecidableEq

/-- The fragment shaders of the converter. -/
inductive FragmentShader where
  | assimp_pbr_frag
  | assimp_phong_frag
  deriving DecidableEq

/-- The function `createPipeline` (lines 282-319) through the state it varies: the
fragment shader with the defines of its module hints, and the cull mode of line 303. -/
structure Pipeline where
  fragmentShader : FragmentShader
  defines : List String
  cullMode : VkCullMode
  descriptorBindings : List Nat
  deriving DecidableEq

/-- The call `createPipeline(vs, fs, descriptorSetLayout, doubleSided)`. -/
def createPipeline (fragmentShader : FragmentShader) (defines : List String)
    (descriptorBindings : List Nat) (doubleSided : Bool) : Pipeline :=
  { fragmentShader := fragmentShader
    defines := defines
    cullMode := if doubleSided then .VK_CULL_MODE_NONE else .VK_CULL_MODE_BACK_BIT
    descriptorBindings := descriptorBindings }

/-- The pair `State` that `processMaterials` pushes for a material: the pipeline
binding and the descriptor-set binding with its descriptors. -/
structure State where
  pipeline : Pipeline
  descList : List Descriptor
  deriving DecidableEq

/-- The vectors that the texture slots extend. -/
structure Slots where
  defines : List String
  descriptorBindings : List Nat
  descList : List Descriptor

/-- One texture slot,
`if (samplerImage = getTexture(..., type, defines); samplerImage.data.valid()) { ... }`:
a valid image is pushed on `descList` with its binding.  The boolean tells whether
the image was valid. -/
def bindTexture (env : Environment) (mTextures : List aiTexture) (material : aiMaterial)
    (type : aiTextureType) (dstBinding : Nat) (s : Slots) : Except Fault (Bool × Slots) :=
  match getTexture env mTextures material type s.defines with
  | .error e => .error e
  | .ok (samplerImage, defines) =>
    match samplerImage.data with
    | some data =>
      .ok (true,
        { defines := defines
          descriptorBindings := s.descriptorBindings ++ [dstBinding]
          descList := s.descList ++ [.image samplerImage.sampler data dstBinding] })
    | none => .ok (false, { s with defines := defines })

/-- The six slots of the PBR path in the order of lines 668-709, with their
bindings. -/
def pbrSlots : List (aiTextureType × Nat) :=
  [(.DIFFUSE, 0), (.EMISSIVE, 4), (.LIGHTMAP, 3), (.NORMALS, 2), (.UNKNOWN, 1), (.SPECULAR, 5)]

/-- The texture slots of the PBR path, one after the other. -/
def bindTextures (env : Environment) (mTextures : List aiTexture) (material : aiMaterial) :
    List (aiTextureType × Nat) → Slots → Except Fault Slots
  | [], s => .ok s
  | (type, dstBinding) :: rest, s =>
    match bindTexture env mTextures material type dstBinding s with
    | .error e => .error e
    | .ok (_, s1) => bindTextures env mTextures material rest s1

/-- Lines 638-656: the factors of the PBR value and the workflow define. -/
def pbrFactors (env : Environment) (material : aiMaterial) (pbr : PbrMaterial)
    (hasPbrSpecularGlossiness : Bool) : PbrMaterial × List String :=
  let step : PbrMaterial × List String :=
    if hasPbrSpecularGlossiness then
      let pbr1 := { pbr with diffuseFactor := (Get material.colorDiffuse pbr.diffuseFactor).2 }
      let glossiness := Get material.glossinessFactor pbr1.specularFactor.a
      let pbr2 := { pbr1 with specularFactor := { pbr1.specularFactor with a := glossiness.2 } }
      if glossiness.1 ≠ AI_SUCCESS then
        let shininess := Get material.shininess env.indeterminate
        if shininess.1.toBool then
          ({ pbr2 with specularFactor := { pbr2.specularFactor with a := shininess.2 / 1000 } },
            ["VSG_WORKFLOW_SPECGLOSS"])
        else (pbr2, ["VSG_WORKFLOW_SPECGLOSS"])
      else (pbr2, ["VSG_WORKFLOW_SPECGLOSS"])
    else
      ({ pbr with
          metallicFactor := (Get material.metallicFactor pbr.metallicFactor).2
          roughnessFactor := (Get material.roughnessFactor pbr.roughnessFactor).2 }, [])
  ({ step.1 with
      emissiveFactor := (Get material.colorEmissive step.1.emissiveFactor).2
      alphaMaskCutoff := (Get material.alphaCutoff step.1.alphaMaskCutoff).2 }, step.2)

/-- The PBR path of `processMaterials` (lines 636-722). -/
def pbrPath (env : Environment) (mTextures : List aiTexture) (options : Options)
    (material : aiMaterial) (pbr : PbrMaterial) (hasPbrSpecularGlossiness : Bool) :
    Except Fault State :=
  let factors := pbrFactors env material pbr hasPbrSpecularGlossiness
  let isTwoSided : Bool :=
    options.two_sided.getD false || decide ((Get material.twoSided false).1 = AI_SUCCESS)
  let defines := if isTwoSided then factors.2 ++ ["VSG_TWOSIDED"] else factors.2
  match bindTextures env mTextures material pbrSlots
      { defines := defines, descriptorBindings := [10], descList := [.pbrBuffer factors.1 10] } with
  | .error e => .error e
  | .ok s =>
    .ok { pipeline := createPipeline .assimp_pbr_frag s.defines s.descriptorBindings isTwoSided
          descList := s.descList }

/-- The float literal `0.01f`: the single-precision number nearest to 1/100. -/
def shininessThreshold : ℚ := 10737418 / 1073741824

/-- Rounding of a rational to the nearest integer, a tie going to the even one. -/
def roundHalfEven (q : ℚ) : Int :=
  if q - ⌊q⌋ < 1 / 2 then ⌊q⌋
  else if 1 / 2 < q - ⌊q⌋ then ⌊q⌋ + 1
  else if ⌊q⌋ % 2 = 0 then ⌊q⌋
  else ⌊q⌋ + 1

/-- Rounding of a rational to single precision (IEEE 754 binary32, round to nearest,
ties to even): with `2 ^ e ≤ |q| < 2 ^ (e + 1)` the result is the multiple of
`2 ^ (e - 23)` nearest to `q`, which has a significand of 24 bits.  The exponent is
not bounded: a magnitude of `2 ^ 128` or more (the machine gives an infinity) or
below `2 ^ (-126)` (the machine gives a subnormal or zero) stays on the same side of
`0.01f` as the machine value. -/
def roundToFloat (q : ℚ) : ℚ :=
  if q = 0 then 0
  else (roundHalfEven (q / 2 ^ (Int.log 2 |q| - 23)) : ℚ) * 2 ^ (Int.log 2 |q| - 23)

/-- The product `a * b` of two `float` values, as line 754 computes it: the exact
product rounded to single precision. -/
def fmul (a b : ℚ) : ℚ :=
  roundToFloat (a * b)

/-- The colour `(value, value, value, value)`. -/
def vec4.uniform (value : ℚ) : vec4 := ⟨value, value, value, value⟩

/-- The Phong path of `processMaterials` (lines 726-838). -/
def phongPath (env : Environment) (mTextures : List aiTexture) (options : Options)
    (material : aiMaterial) : Except Fault State :=
  let mat0 := env.phong
  let mat1 := { mat0 with
    alphaMaskCutoff := (Get material.alphaCutoff mat0.alphaMaskCutoff).2
    ambient := (Get material.colorAmbient mat0.ambient).2 }
  let diffuseResult := Get material.colorDiffuse mat1.diffuse
  let emissiveResult := Get material.colorEmissive mat1.emissive
  let specularResult := Get material.colorSpecular mat1.specular
  let mat2 := { mat1 with
    diffuse := diffuseResult.2, emissive := emissiveResult.2, specular := specularResult.2 }
  let optionFlag := options.two_sided.getD false
  let twoSided := Get material.twoSided false
  let isTwoSided : Bool :=
    if optionFlag then true else twoSided.2
  let defines : List String :=
    if optionFlag then ["VSG_TWOSIDED"]
    else if twoSided.1 = AI_SUCCESS ∧ twoSided.2 = true then ["VSG_TWOSIDED"]
    else []
  let shininess := Get material.shininess mat2.shininess
  let mat3 : PhongMaterial :=
    if shininess.1 = AI_SUCCESS then
      let strength := Get material.shininessStrength 1
      if strength.1 = AI_SUCCESS then { mat2 with shininess := fmul shininess.2 strength.2 }
      else { mat2 with shininess := shininess.2 }
    else { mat2 with shininess := 0, specular := vec4.uniform 0 }
  let mat4 : PhongMaterial :=
    if mat3.shininess < shininessThreshold then
      { mat3 with shininess := 0, specular := vec4.uniform 0 }
    else mat3
  match bindTexture env mTextures material .DIFFUSE 0
      { defines := defines, descriptorBindings := [10], descList := [] } with
  | .error e => .error e
  | .ok (diffuseValid, s1) =>
    let mat5 : PhongMaterial :=
      if diffuseValid ∧ diffuseResult.1 ≠ AI_SUCCESS then { mat4 with diffuse := vec4.uniform 1 }
      else mat4
    match bindTexture env mTextures material .EMISSIVE 4 s1 with
    | .error e => .error e
    | .ok (emissiveValid, s2) =>
      let mat6 : PhongMaterial :=
        if emissiveValid ∧ emissiveResult.1 ≠ AI_SUCCESS then
          { mat5 with emissive := vec4.uniform 1 }
        else mat5
      match bindTexture env mTextures material .LIGHTMAP 3 s2 with
      | .error e => .error e
      | .ok (lightmapValid, s3) =>
        match (if lightmapValid then .ok (true, s3)
               else bindTexture env mTextures material .AMBIENT 3 s3) with
        | .error e => .error e
        | .ok (_, s4) =>
          match bindTexture env mTextures material .NORMALS 2 s4 with
          | .error e => .error e
          | .ok (_, s5) =>
            match bindTexture env mTextures material .SPECULAR 5 s5 with
            | .error e => .error e
            | .ok (specularValid, s6) =>
              let mat7 : PhongMaterial :=
                if specularValid ∧ specularResult.1 ≠ AI_SUCCESS then
                  { mat6 with specular := vec4.uniform 1 }
                else mat6
              let descList := s6.descList ++ [.phongBuffer mat7 10]
              .ok { pipeline :=
                      createPipeline .assimp_pbr_frag s6.defines s6.descriptorBindings isTwoSided
                    descList := descList }

/-- The body of the material loop of `processMaterials` (lines 626-839): the branch of
line 634 between the PBR path and the Phong path. -/
def processMaterial (env : Environment) (mTextures : List aiTexture) (options : Options)
    (material : aiMaterial) : Except Fault State :=
  let specular := Get material.colorSpecular env.pbr.specularFactor
  let hasPbrSpecularGlossiness : Bool := specular.1.toBool
  let baseColor := Get material.baseColor env.pbr.baseColorFactor
  let pbr := { env.pbr with specularFactor := specular.2, baseColorFactor := baseColor.2 }
  if baseColor.1 = AI_SUCCESS ∨ hasPbrSpecularGlossiness = true then
    pbrPath env mTextures options material pbr hasPbrSpecularGlossiness
  else
    phongPath env mTextures options material

/-- The function `processMaterials` (lines 619-843): one `State` is pushed for every
material of the scene, in the order of `scene->mMaterials`. -/
def processMaterials (env : Environment) (mTextures : List aiTexture) (options : Options) :
    List aiMaterial → Except Fault (List State)
  | [] => .ok []
  | material :: rest =>
    match processMaterial env mTextures options material with
    | .error e => .error e
    | .ok state =>
      match processMaterials env mTextures options rest with
      | .error e => .error e
      | .ok bindDescriptorSets => .ok (state :: bindDescriptorSets)

/-- Does the descriptor list hold a PBR material value? -/
def State.hasPbrDescriptor (s : State) : Bool :=
  s.descList.any (fun d => match d with | .pbrBuffer _ _ => true | _ => false)

/-- Does the descriptor list hold a Phong material value? -/
def State.hasPhongDescriptor (s : State) : Bool :=
  s.descList.any (fun d => match d with | .phongBuffer _ _ => true | _ => false)

/-! ## The assimp converter: index buffers of a mesh -/

/-- A vector `aiVector3D`. -/
structure aiVector3D where
  x : ℚ
  y : ℚ
  z : ℚ
  deriving DecidableEq

/-- A face `aiFace`: the array `mIndices`, whose length is `mNumIndices`. -/
structure aiFace where
  mIndices : List Nat
  deriving DecidableEq

/-- The member `mNumIndices` of a face. -/
def aiFace.mNumIndices (face : aiFace) : Nat := face.mIndices.length

/-- A mesh `aiMesh` through the members that `processScene` reads; the arrays
`mVertices`, `mNormals` and `mTextureCoords[0]` are functions of the position, and
`none` is a null array. -/
structure aiMesh where
  mNumVertices : Nat
  mVertices : Nat → aiVector3D
  mNormals : Option (Nat → aiVector3D)
  mTextureCoords0 : Option (Nat → aiVector3D)
  mFaces : List aiFace
  mMaterialIndex : Nat

/-- The inner loop of lines 526-527: the indices of a face are pushed on `indices`. -/
def pushIndices : List Nat → List Nat → List Nat
  | [], indices => indices
  | index :: rest, indices => pushIndices rest (indices ++ [index])

/-- The face loop of lines 517-528: a face whose `mNumIndices` is not 3 is passed
over. -/
def faceLoop : List aiFace → List Nat → List Nat
  | [], indices => indices
  | face :: rest, indices =>
    if face.mNumIndices ≠ 3 then faceLoop rest indices
    else faceLoop rest (pushIndices face.mIndices indices)

/-- The vector `indices` of a mesh after the face loop. -/
def meshIndices (mesh : aiMesh) : List Nat :=
  faceLoop mesh.mFaces []

/-- The index buffer: an array of 16-bit or of 32-bit elements. -/
inductive IndexArray where
  | ushortArray (elements : List Nat)
  | uintArray (elements : List Nat)
  deriving DecidableEq

/-- The value `std::numeric_limits<uint16_t>::max()`. -/
def UINT16_MAX : Nat := 65535

/-- Lines 530-543: the buffer `vsg_indices` made from `indices`.  `std::copy` into a
`ushortArray` converts every 32-bit index to 16 bits, which keeps its value modulo
2^16. -/
def vsg_indices (indices : List Nat) : IndexArray :=
  if indices.length < UINT16_MAX then .ushortArray (indices.map (fun index => index % 2 ^ 16))
  else .uintArray indices

/-- The number of bits of the elements of an index buffer. -/
def IndexArray.elementBits : IndexArray → Nat
  | .ushortArray _ => 16
  | .uintArray _ => 32

/-- The elements of an index buffer. -/
def IndexArray.elements : IndexArray → List Nat
  | .ushortArray elements => elements
  | .uintArray elements => elements

/-- A mesh of 65537 vertices (all at the origin) with the single triangle
(0, 1, 65536). -/
def wideMesh : aiMesh :=
  { mNumVertices := 65537
    mVertices := fun _ => ⟨0, 0, 0⟩
    mNormals := none
    mTextureCoords0 := none
    mFaces := [⟨[0, 1, 65536]⟩]
    mMaterialIndex := 0 }

/-- A mesh of 3 vertices in which the triangle (0, 1, 2) occurs 21845 times. -/
def repeatedMesh : aiMesh :=
  { mNumVertices := 3
    mVertices := fun _ => ⟨0, 0, 0⟩
    mNormals := none
    mTextureCoords0 := none
    mFaces := List.replicate 21845 ⟨[0, 1, 2]⟩
    mMaterialIndex := 0 }

end assimp

namespace assimp

/-! ## Sample materials -/

/-- A material without property whose diffuse texture is the embedded texture `*0`. -/
def embeddedDiffuseMaterial : aiMaterial :=
  { aiMaterial.blank with
    texture := fun type =>
      if type = .DIFFUSE then
        some ⟨['*', '0'], .aiTextureMapMode_Wrap, .aiTextureMapMode_Wrap, .aiTextureMapMode_Wrap⟩
      else none }

/-- An embedded texture of 2 x 2 uncompressed texels (`mHeight` is not zero). -/
def uncompressedTexture : aiTexture :=
  { mWidth := 2, mHeight := 2, achFormatHint := [], pcData := [] }

/-- The Phong value of lines 727-821 as a function of the three tests
`samplerImage.data.valid()` of the diffuse, emissive and specular slots. -/
def phongValue (env : Environment) (material : aiMaterial)
    (diffuseValid emissiveValid specularValid : Bool) : PhongMaterial :=
  let mat0 := env.phong
  let mat1 := { mat0 with
    alphaMaskCutoff := (Get material.alphaCutoff mat0.alphaMaskCutoff).2
    ambient := (Get material.colorAmbient mat0.ambient).2 }
  let diffuseResult := Get material.colorDiffuse mat1.diffuse
  let emissiveResult := Get material.colorEmissive mat1.emissive
  let specularResult := Get material.colorSpecular mat1.specular
  let mat2 := { mat1 with
    diffuse := diffuseResult.2, emissive := emissiveResult.2, specular := specularResult.2 }
  let shininess := Get material.shininess mat2.shininess
  let mat3 : PhongMaterial :=
    if shininess.1 = AI_SUCCESS then
      let strength := Get material.shininessStrength 1
      if strength.1 = AI_SUCCESS then { mat2 with shininess := fmul shininess.2 strength.2 }
      else { mat2 with shininess := shininess.2 }
    else { mat2 with shininess := 0, specular := vec4.uniform 0 }
  let mat4 : PhongMaterial :=
    if mat3.shininess < shininessThreshold then
      { mat3 with shininess := 0, specular := vec4.uniform 0 }
    else mat3
  let mat5 : PhongMaterial :=
    if diffuseValid ∧ diffuseResult.1 ≠ AI_SUCCESS then { mat4 with diffuse := vec4.uniform 1 }
    else mat4
  let mat6 : PhongMaterial :=
    if emissiveValid ∧ emissiveResult.1 ≠ AI_SUCCESS then { mat5 with emissive := vec4.uniform 1 }
    else mat5
  if specularValid ∧ specularResult.1 ≠ AI_SUCCESS then { mat6 with specular := vec4.uniform 1 }
  else mat6

/-- The shininess that the Phong path compares with `0.01f`: the material's
shininess, multiplied in single precision (`fmul`) by the shininess strength when the
material has one. -/
def effectiveShininess (material : aiMaterial) : Option ℚ :=
  match material.shininess, material.shininessStrength with
  | none, _ => none
  | some shininess, none => some shininess
  | some shininess, some strength => some (fmul shininess strength)

/-- An environment for sample runs: the default material values of the scene-graph
library, image readers that deliver no image, and 0 in the uninitialised local. -/
def sampleEnvironment : Environment :=
  { pbr :=
      { baseColorFactor := ⟨1, 1, 1, 1⟩, emissiveFactor := ⟨0, 0, 0, 1⟩,
        diffuseFactor := ⟨1, 1, 1, 1⟩, specularFactor := ⟨0, 0, 0, 1⟩,
        metallicFactor := 1, roughnessFactor := 1, alphaMask := 1, alphaMaskCutoff := 1 / 2 }
    phong :=
      { ambient := ⟨1, 1, 1, 1⟩, diffuse := ⟨9 / 10, 9 / 10, 9 / 10, 1⟩,
        specular := ⟨1 / 5, 1 / 5, 1 / 5, 1⟩, emissive := ⟨0, 0, 0, 0⟩,
        shininess := 100, alphaMask := 1, alphaMaskCutoff := 1 / 2 }
    readMemory := fun _ => none
    readFile := fun _ => none
    indeterminate := 0 }

/-- A material with a white specular colour, the shininess `0.001f` and the shininess
strength `9.999999f` (the single-precision numbers 8589935 / 2^33 and
10485759 / 2^20): their exact product lies below `0.01f`, and it rounds to
`0.01f`. -/
def roundingMaterial : aiMaterial :=
  { aiMaterial.blank with
    colorSpecular := some ⟨1, 1, 1, 1⟩
    shininess := some (8589935 / 8589934592)
    shininessStrength := some (10485759 / 1048576) }

/-- A material with a white specular colour and the shininess 1/1000. -/
def dullMaterial : aiMaterial :=
  { aiMaterial.blank with colorSpecular := some ⟨1, 1, 1, 1⟩, shininess := some (1 / 1000) }

end assimp

namespace NastranImplementation

/-! ## Record kinds of the reader -/

/-- The kinds of line that the line loop of `read` tells apart. -/
inductive RecordKind where
  | grid
  | triangle
  | quadrilateral
  | temperature
  | ignored
  deriving DecidableEq

/-- What the line loop does with a line of a given kind: the call of the parser of
the kind (lines 231, 235, 239, 243), and nothing for an ignored line. -/
def handleAs (stof : List Char → Except Fault ℚ) (kind : RecordKind) (st : ParseState)
    (line : List Char) : Except Fault ParseState :=
  match kind with
  | .grid =>
    match parseGridsToIDAndVec3Vec stof line st.gridList st.gridIDs with
    | .error e => .error e
    | .ok (gridList, gridIDs) => .ok { st with gridList := gridList, gridIDs := gridIDs }
  | .triangle =>
    match parseTRIAToIDList line st.unfoldedIDList with
    | .error e => .error e
    | .ok unfoldedIDList => .ok { st with unfoldedIDList := unfoldedIDList }
  | .quadrilateral =>
    match parseQUADToIDList line st.unfoldedIDList with
    | .error e => .error e
    | .ok unfoldedIDList => .ok { st with unfoldedIDList := unfoldedIDList }
  | .temperature =>
    match parseTempToIDandFloatVec stof line st.temperatureList st.temperatureIDs with
    | .error e => .error e
    | .ok (temperatureList, temperatureIDs) =>
      .ok { st with temperatureList := temperatureList, temperatureIDs := temperatureIDs }
  | .ignored => .ok st

/-- The text `key` occurs somewhere in `line`. -/
def Occurs (key line : List Char) : Prop :=
  ∃ before after, line = before ++ key ++ after

/-- The text `key` stands at the beginning of `line`. -/
def Begins (key line : List Char) : Prop :=
  ∃ after, line = key ++ after

/-- Classification by fixed prefix, in the words of the specification: the kind of a
line is given by the one of the four texts that the line begins with. -/
def prefixKind (line : List Char) : RecordKind :=
  if startsWith keyGRID line then .grid
  else if startsWith keyCTRIA3 line then .triangle
  else if startsWith keyQUAD4 line then .quadrilateral
  else if startsWith keyTEMP line then .temperature
  else .ignored

/-- The line ` GRID,5`: a blank, then a GRID record. -/
def indentedGridLine : List Char := [' ', 'G', 'R', 'I', 'D', ',', '5']

/-- A record in which a conversion throws: `std::stoi` or `std::stof` ends in an
exception on a column that the record of this kind uses (GRID 1 and 3..5, CTRIA3
3..5, QUAD4 3..6, TEMP 2 and 3). -/
def FaultyRecord (stof : List Char → Except Fault ℚ) (line : List Char) : Prop :=
  (Occurs keyGRID line ∧
    ((∃ t, (tokens line)[1]? = some t ∧ ∃ e, stoi t = .error e) ∨
     (∃ k t, (k = 3 ∨ k = 4 ∨ k = 5) ∧ (tokens line)[k]? = some t ∧ ∃ e, stof t = .error e))) ∨
  (¬ Occurs keyGRID line ∧ Occurs keyCTRIA3 line ∧
    ∃ k t, (3 ≤ k ∧ k ≤ 5) ∧ (tokens line)[k]? = some t ∧ ∃ e, stoi t = .error e) ∨
  (¬ Occurs keyGRID line ∧ ¬ Occurs keyCTRIA3 line ∧ Occurs keyQUAD4 line ∧
    ∃ k t, (3 ≤ k ∧ k ≤ 6) ∧ (tokens line)[k]? = some t ∧ ∃ e, stoi t = .error e) ∨
  (¬ Occurs keyGRID line ∧ ¬ Occurs keyCTRIA3 line ∧ ¬ Occurs keyQUAD4 line ∧
    Occurs keyTEMP line ∧
    ((∃ t, (tokens line)[2]? = some t ∧ ∃ e, stoi t = .error e) ∨
     (∃ t, (tokens line)[3]? = some t ∧ ∃ e, stof t = .error e)))

/-- A well-formed integer, in the words of the specification: an optional sign
followed by decimal digits and nothing else. -/
def wellFormedInteger (t : List Char) : Bool :=
  match t with
  | [] => false
  | c :: cs =>
    if c = '-' ∨ c = '+' then !cs.isEmpty && cs.all isdigit
    else (c :: cs).all isdigit

/-- A sample file whose first GRID record has the ID column `5x`:
`GRID,5x,,1,0,0`, `GRID,6,,2,0,0`, `TEMP,1,5,0`, `TEMP,1,6,1`. -/
def trailingTextLines : List (List Char) :=
  [['G', 'R', 'I', 'D', ',', '5', 'x', ',', ',', '1', ',', '0', ',', '0'],
   ['G', 'R', 'I', 'D', ',', '6', ',', ',', '2', ',', '0', ',', '0'],
   ['T', 'E', 'M', 'P', ',', '1', ',', '5', ',', '0'],
   ['T', 'E', 'M', 'P', ',', '1', ',', '6', ',', '1']]

/-- A sample file whose GRID record has the ID column `x`: `GRID,x,,1,0,0`,
`TEMP,1,5,0`. -/
def noNumberLines : List (List Char) :=
  [['G', 'R', 'I', 'D', ',', 'x', ',', ',', '1', ',', '0', ',', '0'],
   ['T', 'E', 'M', 'P', ',', '1', ',', '5', ',', '0']]

end NastranImplementation

namespace assimp

/-! ## The assimp converter: geometry and state of a mesh -/

/-- A `vsg::vec3`. -/
structure vec3 where
  x : ℚ
  y : ℚ
  z : ℚ
  deriving DecidableEq

/-- A `vsg::vec2`. -/
structure vec2 where
  x : ℚ
  y : ℚ
  deriving DecidableEq

/-- Line 496: the position stored at `j`. -/
def vertexAt (mesh : aiMesh) (j : Nat) : vec3 :=
  ⟨(mesh.mVertices j).x, (mesh.mVertices j).y, (mesh.mVertices j).z⟩

/-- Lines 498-505: the normal stored at `j`. -/
def normalAt (mesh : aiMesh) (j : Nat) : vec3 :=
  match mesh.mNormals with
  | some mNormals => ⟨(mNormals j).x, (mNormals j).y, (mNormals j).z⟩
  | none => ⟨0, 0, 0⟩

/-- Lines 507-514: the texture coordinate stored at `j`. -/
def texcoordAt (mesh : aiMesh) (j : Nat) : vec2 :=
  match mesh.mTextureCoords0 with
  | some mTextureCoords => ⟨(mTextureCoords j).x, (mTextureCoords j).y⟩
  | none => ⟨0, 0⟩

/-- The three per-vertex arrays of a mesh. -/
structure VertexArrays where
  vertices : List vec3
  normals : List vec3
  texcoords : List vec2
  deriving DecidableEq

/-- The vertex loop of lines 494-515, from position `j` on, for `count` positions:
position `j` of each array receives the value of the source at `j`. -/
def vertexLoop (mesh : aiMesh) : Nat → Nat → VertexArrays
  | _, 0 => ⟨[], [], []⟩
  | j, count + 1 =>
    { vertices := vertexAt mesh j :: (vertexLoop mesh (j + 1) count).vertices
      normals := normalAt mesh j :: (vertexLoop mesh (j + 1) count).normals
      texcoords := texcoordAt mesh j :: (vertexLoop mesh (j + 1) count).texcoords }

/-- The `vsg::VertexIndexDraw` of lines 559-564. -/
structure VertexIndexDraw where
  vertices : List vec3
  normals : List vec3
  texcoords : List vec2
  colors : List vec4
  indices : IndexArray
  indexCount : Nat
  instanceCount : Nat
  deriving DecidableEq

/-- The state commands that a state group holds. -/
inductive StateCommand where
  | BindGraphicsPipeline (pipeline : Pipeline)
  | BindDescriptorSet (descList : List Descriptor)
  deriving DecidableEq

/-- The member `first` of a `State` pair: the pipeline binding. -/
def State.first (state : State) : StateCommand := .BindGraphicsPipeline state.pipeline

/-- The member `second` of a `State` pair: the descriptor-set binding. -/
def State.second (state : State) : StateCommand := .BindDescriptorSet state.descList

/-- The state group made for a mesh (line 545): its state commands and its
children. -/
structure MeshStateGroup where
  stateCommands : List StateCommand
  children : List VertexIndexDraw
  deriving DecidableEq

/-- The geometry of a mesh (lines 486-543 and 559-563). -/
def meshGeometry (mesh : aiMesh) : VertexIndexDraw :=
  { vertices := (vertexLoop mesh 0 mesh.mNumVertices).vertices
    normals := (vertexLoop mesh 0 mesh.mNumVertices).normals
    texcoords := (vertexLoop mesh 0 mesh.mNumVertices).texcoords
    colors := [⟨1, 1, 1, 1⟩]
    indices := vsg_indices (meshIndices mesh)
    indexCount := (meshIndices mesh).length
    instanceCount := 1 }

/-- The body of the mesh loop of `processScene` (lines 485-572) for one mesh, with the
list `stateSets` that `processMaterials` returned (`useVertexIndexDraw` is `true`). -/
def convertMesh (stateSets : List State) (mesh : aiMesh) : MeshStateGroup :=
  { stateCommands :=
      if h : mesh.mMaterialIndex < stateSets.length then
        [(stateSets.get ⟨mesh.mMaterialIndex, h⟩).first,
         (stateSets.get ⟨mesh.mMaterialIndex, h⟩).second]
      else []
    children := [meshGeometry mesh] }

/-! ## The assimp converter: cameras and lights by name -/

/-- A `std::map` with `std::string` keys, kept as its list of (key, value) pairs; the
order of the pairs plays no role. -/
def mapFind {α : Type} : List (List Char × α) → List Char → Option α
  | [], _ => none
  | (k, v) :: rest, key => if k = key then some v else mapFind rest key

/-- The assignment `map[key] = value`: the value of a key that is present is
replaced. -/
def mapAssign {α : Type} : List (List Char × α) → List Char → α → List (List Char × α)
  | [], key, value => [(key, value)]
  | (k, v) :: rest, key, value =>
    if k = key then (k, value) :: rest else (k, v) :: mapAssign rest key value

/-- A `vsg::dvec3`. -/
structure dvec3 where
  x : ℚ
  y : ℚ
  z : ℚ
  deriving DecidableEq

/-- The function `dconvert` (line 94). -/
def dconvert (v : aiVector3D) : dvec3 := ⟨v.x, v.y, v.z⟩

/-- A colour `aiColor3D`. -/
structure aiColor3D where
  r : ℚ
  g : ℚ
  b : ℚ
  deriving DecidableEq

/-- The function `convert` on colours (line 95). -/
def convert (v : aiColor3D) : vec3 := ⟨v.r, v.g, v.b⟩

/-- A camera `aiCamera` of the scene. -/
structure aiCamera where
  mName : List Char
  mPosition : aiVector3D
  mLookAt : aiVector3D
  mUp : aiVector3D
  mHorizontalFOV : ℚ
  mAspect : ℚ
  mClipPlaneNear : ℚ
  mClipPlaneFar : ℚ
  deriving DecidableEq

/-- A `vsg::Camera` as lines 359-369 make it: the name, the eye, centre and up
vectors of its look-at view, and the aspect ratio and clip distances of its
perspective.  The vertical field of view is a floating-point function of
`horizontalFOV` and the aspect ratio; the camera keeps its argument here. -/
structure Camera where
  name : List Char
  eye : dvec3
  center : dvec3
  up : dvec3
  horizontalFOV : ℚ
  aspectRatio : ℚ
  nearDistance : ℚ
  farDistance : ℚ
  deriving DecidableEq

/-- Lines 358-369: the camera made from a scene camera. -/
def convertCamera (camera : aiCamera) : Camera :=
  { name := camera.mName
    eye := dconvert camera.mPosition
    center := dconvert camera.mLookAt
    up := dconvert camera.mUp
    horizontalFOV := camera.mHorizontalFOV
    aspectRatio := camera.mAspect
    nearDistance := camera.mClipPlaneNear
    farDistance := camera.mClipPlaneFar }

/-- The camera loop of lines 356-373, continuing from the map `cameraMap`. -/
def cameraLoop : List aiCamera → List (List Char × Camera) → List (List Char × Camera)
  | [], cameraMap => cameraMap
  | camera :: rest, cameraMap =>
    cameraLoop rest (mapAssign cameraMap (convertCamera camera).name (convertCamera camera))

/-- The map `cameraMap` after line 374. -/
def cameraMap (mCameras : List aiCamera) : List (List Char × Camera) :=
  cameraLoop mCameras []

/-- The enumeration `aiLightSourceType`; `other` stands for every value that is none
of the six named ones. -/
inductive aiLightSourceType where
  | aiLightSource_UNDEFINED
  | aiLightSource_DIRECTIONAL
  | aiLightSource_POINT
  | aiLightSource_SPOT
  | aiLightSource_AMBIENT
  | aiLightSource_AREA
  | other (value : Nat)
  deriving DecidableEq

/-- A light `aiLight` of the scene. -/
structure aiLight where
  mName : List Char
  mType : aiLightSourceType
  mColorDiffuse : aiColor3D
  mPosition : aiVector3D
  mDirection : aiVector3D
  mAngleInnerCone : ℚ
  mAngleOuterCone : ℚ
  deriving DecidableEq

/-- The lights of the scene graph that lines 387-448 make. -/
inductive Light where
  /-- A `vsg::Light` with the value `light_type`. -/
  | light (name : List Char) (color : vec3) (light_type : List Char)
  /-- A `vsg::DirectionalLight`. -/
  | directional (name : List Char) (color : vec3) (direction : dvec3)
  /-- A `vsg::PointLight`. -/
  | point (name : List Char) (color : vec3) (position : dvec3)
  /-- A `vsg::SpotLight`. -/
  | spot (name : List Char) (color : vec3) (position : dvec3) (direction : dvec3)
      (innerAngle : ℚ) (outerAngle : ℚ)
  /-- A `vsg::AmbientLight`. -/
  | ambient (name : List Char) (color : vec3)
  deriving DecidableEq

/-- The `switch` of lines 385-452: the light made from a scene light; `none` for the
`default` case, in which no light is made. -/
def convertLight (light : aiLight) : Option Light :=
  match light.mType with
  | .aiLightSource_UNDEFINED =>
    some (.light light.mName (convert light.mColorDiffuse)
      ['U', 'N', 'D', 'E', 'F', 'I', 'N', 'E', 'D'])
  | .aiLightSource_DIRECTIONAL =>
    some (.directional light.mName (convert light.mColorDiffuse) (dconvert light.mDirection))
  | .aiLightSource_POINT =>
    some (.point light.mName (convert light.mColorDiffuse) (dconvert light.mDirection))
  | .aiLightSource_SPOT =>
    some (.spot light.mName (convert light.mColorDiffuse) (dconvert light.mDirection)
      (dconvert light.mDirection) light.mAngleInnerCone light.mAngleOuterCone)
  | .aiLightSource_AMBIENT => some (.ambient light.mName (convert light.mColorDiffuse))
  | .aiLightSource_AREA =>
    some (.light light.mName (convert light.mColorDiffuse) ['A', 'R', 'E', 'A'])
  | .other _ => none

/-- The light loop of lines 380-453, continuing from the map `lightMap`. -/
def lightLoop : List aiLight → List (List Char × Light) → List (List Char × Light)
  | [], lightMap => lightMap
  | light :: rest, lightMap =>
    match convertLight light with
    | some vsg_light => lightLoop rest (mapAssign lightMap light.mName vsg_light)
    | none => lightLoop rest lightMap

/-- The map `lightMap` after line 454. -/
def lightMap (mLights : List aiLight) : List (List Char × Light) :=
  lightLoop mLights []

/-- What a transform gets attached by name. -/
inductive Attachment where
  | camera (camera : Camera)
  | light (light : Light)
  deriving DecidableEq

/-- Lines 472-481: the children that the transform of a node named `name` gets from
the two maps, the camera before the light. -/
def nodeAttachments (cameraMap : List (List Char × Camera)) (lightMap : List (List Char × Light))
    (name : List Char) : List Attachment :=
  (match mapFind cameraMap name with
    | some camera => [Attachment.camera camera]
    | none => []) ++
  (match mapFind lightMap name with
    | some light => [Attachment.light light]
    | none => [])

/-! ## The assimp converter: up axis of the source -/

/-- The enumeration `vsg::CoordinateConvention`. -/
inductive CoordinateConvention where
  | NO_PREFERENCE
  | X_UP
  | Y_UP
  | Z_UP
  deriving DecidableEq

/-- The metadata `aiMetadata` of a scene through the one entry that is read:
`upAxis` is the integer that `Get("UpAxis", upAxis)` stores when it returns `true`,
and `none` when it returns `false`. -/
structure aiMetadata where
  upAxis : Option Int

/-- Lines 586-602: the convention `source_coordianteConvention`, from the table
`options->formatCoordinateConventions`, the extension and `scene->mMetaData` (`none`
is a null pointer). -/
def source_coordinateConvention
    (formatCoordinateConventions : List (List Char × CoordinateConvention))
    (ext : List Char) (mMetaData : Option aiMetadata) : CoordinateConvention :=
  let initial := CoordinateConvention.Y_UP
  let fromTable :=
    match mapFind formatCoordinateConventions ext with
    | some convention => convention
    | none => initial
  match mMetaData with
  | none => fromTable
  | some metadata =>
    match metadata.upAxis with
    | some upAxis =>
      if upAxis = 1 then .X_UP
      else if upAxis = 2 then .Y_UP
      else .Z_UP
    | none => fromTable

/-! ## Sample cameras -/

/-- A camera named `cam` at (1, 0, 0). -/
def firstCamera : aiCamera :=
  { mName := ['c', 'a', 'm'], mPosition := ⟨1, 0, 0⟩, mLookAt := ⟨0, 0, 0⟩, mUp := ⟨0, 1, 0⟩,
    mHorizontalFOV := 1, mAspect := 1, mClipPlaneNear := 1, mClipPlaneFar := 100 }

/-- A second camera named `cam`, at (2, 0, 0). -/
def secondCamera : aiCamera :=
  { mName := ['c', 'a', 'm'], mPosition := ⟨2, 0, 0⟩, mLookAt := ⟨0, 0, 0⟩, mUp := ⟨0, 1, 0⟩,
    mHorizontalFOV := 1, mAspect := 1, mClipPlaneNear := 1, mClipPlaneFar := 100 }

end assimp

namespace assimp

/-! ## The assimp reader: `getFeatures` -/

/-- The three enumerators of `vsg::ReaderWriter::FeatureMask` that `getFeatures`
combines; their values are those of the scene-graph library. -/
structure FeatureBits where
  READ_FILENAME : Nat
  READ_ISTREAM : Nat
  READ_MEMORY : Nat

/-- The structure `Features` of a reader. -/
structure Features where
  extensionFeatureMap : List (List Char × Nat)
  optionNameTypeMap : List (List Char × List Char)

/-- The search of `std::string::find` in the text that begins at position `pos`. -/
def findFrom (c : Char) : List Char → Nat → Option Nat
  | [], _ => none
  | d :: ds, pos => if d = c then some pos else findFrom c ds (pos + 1)

/-- The call `s.find(c, pos)`: the first position at or after `pos` that holds `c`;
`none` is `std::string::npos`. -/
def find (s : List Char) (c : Char) (pos : Nat) : Option Nat :=
  findFrom c (s.drop pos) pos

/-- The call `s.substr(pos, len)`, with `none` for the length `npos`: a position past
the end of the text throws `std::out_of_range`. -/
def substr (s : List Char) (pos : Nat) (len : Option Nat) : Except Fault (List Char) :=
  if pos > s.length then .error .out_of_range
  else
    match len with
    | some n => .ok ((s.drop pos).take n)
    | none => .ok (s.drop pos)

/-- The `while` loop of lines 245-250 with the values of `start` and `semicolon` at
its test; the result is `start` and the map after the loop.  Every round moves
`start` forward, so the loop makes fewer than `suported_extensions.size() + 1` rounds,
the number that `rounds` starts from. -/
def extensionLoop (supported_features : Nat) (suported_extensions : List Char) :
    Nat → Nat → Option Nat → List (List Char × Nat) →
      Except Fault (Nat × List (List Char × Nat))
  | _, start, none, extensionFeatureMap => .ok (start, extensionFeatureMap)
  | 0, start, some _, extensionFeatureMap => .ok (start, extensionFeatureMap)
  | rounds + 1, start, some semicolon, extensionFeatureMap =>
    match substr suported_extensions start (some (semicolon - start)) with
    | .error e => .error e
    | .ok key =>
      extensionLoop supported_features suported_extensions rounds (semicolon + 2)
        (find suported_extensions ';' (semicolon + 2))
        (mapAssign extensionFeatureMap key supported_features)

/-- Modelled from the spec: the key of the option `generate_smooth_normals` (the
constant `assimp::generate_smooth_normals` is declared outside the given sources). -/
def generate_smooth_normals : List Char := "generate_smooth_normals".toList

/-- Modelled from the spec: the key of the option `generate_sharp_normals`. -/
def generate_sharp_normals : List Char := "generate_sharp_normals".toList

/-- Modelled from the spec: the key of the option `crease_angle`. -/
def crease_angle : List Char := "crease_angle".toList

/-- Modelled from the spec: the key of the option `two_sided`. -/
def two_sided : List Char := "two_sided".toList

/-- The function `assimp::getFeatures` (lines 235-260), with the text that
`importer.GetExtensionList` delivers: the result is `features` after the call and the
returned `bool`. -/
def getFeatures (bits : FeatureBits) (suported_extensions : List Char) (features : Features) :
    Except Fault (Features × Bool) :=
  let supported_features := bits.READ_FILENAME ||| bits.READ_ISTREAM ||| bits.READ_MEMORY
  match extensionLoop supported_features suported_extensions (suported_extensions.length + 1) 1
      (find suported_extensions ';' 1) features.extensionFeatureMap with
  | .error e => .error e
  | .ok (start, extensionFeatureMap) =>
    match substr suported_extensions start none with
    | .error e => .error e
    | .ok key =>
      .ok ({ extensionFeatureMap := mapAssign extensionFeatureMap key supported_features
             optionNameTypeMap :=
               mapAssign
                 (mapAssign
                   (mapAssign
                     (mapAssign features.optionNameTypeMap generate_smooth_normals
                       ['b', 'o', 'o', 'l'])
                     generate_sharp_normals ['b', 'o', 'o', 'l'])
                   crease_angle ['f', 'l', 'o', 'a', 't'])
                 two_sided ['b', 'o', 'o', 'l'] }, true)

/-- The text after the first `*` of an extension list: the tokens, each but the first
with `*` before it, separated by `;`. -/
def tokensText : List (List Char) → List Char
  | [] => []
  | [e] => e
  | e :: e1 :: es => e ++ ';' :: '*' :: tokensText (e1 :: es)

/-- The extension list `*e1;*e2;...;*en` of the tokens `e1, ..., en`. -/
def extensionList (es : List (List Char)) : List Char :=
  '*' :: tokensText es

end assimp
namespace assimp

/-! ## The assimp converter: the entry points `read` and the import flags -/

/-- Enumerator `aiProcess_Triangulate` of the import library (`0x8`). -/
def aiProcess_Triangulate : Nat := 0x8

/-- Enumerator `aiProcess_GenNormals` of the import library (`0x20`): hard-edge
normals. -/
def aiProcess_GenNormals : Nat := 0x20

/-- Enumerator `aiProcess_GenSmoothNormals` of the import library (`0x40`). -/
def aiProcess_GenSmoothNormals : Nat := 0x40

/-- Enumerator `aiProcess_ImproveCacheLocality` of the import library (`0x800`). -/
def aiProcess_ImproveCacheLocality : Nat := 0x800

/-- Enumerator `aiProcess_SortByPType` of the import library (`0x8000`). -/
def aiProcess_SortByPType : Nat := 0x8000

/-- Enumerator `aiProcess_GenUVCoords` of the import library (`0x40000`). -/
def aiProcess_GenUVCoords : Nat := 0x40000

/-- Enumerator `aiProcess_OptimizeMeshes` of the import library (`0x200000`). -/
def aiProcess_OptimizeMeshes : Nat := 0x200000

/-- Enumerator `aiProcess_FlipUVs` of the import library (`0x800000`). -/
def aiProcess_FlipUVs : Nat := 0x800000

/-- The member `_importFlags` as the constructor initialises it (line 277). -/
def _importFlags : Nat :=
  aiProcess_Triangulate ||| aiProcess_FlipUVs ||| aiProcess_OptimizeMeshes |||
    aiProcess_SortByPType ||| aiProcess_ImproveCacheLocality ||| aiProcess_GenUVCoords

/-- The options that the entry points `read` read: the three values that
`vsg::value` looks up (`none` when the caller did not set the value) and the member
`extensionHint`. -/
structure ReadOptions where
  generate_smooth_normals : Option Bool
  generate_sharp_normals : Option Bool
  crease_angle : Option ℚ
  extensionHint : List Char

/-- The function `vsg::value<T>(defaultValue, name, options)`: the value of the
option, or the default when the option is not set. -/
def vsg.value {α : Type} (defaultValue : α) (option : Option α) : α :=
  match option with
  | some v => v
  | none => defaultValue

/-- What an entry point hands to the import library: the argument `pFlags` of
`ReadFile` or `ReadFileFromMemory`, and the importer's float property
`AI_CONFIG_PP_CT_MAX_SMOOTHING_ANGLE` at the time of the call (`none` when it was not
set). -/
structure ImportCall where
  pFlags : Nat
  maxSmoothingAngle : Option ℚ
  deriving DecidableEq

/-- The entry point `read(const vsg::Path&, options)` (lines 845-890) up to its call
of `importer.ReadFile`; `none` when it returns without calling the importer.  The
argument `ext` is the lower-case extension of the file name, `filenameToUse` the
result of `vsg::findFile`. -/
def read_Path (IsExtensionSupported : List Char → Bool) (ext filenameToUse : List Char)
    (options : ReadOptions) : Option ImportCall :=
  if IsExtensionSupported ext then
    if filenameToUse.isEmpty then none
    else
      let flags := _importFlags
      if vsg.value false options.generate_smooth_normals then
        some ⟨flags ||| aiProcess_GenSmoothNormals, some (vsg.value 80 options.crease_angle)⟩
      else if vsg.value false options.generate_sharp_normals then
        some ⟨flags ||| aiProcess_GenNormals, none⟩
      else some ⟨flags, none⟩
  else none

/-- The entry point `read(std::istream&, options)` (lines 892-920) up to its call of
`importer.ReadFileFromMemory`; `none` when it returns without calling the importer
(`options` is `none` for a null pointer). -/
def read_istream (IsExtensionSupported : List Char → Bool) (options : Option ReadOptions) :
    Option ImportCall :=
  match options with
  | none => none
  | some options =>
    if IsExtensionSupported options.extensionHint then some ⟨_importFlags, none⟩
    else none

/-- The entry point `read(const uint8_t*, size_t, options)` (lines 922-939) up to its
call of `importer.ReadFileFromMemory`. -/
def read_memory (IsExtensionSupported : List Char → Bool) (options : Option ReadOptions) :
    Option ImportCall :=
  match options with
  | none => none
  | some options =>
    if IsExtensionSupported options.extensionHint then some ⟨_importFlags, none⟩
    else none

/-- Options that ask for smooth normals with a crease angle of 30 degrees, for data
with the extension hint `obj`. -/
def smoothOptions : ReadOptions :=
  { generate_smooth_normals := some true, generate_sharp_normals := none,
    crease_angle := some 30, extensionHint := ['o', 'b', 'j'] }

/-- Options that ask for hard-edge normals, for data with the extension hint `obj`. -/
def sharpOptions : ReadOptions :=
  { generate_smooth_normals := none, generate_sharp_normals := some true,
    crease_angle := none, extensionHint := ['o', 'b', 'j'] }

/-! ## Sample textures and lights -/

/-- An environment whose file reader delivers an image of 4 x 4 texels for every
path. -/
def imageEnvironment : Environment :=
  { sampleEnvironment with readFile := fun _ => some ⟨4, 4, 1⟩ }

/-- A material whose diffuse texture is the file `t` with the wrap modes mirror,
clamp and decal on its three axes. -/
def mirroredMaterial : aiMaterial :=
  { aiMaterial.blank with
    texture := fun type =>
      if type = .DIFFUSE then
        some ⟨['t'], .aiTextureMapMode_Mirror, .aiTextureMapMode_Clamp,
          .aiTextureMapMode_Decal⟩
      else none }

/-- A white point light at (1, 2, 3); its direction member is (0, 0, 0). -/
def lampLight : aiLight :=
  { mName := ['l', 'a', 'm', 'p'], mType := .aiLightSource_POINT,
    mColorDiffuse := ⟨1, 1, 1⟩, mPosition := ⟨1, 2, 3⟩, mDirection := ⟨0, 0, 0⟩,
    mAngleInnerCone := 0, mAngleOuterCone := 0 }

/-- A white spot light at (1, 2, 3) that points along (0, 0, -1). -/
def spotLight : aiLight :=
  { mName := ['s', 'p', 'o', 't'], mType := .aiLightSource_SPOT,
    mColorDiffuse := ⟨1, 1, 1⟩, mPosition := ⟨1, 2, 3⟩, mDirection := ⟨0, 0, -1⟩,
    mAngleInnerCone := 1 / 2, mAngleOuterCone := 1 }

end assimp
namespace NastranImplementation

/-! ## Records and their values by ID -/

/-- A GRID record: a line that the line loop hands to the GRID parser. -/
def isGridRecord (line : List Char) : Bool :=
  found keyGRID line

/-- A TEMP record: a line that the line loop hands to the TEMP parser, which it does
when none of the three texts tested before `TEMP,` occurs in the line. -/
def isTempRecord (line : List Char) : Bool :=
  !found keyGRID line && !found keyCTRIA3 line && !found keyQUAD4 line && found keyTEMP line

/-- The position given by the GRID record with ID `g`: the entry of `gridList` at the
place, in file order, of the first GRID record that carries `g`. -/
def gridPosition (st : ParseState) (g : Int) : Option vec3 :=
  st.gridList[st.gridIDs.indexOf g]?

/-- The normalized value of the TEMP record with ID `g`: the entry of the normalized
list at the place, in file order, of the first TEMP record that carries `g`. -/
def normalizedTemperature (st : ParseState) (normalized : List (Option ℚ)) (g : Int) :
    Option (Option ℚ) :=
  normalized[st.temperatureIDs.indexOf g]?

/-- A sample file whose TEMP records come in the opposite order of its GRID records:
`GRID,1,,0,0,0`, `GRID,2,,1,0,0`, `TEMP,1,2,5`, `TEMP,1,1,7`. -/
def swappedTemperatureLines : List (List Char) :=
  [['G', 'R', 'I', 'D', ',', '1', ',', ',', '0', ',', '0', ',', '0'],
   ['G', 'R', 'I', 'D', ',', '2', ',', ',', '1', ',', '0', ',', '0'],
   ['T', 'E', 'M', 'P', ',', '1', ',', '2', ',', '5'],
   ['T', 'E', 'M', 'P', ',', '1', ',', '1', ',', '7']]

/-- A sample file with a face reference to the ID 99, which no GRID record defines:
`GRID,5,,1,0,0`, `GRID,10,,2,0,0`, `CTRIA3,1,1,10,99,5`, `TEMP,1,5,0`,
`TEMP,1,10,1`. -/
def danglingLines : List (List Char) :=
  [['G', 'R', 'I', 'D', ',', '5', ',', ',', '1', ',', '0', ',', '0'],
   ['G', 'R', 'I', 'D', ',', '1', '0', ',', ',', '2', ',', '0', ',', '0'],
   ['C', 'T', 'R', 'I', 'A', '3', ',', '1', ',', '1', ',', '1', '0', ',', '9', '9', ',', '5'],
   ['T', 'E', 'M', 'P', ',', '1', ',', '5', ',', '0'],
   ['T', 'E', 'M', 'P', ',', '1', ',', '1', '0', ',', '1']]

end NastranImplementation
namespace assimp

/-! ## The assimp converter: the node traversal of `processScene` -/

/-- A matrix `aiMatrix4x4` of the import library, with its sixteen members in the
order of their declaration (row by row). -/
structure aiMatrix4x4 where
  a1 : ℚ
  a2 : ℚ
  a3 : ℚ
  a4 : ℚ
  b1 : ℚ
  b2 : ℚ
  b3 : ℚ
  b4 : ℚ
  c1 : ℚ
  c2 : ℚ
  c3 : ℚ
  c4 : ℚ
  d1 : ℚ
  d2 : ℚ
  d3 : ℚ
  d4 : ℚ
  deriving DecidableEq

/-- The member function `aiMatrix4x4::Transpose` of the import library: the members
on either side of the diagonal are swapped. -/
def aiMatrix4x4.Transpose (m : aiMatrix4x4) : aiMatrix4x4 :=
  { a1 := m.a1, a2 := m.b1, a3 := m.c1, a4 := m.d1
    b1 := m.a2, b2 := m.b2, b3 := m.c2, b4 := m.d2
    c1 := m.a3, c2 := m.b3, c3 := m.c3, c4 := m.d3
    d1 := m.a4, d2 := m.b4, d3 := m.c4, d4 := m.d4 }

/-- A `vsg::mat4`, as the sixteen floats that it holds, in memory order. -/
structure mat4 where
  data : List ℚ
  deriving DecidableEq

/-- The conversion `vsg::mat4((float*)&m)` of line 468: the sixteen floats of `m` in
the order in which they lie in memory. -/
def mat4.create (m : aiMatrix4x4) : mat4 :=
  ⟨[m.a1, m.a2, m.a3, m.a4, m.b1, m.b2, m.b3, m.b4, m.c1, m.c2, m.c3, m.c4,
    m.d1, m.d2, m.d3, m.d4]⟩

/-- A node `aiNode` of the source scene through the members that `processScene`
reads.  A value of this type is a finite tree; the array `mChildren` of a node of
the import library holds no null pointer (`mRootNode` itself may be null). -/
inductive aiNode where
  | mk (mName : List Char) (mTransformation : aiMatrix4x4) (mMeshes : List Nat)
      (mChildren : List aiNode)

/-- Member `mName`. -/
def aiNode.mName : aiNode → List Char
  | .mk mName _ _ _ => mName

/-- Member `mTransformation`. -/
def aiNode.mTransformation : aiNode → aiMatrix4x4
  | .mk _ mTransformation _ _ => mTransformation

/-- Member `mMeshes`, with `mNumMeshes` entries. -/
def aiNode.mMeshes : aiNode → List Nat
  | .mk _ _ mMeshes _ => mMeshes

/-- Member `mChildren`, with `mNumChildren` entries. -/
def aiNode.mChildren : aiNode → List aiNode
  | .mk _ _ _ mChildren => mChildren

/-- What a group of the scene graph holds as a child: a pointer to a group that the
traversal made (its place in the store of groups), a camera or light attached by
name, or the state group of a mesh. -/
inductive Child where
  | group (pointer : Nat)
  | attachment (object : Attachment)
  | stategroup (stategroup : MeshStateGroup)
  deriving DecidableEq

/-- The two kinds of group that `processScene` makes children for: the state group
`scenegraph` of line 348 and the `vsg::MatrixTransform` of a node. -/
inductive GroupKind where
  | StateGroup
  | MatrixTransform (matrix : mat4)
  deriving DecidableEq

/-- A `vsg::Group` of the scene graph under construction. -/
structure Group where
  kind : GroupKind
  children : List Child
  deriving DecidableEq

/-- The state group `scenegraph` as lines 348-350 leave it: without child. -/
def scenegraph : Group := ⟨.StateGroup, []⟩

/-- The call `parent->addChild(child)` on the store of groups, in which a
`vsg::ref_ptr<vsg::Group>` is the place of the group: the child is pushed at the end
of the children of the group at `parent`. -/
def addChild : List Group → Nat → Child → List Group
  | [], _, _ => []
  | group :: rest, 0, child => { group with children := group.children ++ [child] } :: rest
  | group :: rest, parent + 1, child => group :: addChild rest parent child

/-- What the loop over the nodes reads from the rest of `processScene`: the two maps,
the meshes of the scene and the states that `processMaterials` returned. -/
structure SceneContext where
  cameraMap : List (List Char × Camera)
  lightMap : List (List Char × Light)
  mMeshes : List aiMesh
  stateSets : List State

/-- The mesh loop of lines 483-572 for the mesh indices of a node: the state groups
that are added to the transform, in the order of the indices.  The subscript
`scene->mMeshes[index]` outside the array is undefined behaviour. -/
def meshLoop (mMeshes : List aiMesh) (stateSets : List State) :
    List Nat → Except Fault (List Child)
  | [] => .ok []
  | index :: rest =>
    match mMeshes[index]? with
    | none => .error .undefined_behaviour
    | some mesh =>
      match meshLoop mMeshes stateSets rest with
      | .error e => .error e
      | .ok children => .ok (.stategroup (convertMesh stateSets mesh) :: children)

/-- Lines 465-572, the body of `if (node)` up to `nodes.pop()`: the transform `xform`
is made with the transposed matrix of the node and added to `parent`, then it gets
the camera and the light of the node's name and one state group for every mesh of
the node.  The results are the store and the pointer `xform`. -/
def visitNode (scene : SceneContext) (store : List Group) (node : aiNode) (parent : Nat) :
    Except Fault (List Group × Nat) :=
  let xform := store.length
  match meshLoop scene.mMeshes scene.stateSets node.mMeshes with
  | .error e => .error e
  | .ok stategroups =>
    .ok (addChild store parent (.group xform) ++
      [⟨.MatrixTransform (mat4.create node.mTransformation.Transpose),
        (nodeAttachments scene.cameraMap scene.lightMap node.mName).map .attachment ++
          stategroups⟩], xform)

/-- The loop of lines 576-577: every child is pushed with `xform` as its parent, in
the order of `mChildren`, so the last child comes to lie on top of the stack. -/
def pushChildren : List aiNode → Nat → List (Option aiNode × Nat) → List (Option aiNode × Nat)
  | [], _, nodes => nodes
  | child :: rest, xform, nodes => pushChildren rest xform ((some child, xform) :: nodes)

/-- The loop `while (!nodes.empty())` of lines 459-583 with a bound on the number of
its rounds: the stack `nodes` is a list whose head is the top.  The result is `none`
when the stack is not empty after `rounds` rounds. -/
def nodeLoop (scene : SceneContext) :
    Nat → List Group → List (Option aiNode × Nat) → Option (Except Fault (List Group))
  | _, store, [] => some (.ok store)
  | 0, _, _ :: _ => none
  | rounds + 1, store, (none, _) :: nodes => nodeLoop scene rounds store nodes
  | rounds + 1, store, (some node, parent) :: nodes =>
    match visitNode scene store node parent with
    | .error e => some (.error e)
    | .ok (store1, xform) =>
      nodeLoop scene rounds store1 (pushChildren node.mChildren xform nodes)

/-- Lines 456-583: the stack starts with the pair of `scene->mRootNode` and
`scenegraph`, which is the group at 0 of the store. -/
def traverse (scene : SceneContext) (rounds : Nat) (mRootNode : Option aiNode) :
    Option (Except Fault (List Group)) :=
  nodeLoop scene rounds [scenegraph] [(mRootNode, 0)]

/-! ## Source trees and trees of transforms -/

mutual
/-- The number of nodes of a source tree. -/
def aiNode.size : aiNode → Nat
  | .mk _ _ _ mChildren => 1 + aiNode.sizeList mChildren
/-- The number of nodes of a list of source trees. -/
def aiNode.sizeList : List aiNode → Nat
  | [] => 0
  | child :: rest => aiNode.size child + aiNode.sizeList rest
end

mutual
/-- Every mesh index of every node of the tree is below `mNumMeshes`. -/
def aiNode.meshesBelow (mNumMeshes : Nat) : aiNode → Bool
  | .mk _ _ mMeshes mChildren =>
    mMeshes.all (fun index => decide (index < mNumMeshes)) &&
      aiNode.meshesBelowList mNumMeshes mChildren
/-- Every mesh index of every node of the trees is below `mNumMeshes`. -/
def aiNode.meshesBelowList (mNumMeshes : Nat) : List aiNode → Bool
  | [] => true
  | child :: rest =>
    aiNode.meshesBelow mNumMeshes child && aiNode.meshesBelowList mNumMeshes rest
end

/-- Is the group a `vsg::MatrixTransform`? -/
def Group.isTransform (group : Group) : Bool :=
  match group.kind with
  | .StateGroup => false
  | .MatrixTransform _ => true

/-- The pointers to groups among the children of a group, in the order in which they
were added. -/
def Group.groups (group : Group) : List Nat :=
  group.children.filterMap (fun child =>
    match child with
    | .group pointer => some pointer
    | _ => none)

/-- The pointers that are attached as children somewhere in the store: the groups
among the children of every group of the store, one entry for every attachment. -/
def attached (store : List Group) : List Nat :=
  (store.map Group.groups).flatten

mutual
/-- The group at `pointer` is the transform of the node: it is a
`vsg::MatrixTransform` with the transposed matrix of the node, and the groups among
its children, taken from the last added to the first, are the transforms of the
children of the node, in the order of `mChildren`. -/
def mirrors (store : List Group) : aiNode → Nat → Bool
  | .mk _ mTransformation _ mChildren, pointer =>
    match store[pointer]? with
    | none => false
    | some group =>
      decide (group.kind = .MatrixTransform (mat4.create mTransformation.Transpose)) &&
        mirrorsList store mChildren group.groups.reverse
/-- The groups at `pointers` are, one by one, the transforms of the nodes. -/
def mirrorsList (store : List Group) : List aiNode → List Nat → Bool
  | [], [] => true
  | child :: rest, pointer :: pointers =>
    mirrors store child pointer && mirrorsList store rest pointers
  | _, _ => false
end

/-! ## The groups that the traversal makes for a tree -/

/-- The children that `visitNode` gives to the transform of a node. -/
def ownChildren (scene : SceneContext) (mName : List Char) (mMeshes : List Nat) : List Child :=
  (nodeAttachments scene.cameraMap scene.lightMap mName).map .attachment ++
    (match meshLoop scene.mMeshes scene.stateSets mMeshes with
      | .ok stategroups => stategroups
      | .error _ => [])

/-- The pointers of the transforms of a list of sibling nodes when the first
transform made for them lies at `start`: the siblings are visited from the last to
the first, and the transforms of a subtree lie next to each other. -/
def childPointers : List aiNode → Nat → List Nat
  | [], _ => []
  | _ :: rest, start => childPointers rest start ++ [start + aiNode.sizeList rest]

mutual
/-- The groups made for the subtree of a node whose transform lies at `xform`, in the
order of their places in the store. -/
def subtreeGroups (scene : SceneContext) : aiNode → Nat → List Group
  | .mk mName mTransformation mMeshes mChildren, xform =>
    ⟨.MatrixTransform (mat4.create mTransformation.Transpose),
      ownChildren scene mName mMeshes ++ (childPointers mChildren (xform + 1)).map .group⟩ ::
      forestGroups scene mChildren (xform + 1)
/-- The groups made for the subtrees of a list of sibling nodes, the first of which
lies at `start`. -/
def forestGroups (scene : SceneContext) : List aiNode → Nat → List Group
  | [], _ => []
  | child :: rest, start =>
    forestGroups scene rest start ++ subtreeGroups scene child (start + aiNode.sizeList rest)
end

/-- The children pushed at the end of the children of the group at `parent`. -/
def addChildren : List Group → Nat → List Child → List Group
  | [], _, _ => []
  | group :: rest, 0, children => { group with children := group.children ++ children } :: rest
  | group :: rest, parent + 1, children => group :: addChildren rest parent children

/-! ## A sample tree -/

/-- The matrix of a translation by (x, 0, 0). -/
def translation (x : ℚ) : aiMatrix4x4 :=
  { a1 := 1, a2 := 0, a3 := 0, a4 := x
    b1 := 0, b2 := 1, b3 := 0, b4 := 0
    c1 := 0, c2 := 0, c3 := 1, c4 := 0
    d1 := 0, d2 := 0, d3 := 0, d4 := 1 }

/-- A tree of four nodes: the root `r` has the children `a` and `b`, and `a` has the
child `c`; the node `b` refers to the mesh 0. -/
def sampleTree : aiNode :=
  .mk ['r'] (translation 0) []
    [.mk ['a'] (translation 1) [] [.mk ['c'] (translation 3) [] []],
     .mk ['b'] (translation 2) [0] []]

/-- A mesh of one triangle. -/
def triangleMesh : aiMesh :=
  { mNumVertices := 3
    mVertices := fun j => ⟨j, 0, 0⟩
    mNormals := none
    mTextureCoords0 := none
    mFaces := [⟨[0, 1, 2]⟩]
    mMaterialIndex := 0 }

/-- A scene with the mesh `triangleMesh`, without camera, light or material. -/
def sampleScene : SceneContext :=
  { cameraMap := [], lightMap := [], mMeshes := [triangleMesh], stateSets := [] }

end assimp

namespace NastranImplementation

/-! ## C1: the acceptance gate -/

theorem sort_perm (v : List Int) : (sort v).Perm v :=
  List.perm_insertionSort _ v

theorem sort_sorted (v : List Int) : (sort v).Sorted (fun a b => a ≤ b) :=
  List.sorted_insertionSort _ v

theorem mem_sort (v : List Int) (g : Int) : g ∈ sort v ↔ g ∈ v :=
  (sort_perm v).mem_iff

theorem length_sort (v : List Int) : (sort v).length = v.length :=
  (sort_perm v).length_eq

/-- After the gate, `assemble` ends in a fault or in a scene, never in the empty
result. -/
theorem assemble_eq_none_iff (st : ParseState) :
    assemble st = .ok none ↔ sort st.temperatureIDs ≠ sort st.gridIDs := by
  unfold assemble
  by_cases h : sort st.temperatureIDs = sort st.gridIDs
  · simp only [h, ne_eq, not_true_eq_false, if_false, ShaderStage.create]
    split
    · simp
    · split <;> simp
  · simp [h]

/-- C1: when every record parses (the line loop ends without a fault, leaving the
vectors `st`), `read` returns the empty result exactly when the ascending sorted GRID
IDs differ from the ascending sorted TEMP IDs; in particular an input with a GRID ID
that no TEMP record carries is rejected. -/
theorem read_empty_iff_ids_differ (stof : List Char → Except Fault ℚ)
    (lines : List (List Char)) (st : ParseState)
    (hparse : readLoop stof lines ParseState.initial = .ok st) :
    (read stof lines = .ok none ↔ sort st.gridIDs ≠ sort st.temperatureIDs) ∧
    ((∃ g ∈ st.gridIDs, g ∉ st.temperatureIDs) → read stof lines = .ok none) := by
  have hread : read stof lines = assemble st := by simp [read, hparse]
  have hiff : read stof lines = .ok none ↔ sort st.gridIDs ≠ sort st.temperatureIDs := by
    rw [hread, assemble_eq_none_iff]
    exact ⟨fun h e => h e.symm, fun h e => h e.symm⟩
  refine ⟨hiff, ?_⟩
  rintro ⟨g, hg, hng⟩
  apply hiff.mpr
  intro heq
  apply hng
  rw [← mem_sort, ← heq, mem_sort]
  exact hg

theorem read_empty_iff_ids_differ_witness :
    readLoop stofInteger
        [['G', 'R', 'I', 'D', ',', '5'], ['T', 'E', 'M', 'P', ',', '1', ',', '7']]
        ParseState.initial = .ok ⟨[⟨0, 0, 0⟩], [5], [], [7], []⟩ ∧
    (read stofInteger
        [['G', 'R', 'I', 'D', ',', '5'], ['T', 'E', 'M', 'P', ',', '1', ',', '7']] = .ok none ↔
      sort [5] ≠ sort [7]) ∧
    ((∃ g ∈ [(5 : Int)], g ∉ [(7 : Int)]) →
      read stofInteger
        [['G', 'R', 'I', 'D', ',', '5'], ['T', 'E', 'M', 'P', ',', '1', ',', '7']] = .ok none) :=
  ⟨by rfl,
   read_empty_iff_ids_differ stofInteger
    [['G', 'R', 'I', 'D', ',', '5'], ['T', 'E', 'M', 'P', ',', '1', ',', '7']]
    ⟨[⟨0, 0, 0⟩], [5], [], [7], []⟩ (by rfl)⟩

/-! ## Lengths of the parsed vectors -/

theorem parseGridsLoop_ids (stof : List Char → Except Fault ℚ) (out : List (List Char)) :
    ∀ (index : Nat) (v : vec3) (ids : List Int) (r : vec3 × List Int),
      parseGridsLoop stof index out v ids = .ok r →
      r.2.length ≤ ids.length + (if index ≤ 1 then 1 else 0) := by
  induction out with
  | nil =>
    intro index v ids r h
    simp only [parseGridsLoop, Except.ok.injEq] at h
    subst h
    simp
  | cons s out ih =>
    intro index v ids r h
    unfold parseGridsLoop at h
    split_ifs at h with h1 h3 h4 h5
    · cases hs : stoi s with
      | error e => simp [hs] at h
      | ok id =>
        simp only [hs] at h
        have := ih (index + 1) v (ids ++ [id]) r h
        simp [h1] at this ⊢
        omega
    · cases hs : stof s with
      | error e => simp [hs] at h
      | ok x =>
        simp only [hs] at h
        have := ih (index + 1) _ ids r h
        simp [h3] at this ⊢
        omega
    · cases hs : stof s with
      | error e => simp [hs] at h
      | ok x =>
        simp only [hs] at h
        have := ih (index + 1) _ ids r h
        simp [h4] at this ⊢
        omega
    · cases hs : stof s with
      | error e => simp [hs] at h
      | ok x =>
        simp only [hs] at h
        have := ih (index + 1) _ ids r h
        simp [h5] at this ⊢
        omega
    · have := ih (index + 1) v ids r h
      split_ifs at this ⊢ <;> omega

theorem parseTempLoop_past (stof : List Char → Except Fault ℚ) (out : List (List Char)) :
    ∀ (index : Nat) (tl : List ℚ) (ids : List Int),
      3 < index → parseTempLoop stof index out tl ids = .ok (tl, ids) := by
  induction out with
  | nil => intro index tl ids _; simp [parseTempLoop]
  | cons s out ih =>
    intro index tl ids hi
    have e2 : ¬ index = 2 := by omega
    have e3 : ¬ index = 3 := by omega
    simp only [parseTempLoop, e2, e3, if_false]
    exact ih (index + 1) tl ids (by omega)

theorem parseTempLoop_lengths (stof : List Char → Except Fault ℚ) (out : List (List Char)) :
    ∀ (index : Nat) (tl : List ℚ) (ids : List Int) (r : List ℚ × List Int),
      parseTempLoop stof index out tl ids = .ok r →
      ∃ a b : Nat, r.1.length = tl.length + a ∧ r.2.length = ids.length + b ∧
        (index ≤ 2 → a ≤ b) ∧ (3 ≤ index → a ≤ 1 ∧ b = 0) := by
  induction out with
  | nil =>
    intro index tl ids r h
    simp only [parseTempLoop, Except.ok.injEq] at h
    subst h
    exact ⟨0, 0, by simp⟩
  | cons s out ih =>
    intro index tl ids r h
    unfold parseTempLoop at h
    split_ifs at h with h2 h3
    · cases hs : stoi s with
      | error e => simp [hs] at h
      | ok id =>
        simp only [hs] at h
        obtain ⟨a, b, ha, hb, _, h4⟩ := ih (index + 1) tl (ids ++ [id]) r h
        refine ⟨a, b + 1, ha, by simp [hb]; omega, ?_, by omega⟩
        intro _
        have := h4 (by omega)
        omega
    · cases hs : stof s with
      | error e => simp [hs] at h
      | ok t =>
        simp only [hs] at h
        rw [parseTempLoop_past stof out (index + 1) (tl ++ [t]) ids (by omega)] at h
        injection h with h
        subst h
        exact ⟨1, 0, by simp, by simp, by omega, by omega⟩
    · obtain ⟨a, b, ha, hb, h3', h4⟩ := ih (index + 1) tl ids r h
      refine ⟨a, b, ha, hb, ?_, ?_⟩
      · intro hi; exact h3' (by omega)
      · intro hi; exact h4 (by omega)

theorem readLine_balanced (stof : List Char → Except Fault ℚ) (st st1 : ParseState)
    (line : List Char) (hb : st.Balanced) (h : readLine stof st line = .ok st1) :
    st1.Balanced := by
  unfold readLine at h
  obtain ⟨hg, ht⟩ := hb
  split_ifs at h
  · unfold parseGridsToIDAndVec3Vec at h
    cases hp : parseGridsLoop stof 0 (tokens line) ⟨0, 0, 0⟩ st.gridIDs with
    | error e => simp [hp] at h
    | ok r =>
      obtain ⟨v, ids⟩ := r
      simp only [hp, Except.ok.injEq] at h
      subst h
      have := parseGridsLoop_ids stof _ _ _ _ _ hp
      simp at this
      exact ⟨by simp; omega, ht⟩
  · cases hp : parseTRIAToIDList line st.unfoldedIDList with
    | error e => simp [hp] at h
    | ok r =>
      simp only [hp, Except.ok.injEq] at h
      subst h
      exact ⟨hg, ht⟩
  · cases hp : parseQUADToIDList line st.unfoldedIDList with
    | error e => simp [hp] at h
    | ok r =>
      simp only [hp, Except.ok.injEq] at h
      subst h
      exact ⟨hg, ht⟩
  · unfold parseTempToIDandFloatVec at h
    cases hp : parseTempLoop stof 0 (tokens line) st.temperatureList st.temperatureIDs with
    | error e => simp [hp] at h
    | ok r =>
      obtain ⟨tl, ids⟩ := r
      simp only [hp, Except.ok.injEq] at h
      subst h
      obtain ⟨a, b, ha, hb, hab, _⟩ := parseTempLoop_lengths stof _ _ _ _ _ hp
      have := hab (by omega)
      refine ⟨hg, ?_⟩
      simp only at ha hb ⊢
      omega
  · simp only [Except.ok.injEq] at h
    subst h
    exact ⟨hg, ht⟩

theorem readLoop_balanced (stof : List Char → Except Fault ℚ) (lines : List (List Char)) :
    ∀ (st st1 : ParseState), st.Balanced → readLoop stof lines st = .ok st1 → st1.Balanced := by
  induction lines with
  | nil =>
    intro st st1 hb h
    simp only [readLoop, Except.ok.injEq] at h
    subst h
    exact hb
  | cons line rest ih =>
    intro st st1 hb h
    unfold readLoop at h
    cases hl : readLine stof st line with
    | error e => simp [hl] at h
    | ok st2 =>
      simp only [hl] at h
      exact ih st2 st1 (readLine_balanced stof st st2 line hb hl) h

theorem initial_balanced : ParseState.initial.Balanced := by
  simp [ParseState.Balanced, ParseState.initial]

/-! ## C3: the map from GRID IDs to indices -/

theorem mapFind_append (m : List (Int × Int)) (k v g : Int) :
    mapFind (m ++ [(k, v)]) g =
      match mapFind m g with
      | some x => some x
      | none => if k = g then some v else none := by
  induction m with
  | nil => simp [mapFind]
  | cons p m ih =>
    obtain ⟨k1, v1⟩ := p
    by_cases h : k1 = g
    · simp [mapFind, h]
    · simp [mapFind, h, ih]

theorem mapFind_mapInsert (m : List (Int × Int)) (k v g : Int) :
    mapFind (mapInsert m (k, v)) g =
      match mapFind m g with
      | some x => some x
      | none => if k = g then some v else none := by
  unfold mapInsert
  cases hk : mapFind m k with
  | none =>
    simp only [mapFind_append]
  | some x =>
    simp only
    cases hg : mapFind m g with
    | some y => rfl
    | none =>
      have : ¬ k = g := by
        intro e
        rw [e, hg] at hk
        exact Option.noConfusion hk
      simp [this]

/-- What the loop of lines 261-270 leaves in the map: the pairs it found there, and
for every other ID of the list the counter value at the first place of the ID. -/
theorem mapFind_buildGridToIndexMap (l : List Int) :
    ∀ (k : Int) (m : List (Int × Int)) (g : Int),
      mapFind (buildGridToIndexMap l k m) g =
        match mapFind m g with
        | some x => some x
        | none => if g ∈ l then some (k + (l.indexOf g : Nat)) else none := by
  induction l with
  | nil =>
    intro k m g
    cases h : mapFind m g <;> simp [buildGridToIndexMap, h]
  | cons a l ih =>
    intro k m g
    simp only [buildGridToIndexMap]
    rw [ih (k + 1) (mapInsert m (a, k)) g, mapFind_mapInsert]
    cases h : mapFind m g with
    | some x => rfl
    | none =>
      by_cases hag : a = g
      · subst hag
        simp
      · have hga : ¬ g = a := fun e => hag e.symm
        simp only [hag, if_false, List.mem_cons, hga, false_or]
        by_cases hgl : g ∈ l
        · simp only [hgl, if_true, Option.some.injEq]
          rw [List.indexOf_cons_ne _ hag]
          push_cast
          ring
        · simp [hgl]

/-- The map of `read`: an ID is a key exactly when some GRID record carries it, and
its value is the position of its first place in the ascending sorted ID list. -/
theorem mapFind_gridToIndexMap (st : ParseState) (g : Int) :
    mapFind (gridToIndexMap st) g =
      if g ∈ st.gridIDs then some (((sort st.gridIDs).indexOf g : Nat) : Int) else none := by
  unfold gridToIndexMap
  rw [mapFind_buildGridToIndexMap]
  simp [mapFind, mem_sort]

theorem mapIndex_gridToIndexMap (st : ParseState) (g : Int) (hg : g ∈ st.gridIDs) :
    mapIndex (gridToIndexMap st) g = (((sort st.gridIDs).indexOf g : Nat) : Int) := by
  simp [mapIndex, mapSubscript, mapFind_gridToIndexMap, hg]

theorem copyArrays_ok (gridList : List vec3) :
    ∀ (temperatureList : List (Option ℚ)) (r : List vec3 × List (Option ℚ)),
      copyArrays gridList temperatureList = .ok r →
      r.1 = gridList ∧ gridList.length ≤ temperatureList.length ∧
        r.2 = temperatureList.take gridList.length := by
  induction gridList with
  | nil =>
    intro tl r h
    simp only [copyArrays, Except.ok.injEq] at h
    subst h
    simp
  | cons g gl ih =>
    intro tl r h
    cases tl with
    | nil => simp [copyArrays] at h
    | cons t tl =>
      unfold copyArrays at h
      cases hc : copyArrays gl tl with
      | error e => simp [hc] at h
      | ok r1 =>
        obtain ⟨vs, ts⟩ := r1
        simp only [hc, Except.ok.injEq] at h
        subst h
        obtain ⟨h1, h2, h3⟩ := ih tl _ hc
        simp only at h1 h3
        simp [h1, h3, h2]

theorem normalizeTemperatures_ok (temperatures : List ℚ) (out : List (Option ℚ))
    (h : normalizeTemperatures temperatures = .ok out) :
    out.length = temperatures.length ∧ temperatures ≠ [] := by
  cases temperatures with
  | nil => simp [normalizeTemperatures, maxElement] at h
  | cons t ts =>
    simp only [normalizeTemperatures, maxElement, minElement, Except.ok.injEq] at h
    subst h
    simp

/-- What a scene returned by `assemble` is made of. -/
theorem assemble_ok (st : ParseState) (scene : StateGroup)
    (h : assemble st = .ok (some scene)) :
    sort st.temperatureIDs = sort st.gridIDs ∧
    ∃ temperatureList, normalizeTemperatures st.temperatureList = .ok temperatureList ∧
      st.gridList.length ≤ temperatureList.length ∧
      scene.vsg_vertices = st.gridList ∧
      scene.vsg_temperatures = temperatureList.take st.gridList.length ∧
      scene.vsg_indices = remapLoop st.unfoldedIDList (gridToIndexMap st) ∧
      scene.indexCount = scene.vsg_indices.length := by
  unfold assemble at h
  by_cases hs : sort st.temperatureIDs = sort st.gridIDs
  · refine ⟨hs, ?_⟩
    simp only [hs, ne_eq, not_true_eq_false, if_false, ShaderStage.create] at h
    cases hn : normalizeTemperatures st.temperatureList with
    | error e => simp [hn] at h
    | ok tl =>
      simp only [hn] at h
      cases hc : copyArrays st.gridList tl with
      | error e => simp [hc] at h
      | ok r =>
        obtain ⟨vs, ts⟩ := r
        simp only [hc, Except.ok.injEq, Option.some.injEq] at h
        subst h
        obtain ⟨h1, h2, h3⟩ := copyArrays_ok _ _ _ hc
        exact ⟨tl, rfl, h2, h1, h3, rfl, rfl⟩
  · simp [hs] at h

/-- In an accepted input the number of emitted vertices is the number of GRID IDs. -/
theorem accepted_lengths (stof : List Char → Except Fault ℚ) (lines : List (List Char))
    (st : ParseState) (scene : StateGroup)
    (hparse : readLoop stof lines ParseState.initial = .ok st)
    (hacc : read stof lines = .ok (some scene)) :
    scene.vsg_vertices.length = st.gridIDs.length ∧
    scene.vsg_temperatures.length = st.gridIDs.length ∧
    st.gridList.length = st.gridIDs.length ∧
    st.temperatureList.length = st.gridIDs.length := by
  have hread : assemble st = .ok (some scene) := by simpa [read, hparse] using hacc
  obtain ⟨hs, tl, hn, hle, hv, ht, _, _⟩ := assemble_ok st scene hread
  obtain ⟨hg, htl⟩ := readLoop_balanced stof lines _ st initial_balanced hparse
  have h1 := (normalizeTemperatures_ok _ _ hn).1
  have h2 : st.temperatureIDs.length = st.gridIDs.length := by
    rw [← length_sort st.temperatureIDs, hs, length_sort]
  rw [hv, ht, List.length_take]
  omega

/-- C3 (as amended): for every accepted input whose GRID IDs are pairwise distinct,
the keys of the map built by `read` are exactly the GRID IDs and the map is a
bijection from the set of GRID IDs onto the indices 0, ..., n-1, with n the number
of emitted vertices. -/
theorem gridToIndexMap_bijective (stof : List Char → Except Fault ℚ)
    (lines : List (List Char)) (st : ParseState) (scene : StateGroup)
    (hparse : readLoop stof lines ParseState.initial = .ok st)
    (hacc : read stof lines = .ok (some scene))
    (hdistinct : st.gridIDs.Nodup) :
    (∀ g, (mapFind (gridToIndexMap st) g).isSome ↔ g ∈ st.gridIDs) ∧
    Set.BijOn (mapIndex (gridToIndexMap st)) {g | g ∈ st.gridIDs}
      {i | 0 ≤ i ∧ i < (scene.vsg_vertices.length : Int)} := by
  have hlen := (accepted_lengths stof lines st scene hparse hacc).1
  have hnd : (sort st.gridIDs).Nodup := (sort_perm st.gridIDs).nodup_iff.mpr hdistinct
  refine ⟨?_, ?_, ?_, ?_⟩
  · intro g
    rw [mapFind_gridToIndexMap]
    by_cases hg : g ∈ st.gridIDs <;> simp [hg]
  · intro g hg
    simp only [Set.mem_setOf_eq] at hg ⊢
    rw [mapIndex_gridToIndexMap st g hg, hlen, ← length_sort st.gridIDs]
    have : (sort st.gridIDs).indexOf g < (sort st.gridIDs).length :=
      List.indexOf_lt_length.mpr ((mem_sort _ _).mpr hg)
    omega
  · intro g hg g' hg' heq
    simp only [Set.mem_setOf_eq] at hg hg'
    rw [mapIndex_gridToIndexMap st g hg, mapIndex_gridToIndexMap st g' hg'] at heq
    have heq' : (sort st.gridIDs).indexOf g = (sort st.gridIDs).indexOf g' := by exact_mod_cast heq
    exact (List.indexOf_inj ((mem_sort _ _).mpr hg) ((mem_sort _ _).mpr hg')).mp heq'
  · intro i hi
    simp only [Set.mem_setOf_eq] at hi
    obtain ⟨h0, h1⟩ := hi
    rw [hlen, ← length_sort st.gridIDs] at h1
    have hi' : i.toNat < (sort st.gridIDs).length := by omega
    refine ⟨(sort st.gridIDs)[i.toNat], ?_, ?_⟩
    · simp only [Set.mem_setOf_eq]
      exact (mem_sort _ _).mp (List.getElem_mem _)
    · have hmem : (sort st.gridIDs)[i.toNat] ∈ st.gridIDs :=
        (mem_sort _ _).mp (List.getElem_mem _)
      rw [mapIndex_gridToIndexMap st _ hmem, List.indexOf_getElem hnd]
      omega

/-! ## C4: temperature normalization -/


theorem maxElementFrom_ge (ts : List ℚ) :
    ∀ largest : ℚ, largest ≤ maxElementFrom largest ts ∧
      ∀ t ∈ ts, t ≤ maxElementFrom largest ts := by
  induction ts with
  | nil => intro l; simp [maxElementFrom]
  | cons a ts ih =>
    intro l
    simp only [maxElementFrom, List.mem_cons]
    obtain ⟨h1, h2⟩ := ih (if l < a then a else l)
    have hl : l ≤ (if l < a then a else l) := by
      split_ifs with h
      · exact le_of_lt h
      · exact le_refl l
    have ha : a ≤ (if l < a then a else l) := by
      split_ifs with h
      · exact le_refl a
      · exact not_lt.mp h
    refine ⟨le_trans hl h1, ?_⟩
    intro t ht
    rcases ht with rfl | ht
    · exact le_trans ha h1
    · exact h2 t ht

theorem minElementFrom_le (ts : List ℚ) :
    ∀ smallest : ℚ, minElementFrom smallest ts ≤ smallest ∧
      ∀ t ∈ ts, minElementFrom smallest ts ≤ t := by
  induction ts with
  | nil => intro l; simp [minElementFrom]
  | cons a ts ih =>
    intro l
    simp only [minElementFrom, List.mem_cons]
    obtain ⟨h1, h2⟩ := ih (if a < l then a else l)
    have hl : (if a < l then a else l) ≤ l := by
      split_ifs with h
      · exact le_of_lt h
      · exact le_refl l
    have ha : (if a < l then a else l) ≤ a := by
      split_ifs with h
      · exact le_refl a
      · exact not_lt.mp h
    refine ⟨le_trans h1 hl, ?_⟩
    intro t ht
    rcases ht with rfl | ht
    · exact le_trans h1 ha
    · exact h2 t ht

/-- The maximum and the minimum that `normalizeTemperatures` reads bound every entry
of a list with an entry. -/
theorem extrema_bounds (t : ℚ) (ts : List ℚ) :
    ∀ u ∈ t :: ts, minElementFrom t ts ≤ u ∧ u ≤ maxElementFrom t ts := by
  intro u hu
  rcases List.mem_cons.mp hu with rfl | hu
  · exact ⟨(minElementFrom_le ts u).1, (maxElementFrom_ge ts u).1⟩
  · exact ⟨(minElementFrom_le ts t).2 u hu, (maxElementFrom_ge ts t).2 u hu⟩

/-- C4 (as amended): for every list of temperatures that holds two different values,
`normalizeTemperatures` returns a list of the same length in which every entry is a
number of the closed interval [0,1], every entry that held the global minimum is 0
and every entry that held the global maximum is 1. -/
theorem normalizeTemperatures_unit_interval (temperatures : List ℚ)
    (hne : ∃ a ∈ temperatures, ∃ b ∈ temperatures, a ≠ b) :
    ∃ out, normalizeTemperatures temperatures = .ok out ∧
      out.length = temperatures.length ∧
      ∀ (i : Nat) (temp : ℚ), temperatures[i]? = some temp →
        ∃ q : ℚ, out[i]? = some (some q) ∧ 0 ≤ q ∧ q ≤ 1 ∧
          ((∀ u ∈ temperatures, temp ≤ u) → q = 0) ∧
          ((∀ u ∈ temperatures, u ≤ temp) → q = 1) := by
  cases temperatures with
  | nil => obtain ⟨a, ha, _⟩ := hne; simp at ha
  | cons t ts =>
    obtain ⟨a, ha, b, hb, hab⟩ := hne
    have hbd := extrema_bounds t ts
    have hlt : minElementFrom t ts < maxElementFrom t ts := by
      rcases lt_or_gt_of_ne hab with h | h
      · exact lt_of_le_of_lt (hbd a ha).1 (lt_of_lt_of_le h (hbd b hb).2)
      · exact lt_of_le_of_lt (hbd b hb).1 (lt_of_lt_of_le h (hbd a ha).2)
    have hpos : 0 < maxElementFrom t ts - minElementFrom t ts := sub_pos.mpr hlt
    refine ⟨(t :: ts).map (fun temp => divide (temp - minElementFrom t ts) (maxElementFrom t ts - minElementFrom t ts)), by simp only [normalizeTemperatures, maxElement, minElement], by simp, ?_⟩
    intro i temp hi
    have hmem : temp ∈ t :: ts := List.getElem?_mem hi
    refine ⟨(temp - minElementFrom t ts) / (maxElementFrom t ts - minElementFrom t ts), ?_, ?_, ?_, ?_, ?_⟩
    · rw [List.getElem?_map, hi]
      simp [divide, ne_of_gt hpos]
    · exact div_nonneg (sub_nonneg.mpr (hbd temp hmem).1) (le_of_lt hpos)
    · rw [div_le_one hpos]
      exact sub_le_sub_right (hbd temp hmem).2 _
    · intro hmin
      have h1 : temp = minElementFrom t ts := by
        apply le_antisymm
        · have : ∀ (l : List ℚ) (s : ℚ), (∀ u ∈ l, temp ≤ u) → temp ≤ s → temp ≤ minElementFrom s l := by
            intro l
            induction l with
            | nil => intro s _ hs; simpa [minElementFrom] using hs
            | cons x l ih =>
              intro s hl hs
              simp only [minElementFrom]
              apply ih
              · intro u hu; exact hl u (List.mem_cons_of_mem _ hu)
              · split_ifs
                · exact hl x (List.mem_cons_self _ _)
                · exact hs
          exact this ts t (fun u hu => hmin u (List.mem_cons_of_mem _ hu)) (hmin t (List.mem_cons_self _ _))
        · exact (hbd temp hmem).1
      rw [h1]; simp
    · intro hmax
      have h1 : temp = maxElementFrom t ts := by
        apply le_antisymm
        · exact (hbd temp hmem).2
        · have : ∀ (l : List ℚ) (s : ℚ), (∀ u ∈ l, u ≤ temp) → s ≤ temp → maxElementFrom s l ≤ temp := by
            intro l
            induction l with
            | nil => intro s _ hs; simpa [maxElementFrom] using hs
            | cons x l ih =>
              intro s hl hs
              simp only [maxElementFrom]
              apply ih
              · intro u hu; exact hl u (List.mem_cons_of_mem _ hu)
              · split_ifs
                · exact hl x (List.mem_cons_self _ _)
                · exact hs
          exact this ts t (fun u hu => hmax u (List.mem_cons_of_mem _ hu)) (hmax t (List.mem_cons_self _ _))
      rw [h1]; exact div_self (ne_of_gt hpos)


theorem normalizeTemperatures_unit_interval_witness :
    (∃ a ∈ [(0 : ℚ), 50, 100], ∃ b ∈ [(0 : ℚ), 50, 100], a ≠ b) ∧
    ∃ out, normalizeTemperatures [0, 50, 100] = .ok out ∧
      out.length = [(0 : ℚ), 50, 100].length ∧
      ∀ (i : Nat) (temp : ℚ), [(0 : ℚ), 50, 100][i]? = some temp →
        ∃ q : ℚ, out[i]? = some (some q) ∧ 0 ≤ q ∧ q ≤ 1 ∧
          ((∀ u ∈ [(0 : ℚ), 50, 100], temp ≤ u) → q = 0) ∧
          ((∀ u ∈ [(0 : ℚ), 50, 100], u ≤ temp) → q = 1) :=
  ⟨⟨0, by simp, 50, by simp, by norm_num⟩,
   normalizeTemperatures_unit_interval [0, 50, 100] ⟨0, by simp, 50, by simp, by norm_num⟩⟩

/-- C4 (counterexample): on the one-entry list `[5]` the maximum and the minimum
coincide, the divisor is zero and the entry, which held both the global minimum and
the global maximum, has no value in [0,1] afterwards. -/
theorem normalizeTemperatures_constant_list :
    normalizeTemperatures [5] = .ok [none] ∧
    ¬ ∃ out, normalizeTemperatures [5] = .ok out ∧
        ∀ v ∈ out, ∃ q : ℚ, v = some q ∧ 0 ≤ q ∧ q ≤ 1 := by
  have h : normalizeTemperatures [5] = .ok [none] := by
    simp [normalizeTemperatures, maxElement, minElement, maxElementFrom, minElementFrom, divide]
  refine ⟨h, ?_⟩
  rintro ⟨out, hout, hall⟩
  rw [h] at hout
  injection hout with hout
  subst hout
  obtain ⟨q, hq, _⟩ := hall none (List.mem_singleton.mpr rfl)
  exact Option.noConfusion hq

/-! ## C5: the quad unfold -/


theorem parseQUADLoop_past (out : List (List Char)) :
    ∀ (index : Nat) (quadIndices : List Int), 6 < index →
      parseQUADLoop index out quadIndices = .ok quadIndices := by
  induction out with
  | nil => intro index q _; simp [parseQUADLoop]
  | cons s out ih =>
    intro index q h
    have h1 : ¬ (index ≤ 6 ∧ index > 2) := by omega
    simp only [parseQUADLoop, h1, if_false]
    exact ih (index + 1) q (by omega)

theorem tokens_of_get (ts : List (List Char)) (t3 t4 t5 t6 : List Char)
    (h3 : ts[3]? = some t3) (h4 : ts[4]? = some t4)
    (h5 : ts[5]? = some t5) (h6 : ts[6]? = some t6) :
    ∃ t0 t1 t2 rest, ts = t0 :: t1 :: t2 :: t3 :: t4 :: t5 :: t6 :: rest := by
  match ts, h3, h4, h5, h6 with
  | t0 :: t1 :: t2 :: u3 :: u4 :: u5 :: u6 :: rest, h3, h4, h5, h6 =>
    simp at h3 h4 h5 h6
    subst h3 h4 h5 h6
    exact ⟨t0, t1, t2, rest, rfl⟩

/-- C5: a QUAD4 record whose columns 3..6 hold the integers a, b, c, d makes
`parseQUADToIDList` append exactly `[a, b, c, c, d, a]` at the end of the face-ID
stream; the entries already in the stream stay as they are. -/
theorem parseQUADToIDList_unfold (line : List Char) (idArray : List Int)
    (t3 t4 t5 t6 : List Char) (a b c d : Int)
    (h3 : (tokens line)[3]? = some t3) (h4 : (tokens line)[4]? = some t4)
    (h5 : (tokens line)[5]? = some t5) (h6 : (tokens line)[6]? = some t6)
    (ha : stoi t3 = .ok a) (hb : stoi t4 = .ok b) (hc : stoi t5 = .ok c)
    (hd : stoi t6 = .ok d) :
    parseQUADToIDList line idArray = .ok (idArray ++ [a, b, c, c, d, a]) := by
  obtain ⟨t0, t1, t2, rest, hts⟩ := tokens_of_get (tokens line) t3 t4 t5 t6 h3 h4 h5 h6
  have hq : parseQUADLoop 0 (tokens line) [] = .ok [a, b, c, d] := by
    rw [hts]
    simp [parseQUADLoop, ha, hb, hc, hd, parseQUADLoop_past]
  simp [parseQUADToIDList, hq, unfoldLoop, unfoldIndices]

theorem parseQUADToIDList_unfold_witness :
    stoi ['7'] = .ok 7 ∧ stoi ['8'] = .ok 8 ∧ stoi ['9'] = .ok 9 ∧ stoi ['4'] = .ok 4 ∧
    parseQUADToIDList
      ['Q', 'U', 'A', 'D', '4', ',', '1', ',', '1', ',', '7', ',', '8', ',', '9', ',', '4']
      [3, 3, 3] = .ok ([3, 3, 3] ++ [7, 8, 9, 9, 4, 7]) :=
  ⟨by rfl, by rfl, by rfl, by rfl,
   parseQUADToIDList_unfold _ [3, 3, 3] ['7'] ['8'] ['9'] ['4'] 7 8 9 4
    (by rfl) (by rfl) (by rfl) (by rfl) (by rfl) (by rfl) (by rfl) (by rfl)⟩

/-! ## C3 and C2 on sample files -/

theorem assemble_distinct :
    assemble ⟨[⟨1, 0, 0⟩, ⟨2, 0, 0⟩], [5, 10], [0, 1], [5, 10], []⟩ =
      .ok (some ⟨mainVertexShader, mainFragmentShader, [⟨1, 0, 0⟩, ⟨2, 0, 0⟩],
        [some 0, some 1], [], 0, 1⟩) := by
  simp [assemble, sort, normalizeTemperatures, maxElement, minElement, maxElementFrom,
    minElementFrom, divide, copyArrays, remapLoop, ShaderStage.create, mainVertexShader,
    mainFragmentShader]
  norm_num

theorem gridToIndexMap_bijective_witness :
    readLoop stofInteger distinctLines ParseState.initial =
      .ok ⟨[⟨1, 0, 0⟩, ⟨2, 0, 0⟩], [5, 10], [0, 1], [5, 10], []⟩ ∧
    read stofInteger distinctLines =
      .ok (some ⟨mainVertexShader, mainFragmentShader, [⟨1, 0, 0⟩, ⟨2, 0, 0⟩],
        [some 0, some 1], [], 0, 1⟩) ∧
    [(5 : Int), 10].Nodup ∧
    (∀ g, (mapFind (gridToIndexMap ⟨[⟨1, 0, 0⟩, ⟨2, 0, 0⟩], [5, 10], [0, 1], [5, 10], []⟩)
        g).isSome ↔ g ∈ [(5 : Int), 10]) ∧
    Set.BijOn (mapIndex (gridToIndexMap ⟨[⟨1, 0, 0⟩, ⟨2, 0, 0⟩], [5, 10], [0, 1], [5, 10], []⟩))
      {g | g ∈ [(5 : Int), 10]} {i | 0 ≤ i ∧ i < ((2 : Nat) : Int)} := by
  have hparse : readLoop stofInteger distinctLines ParseState.initial =
      .ok ⟨[⟨1, 0, 0⟩, ⟨2, 0, 0⟩], [5, 10], [0, 1], [5, 10], []⟩ := by rfl
  have hacc : read stofInteger distinctLines =
      .ok (some ⟨mainVertexShader, mainFragmentShader, [⟨1, 0, 0⟩, ⟨2, 0, 0⟩],
        [some 0, some 1], [], 0, 1⟩) := by
    simp only [read, hparse]
    exact assemble_distinct
  exact ⟨hparse, hacc, by decide,
    gridToIndexMap_bijective stofInteger distinctLines _ _ hparse hacc (by decide)⟩

theorem assemble_duplicate :
    assemble ⟨[⟨1, 0, 0⟩, ⟨2, 0, 0⟩], [5, 5], [0, 1], [5, 5], []⟩ =
      .ok (some ⟨mainVertexShader, mainFragmentShader, [⟨1, 0, 0⟩, ⟨2, 0, 0⟩],
        [some 0, some 1], [], 0, 1⟩) := by
  simp [assemble, sort, normalizeTemperatures, maxElement, minElement, maxElementFrom,
    minElementFrom, divide, copyArrays, remapLoop, ShaderStage.create, mainVertexShader,
    mainFragmentShader]
  norm_num

/-- C3 (counterexample): the file `duplicateLines`, in which two GRID records carry
the ID 5, is accepted with two vertices; the map holds the single pair 5 ↦ 0, so
index 1 is the image of no GRID ID and the map is not a bijection onto {0, 1}. -/
theorem gridToIndexMap_duplicate_ids :
    readLoop stofInteger duplicateLines ParseState.initial =
      .ok ⟨[⟨1, 0, 0⟩, ⟨2, 0, 0⟩], [5, 5], [0, 1], [5, 5], []⟩ ∧
    read stofInteger duplicateLines =
      .ok (some ⟨mainVertexShader, mainFragmentShader, [⟨1, 0, 0⟩, ⟨2, 0, 0⟩],
        [some 0, some 1], [], 0, 1⟩) ∧
    gridToIndexMap ⟨[⟨1, 0, 0⟩, ⟨2, 0, 0⟩], [5, 5], [0, 1], [5, 5], []⟩ = [(5, 0)] ∧
    ¬ Set.BijOn (mapIndex (gridToIndexMap ⟨[⟨1, 0, 0⟩, ⟨2, 0, 0⟩], [5, 5], [0, 1], [5, 5], []⟩))
      {g | g ∈ [(5 : Int), 5]} {i | 0 ≤ i ∧ i < ((2 : Nat) : Int)} := by
  have hparse : readLoop stofInteger duplicateLines ParseState.initial =
      .ok ⟨[⟨1, 0, 0⟩, ⟨2, 0, 0⟩], [5, 5], [0, 1], [5, 5], []⟩ := by rfl
  have hmap : gridToIndexMap ⟨[⟨1, 0, 0⟩, ⟨2, 0, 0⟩], [5, 5], [0, 1], [5, 5], []⟩ = [(5, 0)] := by
    rfl
  refine ⟨hparse, ?_, hmap, ?_⟩
  · simp only [read, hparse]
    exact assemble_duplicate
  · intro hbij
    obtain ⟨g, hg, hg1⟩ := hbij.surjOn (show (1 : Int) ∈ {i : Int | 0 ≤ i ∧ i < ((2 : Nat) : Int)} by
      simp)
    simp only [Set.mem_setOf_eq, List.mem_cons, List.mem_singleton, or_self, List.not_mem_nil,
      or_false] at hg
    subst hg
    rw [hmap] at hg1
    simp [mapIndex, mapSubscript, mapFind] at hg1

theorem assemble_descending :
    assemble ⟨[⟨1, 0, 0⟩, ⟨2, 0, 0⟩], [10, 5], [0, 1], [10, 5], [10, 5, 10]⟩ =
      .ok (some ⟨mainVertexShader, mainFragmentShader, [⟨1, 0, 0⟩, ⟨2, 0, 0⟩],
        [some 0, some 1], [1, 0, 1], 3, 1⟩) := by
  simp [assemble, sort, normalizeTemperatures, maxElement, minElement, maxElementFrom,
    minElementFrom, divide, copyArrays, remapLoop, ShaderStage.create, mainVertexShader,
    mainFragmentShader, gridToIndexMap, buildGridToIndexMap, mapInsert, mapFind, mapSubscript]
  norm_num

/-- C2 (counterexample): in the file `descendingLines` the first GRID record has
ID 10 (position (1,0,0)) and the second has ID 5 (position (2,0,0)).  The file is
accepted, and the map gives 5 ↦ 0 and 10 ↦ 1, the ranks in the sorted ID list, so
the triangle (10, 5, 10) is emitted as `[1, 0, 1]`; first-seen numbering gives
10 ↦ 0, 5 ↦ 1 and `[0, 1, 0]`. -/
theorem read_descending_grid_ids :
    read stofInteger descendingLines =
      .ok (some ⟨mainVertexShader, mainFragmentShader, [⟨1, 0, 0⟩, ⟨2, 0, 0⟩],
        [some 0, some 1], [1, 0, 1], 3, 1⟩) ∧
    mapFind (gridToIndexMap ⟨[⟨1, 0, 0⟩, ⟨2, 0, 0⟩], [10, 5], [0, 1], [10, 5], [10, 5, 10]⟩) 10
      = some 1 ∧
    firstSeenIndex [10, 5] 10 = 0 ∧
    [(10 : Int), 5, 10].map (firstSeenIndex [10, 5]) = [0, 1, 0] ∧
    [(10 : Int), 5, 10].map (firstSeenIndex [10, 5]) ≠ [1, 0, 1] := by
  have hparse : readLoop stofInteger descendingLines ParseState.initial =
      .ok ⟨[⟨1, 0, 0⟩, ⟨2, 0, 0⟩], [10, 5], [0, 1], [10, 5], [10, 5, 10]⟩ := by rfl
  refine ⟨?_, by rfl, by rfl, by rfl, by decide⟩
  simp only [read, hparse]
  exact assemble_descending

/-! ## C2: the index of a GRID ID is its rank in the sorted ID vector -/

/-- The loop over `unfoldedIDList` replaces every entry by the value that the map
holds for it at the start of the loop, and by 0 when the map holds none: the pairs
that `operator[]` inserts carry the value 0 and keys that the map did not hold. -/
theorem remapLoop_eq (ids : List Int) :
    ∀ m : List (Int × Int),
      remapLoop ids m = ids.map (fun id => (mapFind m id).getD 0) := by
  induction ids with
  | nil => intro m; rfl
  | cons id rest ih =>
    intro m
    simp only [remapLoop, List.map_cons]
    cases hf : mapFind m id with
    | some v =>
      simp only [mapSubscript, hf, Option.getD_some]
      rw [ih m]
    | none =>
      simp only [mapSubscript, hf, Option.getD_none]
      rw [ih]
      congr 1
      apply List.map_congr_left
      intro g _
      rw [mapFind_append]
      cases hg : mapFind m g with
      | some x => rfl
      | none =>
        by_cases hk : id = g
        · simp [hk]
        · simp [hk]

/-- C2 (as amended): for every accepted input, the dense index of a GRID ID is its
zero-based position in the ascending rearrangement of the GRID IDs of the file (the
position of its first occurrence there), and the emitted index buffer is the face
stream with every reference replaced by the index of its ID; a reference to an ID
that no GRID record carries is replaced by 0. -/
theorem read_indices_sorted_rank (stof : List Char → Except Fault ℚ)
    (lines : List (List Char)) (st : ParseState) (scene : StateGroup)
    (hparse : readLoop stof lines ParseState.initial = .ok st)
    (hacc : read stof lines = .ok (some scene)) :
    (sort st.gridIDs).Sorted (fun a b => a ≤ b) ∧ (sort st.gridIDs).Perm st.gridIDs ∧
    (∀ g ∈ st.gridIDs,
      mapFind (gridToIndexMap st) g = some (((sort st.gridIDs).indexOf g : Nat) : Int)) ∧
    (∀ g, g ∉ st.gridIDs → mapFind (gridToIndexMap st) g = none) ∧
    scene.vsg_indices = st.unfoldedIDList.map (fun g =>
      if g ∈ st.gridIDs then (((sort st.gridIDs).indexOf g : Nat) : Int) else 0) := by
  have hread : assemble st = .ok (some scene) := by simpa [read, hparse] using hacc
  obtain ⟨_, tl, _, _, _, _, hi, _⟩ := assemble_ok st scene hread
  refine ⟨sort_sorted _, sort_perm _, ?_, ?_, ?_⟩
  · intro g hg
    simp [mapFind_gridToIndexMap, hg]
  · intro g hg
    simp [mapFind_gridToIndexMap, hg]
  · rw [hi, remapLoop_eq]
    apply List.map_congr_left
    intro g _
    rw [mapFind_gridToIndexMap]
    split_ifs <;> rfl

theorem read_indices_sorted_rank_witness :
    readLoop stofInteger descendingLines ParseState.initial =
      .ok ⟨[⟨1, 0, 0⟩, ⟨2, 0, 0⟩], [10, 5], [0, 1], [10, 5], [10, 5, 10]⟩ ∧
    read stofInteger descendingLines =
      .ok (some ⟨mainVertexShader, mainFragmentShader, [⟨1, 0, 0⟩, ⟨2, 0, 0⟩],
        [some 0, some 1], [1, 0, 1], 3, 1⟩) ∧
    sort [10, 5] = [5, 10] ∧
    (sort [10, 5]).Sorted (fun a b => a ≤ b) ∧ (sort [10, 5]).Perm [10, 5] ∧
    (∀ g ∈ [(10 : Int), 5],
      mapFind (gridToIndexMap ⟨[⟨1, 0, 0⟩, ⟨2, 0, 0⟩], [10, 5], [0, 1], [10, 5], [10, 5, 10]⟩)
        g = some (((sort [10, 5]).indexOf g : Nat) : Int)) ∧
    (∀ g, g ∉ [(10 : Int), 5] →
      mapFind (gridToIndexMap ⟨[⟨1, 0, 0⟩, ⟨2, 0, 0⟩], [10, 5], [0, 1], [10, 5], [10, 5, 10]⟩)
        g = none) ∧
    ([1, 0, 1] : List Int) = [(10 : Int), 5, 10].map (fun g =>
      if g ∈ [(10 : Int), 5] then (((sort [10, 5]).indexOf g : Nat) : Int) else 0) := by
  have hparse : readLoop stofInteger descendingLines ParseState.initial =
      .ok ⟨[⟨1, 0, 0⟩, ⟨2, 0, 0⟩], [10, 5], [0, 1], [10, 5], [10, 5, 10]⟩ := by rfl
  have hacc : read stofInteger descendingLines =
      .ok (some ⟨mainVertexShader, mainFragmentShader, [⟨1, 0, 0⟩, ⟨2, 0, 0⟩],
        [some 0, some 1], [1, 0, 1], 3, 1⟩) := by
    simp only [read, hparse]
    exact assemble_descending
  exact ⟨hparse, hacc, by rfl,
    read_indices_sorted_rank stofInteger descendingLines _ _ hparse hacc⟩

/-! ## C6: the three-vertex file -/

theorem fields_comma_free (a : List Char) (h : ',' ∉ a) : fields a = [a] := by
  induction a with
  | nil => rfl
  | cons c a ih =>
    have hc : ¬ c = ',' := fun e => h (e ▸ List.mem_cons_self _ _)
    have ha : ',' ∉ a := fun m => h (List.mem_cons_of_mem _ m)
    simp [fields, hc, ih ha]

theorem fields_append_comma (a rest : List Char) (h : ',' ∉ a) :
    fields (a ++ ',' :: rest) = a :: fields rest := by
  induction a with
  | nil => simp [fields]
  | cons c a ih =>
    have hc : ¬ c = ',' := fun e => h (e ▸ List.mem_cons_self _ _)
    have ha : ',' ∉ a := fun m => h (List.mem_cons_of_mem _ m)
    simp [fields, hc, ih ha]

theorem fields_joinComma (ts : List (List Char)) (hne : ts ≠ [])
    (h : ∀ t ∈ ts, ',' ∉ t) : fields (joinComma ts) = ts := by
  induction ts with
  | nil => exact absurd rfl hne
  | cons t ts ih =>
    cases ts with
    | nil => simpa [joinComma] using fields_comma_free t (h t (List.mem_cons_self _ _))
    | cons u ts =>
      simp only [joinComma]
      rw [fields_append_comma _ _ (h t (List.mem_cons_self _ _)),
        ih (List.cons_ne_nil _ _) (fun x hx => h x (List.mem_cons_of_mem _ hx))]

/-- The tokenizer gives back the columns of a line whose last column is not empty. -/
theorem tokens_joinComma (ts : List (List Char)) (hne : ts ≠ [])
    (h : ∀ t ∈ ts, ',' ∉ t) (hlast : ts.getLast? ≠ some []) : tokens (joinComma ts) = ts := by
  unfold tokens
  rw [fields_joinComma ts hne h]
  split
  · rfl
  · simp [hlast]

/-- A GRID record with six columns, the last of them not empty. -/
theorem readLine_grid (stof : List Char → Except Fault ℚ) (st : ParseState)
    (c1 c2 x y z : List Char) (id : Int) (vx vy vz : ℚ)
    (hcomma : ∀ t ∈ [c1, c2, x, y, z], ',' ∉ t) (hz : z ≠ [])
    (hid : stoi c1 = .ok id) (hx : stof x = .ok vx) (hy : stof y = .ok vy)
    (hvz : stof z = .ok vz) :
    readLine stof st (joinComma [['G', 'R', 'I', 'D'], c1, c2, x, y, z]) =
      .ok { st with gridList := st.gridList ++ [⟨vx, vy, vz⟩], gridIDs := st.gridIDs ++ [id] } := by
  have htok : tokens (joinComma [['G', 'R', 'I', 'D'], c1, c2, x, y, z]) =
      [['G', 'R', 'I', 'D'], c1, c2, x, y, z] := by
    apply tokens_joinComma
    · simp
    · intro t ht
      simp only [List.mem_cons, List.mem_singleton, List.not_mem_nil, or_false] at ht hcomma
      rcases ht with rfl | ht
      · decide
      · exact hcomma t (by simpa using ht)
    · simp [hz]
  have hfound : found keyGRID (joinComma [['G', 'R', 'I', 'D'], c1, c2, x, y, z]) = true := by
    simp [joinComma, found, startsWith, keyGRID]
  unfold readLine
  rw [hfound]
  simp [parseGridsToIDAndVec3Vec, htok, parseGridsLoop, hid, hx, hy, hvz]

/-- A TEMP record with four columns. -/
theorem readLine_temp (stof : List Char → Except Fault ℚ) (st : ParseState)
    (line c0 c1 c2 c3 : List Char) (id : Int) (v : ℚ)
    (hline : tokens line = [c0, c1, c2, c3])
    (hG : found keyGRID line = false) (hC : found keyCTRIA3 line = false)
    (hQ : found keyQUAD4 line = false) (hT : found keyTEMP line = true)
    (hid : stoi c2 = .ok id) (hv : stof c3 = .ok v) :
    readLine stof st line =
      .ok { st with temperatureList := st.temperatureList ++ [v],
                    temperatureIDs := st.temperatureIDs ++ [id] } := by
  unfold readLine
  rw [hG, hC, hQ, hT]
  simp [parseTempToIDandFloatVec, hline, parseTempLoop, hid, hv]

/-- C6: the file with the three GRID records 5, 10, 23 (coordinates given by any
texts that `std::stof` converts), the record `CTRIA3,1,1,5,10,23` and the three TEMP
records for 5, 10, 23 with the values 0, 50, 100 is accepted; the scene has the three
positions in file order, the temperatures 0, 1/2, 1 and the index buffer
`[0, 1, 2]`. -/
theorem read_three_vertex_file (stof : List Char → Except Fault ℚ)
    (x1 y1 z1 x2 y2 z2 x3 y3 z3 : List Char) (p1 p2 p3 : vec3)
    (hcomma : ∀ t ∈ [x1, y1, z1, x2, y2, z2, x3, y3, z3], ',' ∉ t)
    (hz : z1 ≠ [] ∧ z2 ≠ [] ∧ z3 ≠ [])
    (h1 : stof x1 = .ok p1.x ∧ stof y1 = .ok p1.y ∧ stof z1 = .ok p1.z)
    (h2 : stof x2 = .ok p2.x ∧ stof y2 = .ok p2.y ∧ stof z2 = .ok p2.z)
    (h3 : stof x3 = .ok p3.x ∧ stof y3 = .ok p3.y ∧ stof z3 = .ok p3.z)
    (ht0 : stof ['0'] = .ok 0) (ht50 : stof ['5', '0'] = .ok 50)
    (ht100 : stof ['1', '0', '0'] = .ok 100) :
    read stof
      [joinComma [['G', 'R', 'I', 'D'], ['5'], [], x1, y1, z1],
       joinComma [['G', 'R', 'I', 'D'], ['1', '0'], [], x2, y2, z2],
       joinComma [['G', 'R', 'I', 'D'], ['2', '3'], [], x3, y3, z3],
       ['C', 'T', 'R', 'I', 'A', '3', ',', '1', ',', '1', ',', '5', ',', '1', '0', ',', '2', '3'],
       ['T', 'E', 'M', 'P', ',', '1', ',', '5', ',', '0'],
       ['T', 'E', 'M', 'P', ',', '1', ',', '1', '0', ',', '5', '0'],
       ['T', 'E', 'M', 'P', ',', '1', ',', '2', '3', ',', '1', '0', '0']] =
      .ok (some
        { vertexShader := mainVertexShader
          fragmentShader := mainFragmentShader
          vsg_vertices := [p1, p2, p3]
          vsg_temperatures := [some 0, some (1 / 2), some 1]
          vsg_indices := [0, 1, 2]
          indexCount := 3
          instanceCount := 1 }) := by
  have hc : ∀ t, t ∈ [x1, y1, z1, x2, y2, z2, x3, y3, z3] → ',' ∉ t := hcomma
  simp only [List.mem_cons, List.mem_singleton, List.not_mem_nil, or_false] at hc
  have hnil : ',' ∉ ([] : List Char) := by simp
  have g1 := fun st => readLine_grid stof st ['5'] [] x1 y1 z1 5 p1.x p1.y p1.z
    (by
      intro t ht
      simp only [List.mem_cons, List.mem_singleton, List.not_mem_nil, or_false] at ht
      rcases ht with rfl | rfl | rfl | rfl | rfl
      · decide
      · exact hnil
      · exact hc _ (by simp)
      · exact hc _ (by simp)
      · exact hc _ (by simp))
    hz.1 (by rfl) h1.1 h1.2.1 h1.2.2
  have g2 := fun st => readLine_grid stof st ['1', '0'] [] x2 y2 z2 10 p2.x p2.y p2.z
    (by
      intro t ht
      simp only [List.mem_cons, List.mem_singleton, List.not_mem_nil, or_false] at ht
      rcases ht with rfl | rfl | rfl | rfl | rfl
      · decide
      · exact hnil
      · exact hc _ (by simp)
      · exact hc _ (by simp)
      · exact hc _ (by simp))
    hz.2.1 (by rfl) h2.1 h2.2.1 h2.2.2
  have g3 := fun st => readLine_grid stof st ['2', '3'] [] x3 y3 z3 23 p3.x p3.y p3.z
    (by
      intro t ht
      simp only [List.mem_cons, List.mem_singleton, List.not_mem_nil, or_false] at ht
      rcases ht with rfl | rfl | rfl | rfl | rfl
      · decide
      · exact hnil
      · exact hc _ (by simp)
      · exact hc _ (by simp)
      · exact hc _ (by simp))
    hz.2.2 (by rfl) h3.1 h3.2.1 h3.2.2
  have tr : ∀ st, readLine stof st
      ['C', 'T', 'R', 'I', 'A', '3', ',', '1', ',', '1', ',', '5', ',', '1', '0', ',', '2', '3'] =
      .ok { st with unfoldedIDList := st.unfoldedIDList ++ [5, 10, 23] } := by
    intro st
    have hG : found keyGRID
      ['C', 'T', 'R', 'I', 'A', '3', ',', '1', ',', '1', ',', '5', ',', '1', '0', ',', '2', '3'] =
        false := by rfl
    have hC : found keyCTRIA3
      ['C', 'T', 'R', 'I', 'A', '3', ',', '1', ',', '1', ',', '5', ',', '1', '0', ',', '2', '3'] =
        true := by rfl
    have hp : ∀ arr, parseTRIAToIDList
      ['C', 'T', 'R', 'I', 'A', '3', ',', '1', ',', '1', ',', '5', ',', '1', '0', ',', '2', '3'] arr =
        .ok (arr ++ [5, 10, 23]) := by
      intro arr
      have htok : tokens
        ['C', 'T', 'R', 'I', 'A', '3', ',', '1', ',', '1', ',', '5', ',', '1', '0', ',', '2', '3'] =
        [['C', 'T', 'R', 'I', 'A', '3'], ['1'], ['1'], ['5'], ['1', '0'], ['2', '3']] := by rfl
      have s5 : stoi ['5'] = .ok 5 := by rfl
      have s10 : stoi ['1', '0'] = .ok 10 := by rfl
      have s23 : stoi ['2', '3'] = .ok 23 := by rfl
      simp [parseTRIAToIDList, htok, parseTRIALoop, s5, s10, s23]
    unfold readLine
    rw [hG, hC]
    simp [hp]
  have t1 := fun st => readLine_temp stof st
    ['T', 'E', 'M', 'P', ',', '1', ',', '5', ',', '0'] ['T', 'E', 'M', 'P'] ['1'] ['5'] ['0'] 5 0
    (by rfl) (by rfl) (by rfl) (by rfl) (by rfl) (by rfl) ht0
  have t2 := fun st => readLine_temp stof st
    ['T', 'E', 'M', 'P', ',', '1', ',', '1', '0', ',', '5', '0'] ['T', 'E', 'M', 'P'] ['1']
    ['1', '0'] ['5', '0'] 10 50 (by rfl) (by rfl) (by rfl) (by rfl) (by rfl) (by rfl) ht50
  have t3 := fun st => readLine_temp stof st
    ['T', 'E', 'M', 'P', ',', '1', ',', '2', '3', ',', '1', '0', '0'] ['T', 'E', 'M', 'P'] ['1']
    ['2', '3'] ['1', '0', '0'] 23 100 (by rfl) (by rfl) (by rfl) (by rfl) (by rfl) (by rfl) ht100
  have hparse : readLoop stof
      [joinComma [['G', 'R', 'I', 'D'], ['5'], [], x1, y1, z1],
       joinComma [['G', 'R', 'I', 'D'], ['1', '0'], [], x2, y2, z2],
       joinComma [['G', 'R', 'I', 'D'], ['2', '3'], [], x3, y3, z3],
       ['C', 'T', 'R', 'I', 'A', '3', ',', '1', ',', '1', ',', '5', ',', '1', '0', ',', '2', '3'],
       ['T', 'E', 'M', 'P', ',', '1', ',', '5', ',', '0'],
       ['T', 'E', 'M', 'P', ',', '1', ',', '1', '0', ',', '5', '0'],
       ['T', 'E', 'M', 'P', ',', '1', ',', '2', '3', ',', '1', '0', '0']]
      ParseState.initial =
      .ok ⟨[p1, p2, p3], [5, 10, 23], [0, 50, 100], [5, 10, 23], [5, 10, 23]⟩ := by
    simp only [readLoop, g1, g2, g3, tr, t1, t2, t3, ParseState.initial, List.nil_append,
      List.cons_append]
  simp only [read, hparse]
  simp [assemble, sort, normalizeTemperatures, maxElement, minElement, maxElementFrom,
    minElementFrom, divide, copyArrays, remapLoop, ShaderStage.create, mainVertexShader,
    mainFragmentShader, gridToIndexMap, buildGridToIndexMap, mapInsert, mapFind, mapSubscript]
  norm_num

theorem read_three_vertex_file_witness :
    (stofInteger ['0'] = .ok 0 ∧ stofInteger ['5', '0'] = .ok 50 ∧
      stofInteger ['1', '0', '0'] = .ok 100) ∧
    read stofInteger
      [joinComma [['G', 'R', 'I', 'D'], ['5'], [], ['1'], ['2'], ['3']],
       joinComma [['G', 'R', 'I', 'D'], ['1', '0'], [], ['4'], ['5'], ['6']],
       joinComma [['G', 'R', 'I', 'D'], ['2', '3'], [], ['7'], ['8'], ['9']],
       ['C', 'T', 'R', 'I', 'A', '3', ',', '1', ',', '1', ',', '5', ',', '1', '0', ',', '2', '3'],
       ['T', 'E', 'M', 'P', ',', '1', ',', '5', ',', '0'],
       ['T', 'E', 'M', 'P', ',', '1', ',', '1', '0', ',', '5', '0'],
       ['T', 'E', 'M', 'P', ',', '1', ',', '2', '3', ',', '1', '0', '0']] =
      .ok (some
        { vertexShader := mainVertexShader
          fragmentShader := mainFragmentShader
          vsg_vertices := [⟨1, 2, 3⟩, ⟨4, 5, 6⟩, ⟨7, 8, 9⟩]
          vsg_temperatures := [some 0, some (1 / 2), some 1]
          vsg_indices := [0, 1, 2]
          indexCount := 3
          instanceCount := 1 }) :=
  ⟨⟨by rfl, by rfl, by rfl⟩,
   read_three_vertex_file stofInteger ['1'] ['2'] ['3'] ['4'] ['5'] ['6'] ['7'] ['8'] ['9']
    ⟨1, 2, 3⟩ ⟨4, 5, 6⟩ ⟨7, 8, 9⟩ (by decide) (by decide)
    ⟨by rfl, by rfl, by rfl⟩ ⟨by rfl, by rfl, by rfl⟩ ⟨by rfl, by rfl, by rfl⟩
    (by rfl) (by rfl) (by rfl)⟩

/-! ## C16: which lines are records -/

theorem startsWith_iff (pat : List Char) : ∀ s : List Char,
    startsWith pat s = true ↔ Begins pat s := by
  induction pat with
  | nil => intro s; simp [startsWith, Begins]
  | cons p ps ih =>
    intro s
    cases s with
    | nil => simp [startsWith, Begins]
    | cons c cs =>
      simp only [startsWith, Bool.and_eq_true, beq_iff_eq, ih cs, Begins, List.cons_append,
        List.cons.injEq]
      constructor
      · rintro ⟨rfl, after, rfl⟩
        exact ⟨after, rfl, rfl⟩
      · rintro ⟨after, rfl, rfl⟩
        exact ⟨rfl, after, rfl⟩

/-- The test `line.find(key) != std::string::npos` holds exactly when `key` occurs
somewhere in the line. -/
theorem found_iff (pat : List Char) : ∀ line : List Char,
    found pat line = true ↔ Occurs pat line := by
  intro line
  induction line with
  | nil =>
    simp only [found, startsWith_iff, Begins, Occurs]
    constructor
    · rintro ⟨after, h⟩
      exact ⟨[], after, by simpa using h⟩
    · rintro ⟨before, after, h⟩
      have hb : before = [] := by
        cases before with
        | nil => rfl
        | cons b bs => simp at h
      subst hb
      exact ⟨after, by simpa using h⟩
  | cons c cs ih =>
    simp only [found, Bool.or_eq_true, startsWith_iff, ih]
    constructor
    · rintro (⟨after, h⟩ | ⟨before, after, h⟩)
      · exact ⟨[], after, by simpa using h⟩
      · exact ⟨c :: before, after, by simp [h]⟩
    · rintro ⟨before, after, h⟩
      cases before with
      | nil => exact Or.inl ⟨after, by simpa using h⟩
      | cons b bs =>
        simp only [List.cons_append, List.cons.injEq] at h
        exact Or.inr ⟨bs, after, by simp [h.2]⟩

/-- C16 (as amended): `read` handles a line as a grid record exactly when the text
`GRID,` occurs somewhere in the line; as a triangle record when `CTRIA3,` occurs and
`GRID,` does not; as a quadrilateral record when `QUAD4,` occurs and neither of the
two before; as a temperature record when `TEMP,` occurs and none of the three
before.  A line in which none of the four texts occurs is ignored and leaves all
lists unchanged. -/
theorem readLine_by_occurrence (stof : List Char → Except Fault ℚ) (st : ParseState)
    (line : List Char) :
    (Occurs keyGRID line → readLine stof st line = handleAs stof .grid st line) ∧
    (¬ Occurs keyGRID line → Occurs keyCTRIA3 line →
      readLine stof st line = handleAs stof .triangle st line) ∧
    (¬ Occurs keyGRID line → ¬ Occurs keyCTRIA3 line → Occurs keyQUAD4 line →
      readLine stof st line = handleAs stof .quadrilateral st line) ∧
    (¬ Occurs keyGRID line → ¬ Occurs keyCTRIA3 line → ¬ Occurs keyQUAD4 line →
      Occurs keyTEMP line → readLine stof st line = handleAs stof .temperature st line) ∧
    (¬ Occurs keyGRID line → ¬ Occurs keyCTRIA3 line → ¬ Occurs keyQUAD4 line →
      ¬ Occurs keyTEMP line → readLine stof st line = .ok st) := by
  simp only [← found_iff]
  refine ⟨?_, ?_, ?_, ?_, ?_⟩
  · intro h1
    simp [readLine, handleAs, h1]
  · intro h1 h2
    simp [readLine, handleAs, h1, h2]
  · intro h1 h2 h3
    simp [readLine, handleAs, h1, h2, h3]
  · intro h1 h2 h3 h4
    simp [readLine, handleAs, h1, h2, h3, h4]
  · intro h1 h2 h3 h4
    simp [readLine, h1, h2, h3, h4]

theorem readLine_by_occurrence_witness :
    Occurs keyGRID indentedGridLine ∧
    readLine stofInteger ParseState.initial indentedGridLine =
      handleAs stofInteger .grid ParseState.initial indentedGridLine ∧
    ¬ Occurs keyGRID ['$', ' ', 'n', 'o', 't', 'e'] ∧
    readLine stofInteger ParseState.initial ['$', ' ', 'n', 'o', 't', 'e'] =
      .ok ParseState.initial := by
  have h1 : Occurs keyGRID indentedGridLine := ⟨[' '], ['5'], rfl⟩
  have hn : ∀ key, found key ['$', ' ', 'n', 'o', 't', 'e'] = false →
      ¬ Occurs key ['$', ' ', 'n', 'o', 't', 'e'] := by
    intro key hf ho
    rw [← found_iff, hf] at ho
    exact Bool.false_ne_true ho
  have h := readLine_by_occurrence stofInteger ParseState.initial indentedGridLine
  have h' := readLine_by_occurrence stofInteger ParseState.initial ['$', ' ', 'n', 'o', 't', 'e']
  exact ⟨h1, h.1 h1, hn keyGRID rfl,
    h'.2.2.2.2 (hn keyGRID rfl) (hn keyCTRIA3 rfl) (hn keyQUAD4 rfl) (hn keyTEMP rfl)⟩

/-- C16 (counterexample): the line ` GRID,5` does not begin with any of the four
prefixes, so classification by prefix ignores it; `read` handles it as a grid record
and pushes a position and the ID 5. -/
theorem readLine_indented_grid :
    prefixKind indentedGridLine = .ignored ∧
    ¬ Begins keyGRID indentedGridLine ∧
    readLine stofInteger ParseState.initial indentedGridLine =
      .ok ⟨[⟨0, 0, 0⟩], [5], [], [], []⟩ ∧
    readLine stofInteger ParseState.initial indentedGridLine ≠
      handleAs stofInteger (prefixKind indentedGridLine) ParseState.initial indentedGridLine := by
  have h1 : prefixKind indentedGridLine = .ignored := by rfl
  have h2 : readLine stofInteger ParseState.initial indentedGridLine =
      .ok ⟨[⟨0, 0, 0⟩], [5], [], [], []⟩ := by rfl
  refine ⟨h1, ?_, h2, ?_⟩
  · rw [← startsWith_iff]
    exact Bool.false_ne_true
  · rw [h1, h2]
    simp [handleAs, ParseState.initial]

/-! ## C15: columns that do not convert -/

theorem parseGridsLoop_fault (stof : List Char → Except Fault ℚ) (out : List (List Char)) :
    ∀ (index : Nat) (v : vec3) (ids : List Int) (k : Nat) (t : List Char),
      index ≤ k → out[k - index]? = some t →
      ((k = 1 ∧ ∃ e, stoi t = .error e) ∨
        ((k = 3 ∨ k = 4 ∨ k = 5) ∧ ∃ e, stof t = .error e)) →
      ∃ e, parseGridsLoop stof index out v ids = .error e := by
  induction out with
  | nil => intro index v ids k t _ h; simp at h
  | cons s out ih =>
    intro index v ids k t hle hget hbad
    by_cases hk : k = index
    · subst hk
      simp only [Nat.sub_self, List.getElem?_cons_zero, Option.some.injEq] at hget
      subst hget
      unfold parseGridsLoop
      rcases hbad with ⟨h1, e, he⟩ | ⟨h345, e, he⟩
      · exact ⟨e, by simp [h1, he]⟩
      · rcases h345 with h | h | h <;> exact ⟨e, by simp [h, he]⟩
    · have hlt : index + 1 ≤ k := by omega
      have hget' : out[k - (index + 1)]? = some t := by
        have : k - index = (k - (index + 1)) + 1 := by omega
        rw [this, List.getElem?_cons_succ] at hget
        exact hget
      unfold parseGridsLoop
      split_ifs
      · cases hs : stoi s with
        | error e => exact ⟨e, rfl⟩
        | ok id => exact ih (index + 1) _ _ k t hlt hget' hbad
      · cases hs : stof s with
        | error e => exact ⟨e, rfl⟩
        | ok x => exact ih (index + 1) _ _ k t hlt hget' hbad
      · cases hs : stof s with
        | error e => exact ⟨e, rfl⟩
        | ok x => exact ih (index + 1) _ _ k t hlt hget' hbad
      · cases hs : stof s with
        | error e => exact ⟨e, rfl⟩
        | ok x => exact ih (index + 1) _ _ k t hlt hget' hbad
      · exact ih (index + 1) _ _ k t hlt hget' hbad

theorem parseTRIALoop_fault (out : List (List Char)) :
    ∀ (index : Nat) (ids : List Int) (k : Nat) (t : List Char),
      index ≤ k → out[k - index]? = some t → (3 ≤ k ∧ k ≤ 5) → (∃ e, stoi t = .error e) →
      ∃ e, parseTRIALoop index out ids = .error e := by
  induction out with
  | nil => intro index ids k t _ h; simp at h
  | cons s out ih =>
    intro index ids k t hle hget hk3 hbad
    by_cases hk : k = index
    · subst hk
      simp only [Nat.sub_self, List.getElem?_cons_zero, Option.some.injEq] at hget
      subst hget
      obtain ⟨e, he⟩ := hbad
      unfold parseTRIALoop
      have hc : k ≤ 5 ∧ k > 2 := by omega
      exact ⟨e, by simp [hc, he]⟩
    · have hlt : index + 1 ≤ k := by omega
      have hget' : out[k - (index + 1)]? = some t := by
        have : k - index = (k - (index + 1)) + 1 := by omega
        rw [this, List.getElem?_cons_succ] at hget
        exact hget
      unfold parseTRIALoop
      split_ifs
      · cases hs : stoi s with
        | error e => exact ⟨e, rfl⟩
        | ok id => exact ih (index + 1) _ k t hlt hget' hk3 hbad
      · exact ih (index + 1) _ k t hlt hget' hk3 hbad

theorem parseQUADLoop_fault (out : List (List Char)) :
    ∀ (index : Nat) (ids : List Int) (k : Nat) (t : List Char),
      index ≤ k → out[k - index]? = some t → (3 ≤ k ∧ k ≤ 6) → (∃ e, stoi t = .error e) →
      ∃ e, parseQUADLoop index out ids = .error e := by
  induction out with
  | nil => intro index ids k t _ h; simp at h
  | cons s out ih =>
    intro index ids k t hle hget hk3 hbad
    by_cases hk : k = index
    · subst hk
      simp only [Nat.sub_self, List.getElem?_cons_zero, Option.some.injEq] at hget
      subst hget
      obtain ⟨e, he⟩ := hbad
      unfold parseQUADLoop
      have hc : k ≤ 6 ∧ k > 2 := by omega
      exact ⟨e, by simp [hc, he]⟩
    · have hlt : index + 1 ≤ k := by omega
      have hget' : out[k - (index + 1)]? = some t := by
        have : k - index = (k - (index + 1)) + 1 := by omega
        rw [this, List.getElem?_cons_succ] at hget
        exact hget
      unfold parseQUADLoop
      split_ifs
      · cases hs : stoi s with
        | error e => exact ⟨e, rfl⟩
        | ok id => exact ih (index + 1) _ k t hlt hget' hk3 hbad
      · exact ih (index + 1) _ k t hlt hget' hk3 hbad

theorem parseTempLoop_fault (stof : List Char → Except Fault ℚ) (out : List (List Char)) :
    ∀ (index : Nat) (tl : List ℚ) (ids : List Int) (k : Nat) (t : List Char),
      index ≤ k → out[k - index]? = some t →
      ((k = 2 ∧ ∃ e, stoi t = .error e) ∨ (k = 3 ∧ ∃ e, stof t = .error e)) →
      ∃ e, parseTempLoop stof index out tl ids = .error e := by
  induction out with
  | nil => intro index tl ids k t _ h; simp at h
  | cons s out ih =>
    intro index tl ids k t hle hget hbad
    by_cases hk : k = index
    · subst hk
      simp only [Nat.sub_self, List.getElem?_cons_zero, Option.some.injEq] at hget
      subst hget
      unfold parseTempLoop
      rcases hbad with ⟨h2, e, he⟩ | ⟨h3, e, he⟩
      · exact ⟨e, by simp [h2, he]⟩
      · exact ⟨e, by simp [h3, he]⟩
    · have hlt : index + 1 ≤ k := by omega
      have hget' : out[k - (index + 1)]? = some t := by
        have : k - index = (k - (index + 1)) + 1 := by omega
        rw [this, List.getElem?_cons_succ] at hget
        exact hget
      unfold parseTempLoop
      split_ifs
      · cases hs : stoi s with
        | error e => exact ⟨e, rfl⟩
        | ok id => exact ih (index + 1) _ _ k t hlt hget' hbad
      · cases hs : stof s with
        | error e => exact ⟨e, rfl⟩
        | ok x => exact ih (index + 1) _ _ k t hlt hget' hbad
      · exact ih (index + 1) _ _ k t hlt hget' hbad

/-- A faulty record ends the line loop body with a fault, whatever the vectors hold. -/
theorem readLine_faulty (stof : List Char → Except Fault ℚ) (line : List Char)
    (hbad : FaultyRecord stof line) (st : ParseState) :
    ∃ e, readLine stof st line = .error e := by
  unfold FaultyRecord at hbad
  simp only [← found_iff] at hbad
  rcases hbad with ⟨hG, hcol⟩ | ⟨hG, hC, k, t, hk, hget, hbad⟩ |
    ⟨hG, hC, hQ, k, t, hk, hget, hbad⟩ | ⟨hG, hC, hQ, hT, hcol⟩
  · have hloop : ∃ e, parseGridsLoop stof 0 (tokens line) ⟨0, 0, 0⟩ st.gridIDs = .error e := by
      rcases hcol with ⟨t, hget, hbad⟩ | ⟨k, t, hk, hget, hbad⟩
      · exact parseGridsLoop_fault stof _ 0 _ _ 1 t (by omega) (by simpa using hget)
          (Or.inl ⟨rfl, hbad⟩)
      · exact parseGridsLoop_fault stof _ 0 _ _ k t (by omega) (by simpa using hget)
          (Or.inr ⟨hk, hbad⟩)
    obtain ⟨e, he⟩ := hloop
    exact ⟨e, by simp [readLine, hG, parseGridsToIDAndVec3Vec, he]⟩
  · obtain ⟨e, he⟩ := parseTRIALoop_fault (tokens line) 0 st.unfoldedIDList k t (by omega)
      (by simpa using hget) hk hbad
    exact ⟨e, by simp [readLine, hG, hC, parseTRIAToIDList, he]⟩
  · obtain ⟨e, he⟩ := parseQUADLoop_fault (tokens line) 0 [] k t (by omega)
      (by simpa using hget) hk hbad
    exact ⟨e, by simp [readLine, hG, hC, hQ, parseQUADToIDList, he]⟩
  · have hloop : ∃ e, parseTempLoop stof 0 (tokens line) st.temperatureList st.temperatureIDs =
        .error e := by
      rcases hcol with ⟨t, hget, hbad⟩ | ⟨t, hget, hbad⟩
      · exact parseTempLoop_fault stof _ 0 _ _ 2 t (by omega) (by simpa using hget)
          (Or.inl ⟨rfl, hbad⟩)
      · exact parseTempLoop_fault stof _ 0 _ _ 3 t (by omega) (by simpa using hget)
          (Or.inr ⟨rfl, hbad⟩)
    obtain ⟨e, he⟩ := hloop
    exact ⟨e, by simp [readLine, hG, hC, hQ, hT, parseTempToIDandFloatVec, he]⟩

theorem readLoop_faulty (stof : List Char → Except Fault ℚ) (line : List Char)
    (hbad : FaultyRecord stof line) (lines : List (List Char)) :
    line ∈ lines → ∀ st : ParseState, ∃ e, readLoop stof lines st = .error e := by
  induction lines with
  | nil => intro h; simp at h
  | cons first rest ih =>
    intro hmem st
    unfold readLoop
    cases hfirst : readLine stof st first with
    | error e => exact ⟨e, rfl⟩
    | ok st1 =>
      rcases List.mem_cons.mp hmem with rfl | hrest
      · obtain ⟨e, he⟩ := readLine_faulty stof line hbad st
        rw [he] at hfirst
        exact Except.noConfusion hfirst
      · exact ih hrest st1

/-- C15 (as amended): when the input contains a GRID, CTRIA3, QUAD4 or TEMP record in
which `std::stoi` or `std::stof` throws on a column that the record uses, `read` ends
in a fault and produces no scene: the record is never skipped. -/
theorem read_faulty_record (stof : List Char → Except Fault ℚ) (lines : List (List Char))
    (line : List Char) (hmem : line ∈ lines) (hbad : FaultyRecord stof line) :
    ∃ e, read stof lines = .error e := by
  obtain ⟨e, he⟩ := readLoop_faulty stof line hbad lines hmem ParseState.initial
  exact ⟨e, by simp [read, he]⟩

theorem assemble_trailing_text :
    assemble ⟨[⟨1, 0, 0⟩, ⟨2, 0, 0⟩], [5, 6], [0, 1], [5, 6], []⟩ =
      .ok (some ⟨mainVertexShader, mainFragmentShader, [⟨1, 0, 0⟩, ⟨2, 0, 0⟩],
        [some 0, some 1], [], 0, 1⟩) := by
  simp [assemble, sort, normalizeTemperatures, maxElement, minElement, maxElementFrom,
    minElementFrom, divide, copyArrays, remapLoop, ShaderStage.create, mainVertexShader,
    mainFragmentShader]
  norm_num

/-- C15 (counterexample): in the file `trailingTextLines` the ID column of the first
GRID record is `5x`, which is not a well-formed number.  `std::stoi` converts the
leading `5`, and `read` produces a scene with the two vertices: the record is used
with the partly parsed value. -/
theorem read_trailing_text :
    wellFormedInteger ['5', 'x'] = false ∧
    stoi ['5', 'x'] = .ok 5 ∧
    read stofInteger trailingTextLines =
      .ok (some ⟨mainVertexShader, mainFragmentShader, [⟨1, 0, 0⟩, ⟨2, 0, 0⟩],
        [some 0, some 1], [], 0, 1⟩) := by
  have hparse : readLoop stofInteger trailingTextLines ParseState.initial =
      .ok ⟨[⟨1, 0, 0⟩, ⟨2, 0, 0⟩], [5, 6], [0, 1], [5, 6], []⟩ := by rfl
  refine ⟨by rfl, by rfl, ?_⟩
  simp only [read, hparse]
  exact assemble_trailing_text

theorem read_faulty_record_witness :
    FaultyRecord stofInteger ['G', 'R', 'I', 'D', ',', 'x', ',', ',', '1', ',', '0', ',', '0'] ∧
    ∃ e, read stofInteger noNumberLines = .error e := by
  have hbad : FaultyRecord stofInteger
      ['G', 'R', 'I', 'D', ',', 'x', ',', ',', '1', ',', '0', ',', '0'] :=
    Or.inl ⟨⟨[], ['x', ',', ',', '1', ',', '0', ',', '0'], rfl⟩,
      Or.inl ⟨['x'], by rfl, .invalid_argument, by rfl⟩⟩
  exact ⟨hbad, read_faulty_record stofInteger noNumberLines _ (by simp [noNumberLines]) hbad⟩

/-! ## C24, C25 and C28 at their failing inputs -/

/-- C24 (the code at the failing input): the file `descendingLines` is accepted and
its GRID IDs 10 and 5 are distinct.  The first face reference, to the ID 10, is
emitted as the index 1, and the vertex at 1 is (2,0,0), the position of the GRID
record with ID 5; the record with ID 10 gives (1,0,0), which is the vertex at 0. -/
theorem read_descending_face_vertex :
    ∃ st scene, readLoop stofInteger descendingLines ParseState.initial = .ok st ∧
      read stofInteger descendingLines = .ok (some scene) ∧
      st.gridIDs = [10, 5] ∧ st.gridIDs.Nodup ∧
      st.unfoldedIDList[0]? = some 10 ∧
      scene.vsg_indices[0]? = some 1 ∧
      scene.vsg_vertices[1]? = some ⟨2, 0, 0⟩ ∧
      gridPosition st 10 = some ⟨1, 0, 0⟩ ∧
      gridPosition st 5 = some ⟨2, 0, 0⟩ ∧
      (⟨2, 0, 0⟩ : vec3) ≠ ⟨1, 0, 0⟩ := by
  have hparse : readLoop stofInteger descendingLines ParseState.initial =
      .ok ⟨[⟨1, 0, 0⟩, ⟨2, 0, 0⟩], [10, 5], [0, 1], [10, 5], [10, 5, 10]⟩ := by rfl
  refine ⟨_, ⟨mainVertexShader, mainFragmentShader, [⟨1, 0, 0⟩, ⟨2, 0, 0⟩],
    [some 0, some 1], [1, 0, 1], 3, 1⟩, hparse, ?_, rfl, by decide, rfl, rfl, rfl, rfl, rfl, ?_⟩
  · simp only [read, hparse]
    exact assemble_descending
  · intro h
    injection h with h1 h2 h3
    norm_num at h1

theorem assemble_swapped_temperatures :
    assemble ⟨[⟨0, 0, 0⟩, ⟨1, 0, 0⟩], [1, 2], [5, 7], [2, 1], []⟩ =
      .ok (some ⟨mainVertexShader, mainFragmentShader, [⟨0, 0, 0⟩, ⟨1, 0, 0⟩],
        [some 0, some 1], [], 0, 1⟩) := by
  simp [assemble, sort, normalizeTemperatures, maxElement, minElement, maxElementFrom,
    minElementFrom, divide, copyArrays, remapLoop, ShaderStage.create, mainVertexShader,
    mainFragmentShader]
  norm_num

theorem normalizeTemperatures_five_seven :
    normalizeTemperatures [5, 7] = .ok [some 0, some 1] := by
  simp [normalizeTemperatures, maxElement, minElement, maxElementFrom, minElementFrom, divide]
  norm_num

/-- C25 (the code at the failing input): the file `swappedTemperatureLines` is
accepted and its GRID IDs 1 and 2 are distinct; its TEMP records give 5 to the ID 2
and 7 to the ID 1, in this order.  The vertex at 0 comes from the GRID record with
ID 1, whose TEMP record has the normalized value 1, but the temperature emitted at 0
is 0, the normalized value of the first TEMP record of the file, which has ID 2. -/
theorem read_swapped_temperatures :
    ∃ st scene normalized,
      readLoop stofInteger swappedTemperatureLines ParseState.initial = .ok st ∧
      read stofInteger swappedTemperatureLines = .ok (some scene) ∧
      normalizeTemperatures st.temperatureList = .ok normalized ∧
      st.gridIDs = [1, 2] ∧ st.gridIDs.Nodup ∧ st.temperatureIDs = [2, 1] ∧
      st.temperatureList = [5, 7] ∧
      scene.vsg_vertices[0]? = st.gridList[0]? ∧
      normalizedTemperature st normalized 1 = some (some 1) ∧
      normalizedTemperature st normalized 2 = some (some 0) ∧
      scene.vsg_temperatures[0]? = some (some 0) ∧
      (some 0 : Option ℚ) ≠ some 1 := by
  have hparse : readLoop stofInteger swappedTemperatureLines ParseState.initial =
      .ok ⟨[⟨0, 0, 0⟩, ⟨1, 0, 0⟩], [1, 2], [5, 7], [2, 1], []⟩ := by rfl
  refine ⟨_, ⟨mainVertexShader, mainFragmentShader, [⟨0, 0, 0⟩, ⟨1, 0, 0⟩],
    [some 0, some 1], [], 0, 1⟩, _, hparse, ?_, normalizeTemperatures_five_seven, rfl,
    by decide, rfl, rfl, rfl, rfl, rfl, rfl, by norm_num⟩
  simp only [read, hparse]
  exact assemble_swapped_temperatures

/-- C28 (the code at the failing input): the input without a line leaves the five
vectors empty; the sorted ID vectors are equal, so the input passes the ID check, and
`normalizeTemperatures` is called on the empty temperature list, where it
dereferences the end iterator that `std::max_element` returns. -/
theorem read_empty_input (stof : List Char → Except Fault ℚ) :
    readLoop stof [] ParseState.initial = .ok ParseState.initial ∧
    sort ParseState.initial.temperatureIDs = sort ParseState.initial.gridIDs ∧
    ParseState.initial.temperatureList = [] ∧
    maxElement ParseState.initial.temperatureList = .error .undefined_behaviour ∧
    normalizeTemperatures ParseState.initial.temperatureList = .error .undefined_behaviour ∧
    read stof [] = .error .undefined_behaviour := by
  refine ⟨rfl, rfl, rfl, rfl, rfl, ?_⟩
  simp [read, readLoop, assemble, ParseState.initial, sort, normalizeTemperatures, maxElement]

/-! ## C26: the arrays and the index buffer of an accepted input -/

theorem parseGridsLoop_id_count (stof : List Char → Except Fault ℚ) (out : List (List Char)) :
    ∀ (index : Nat) (v : vec3) (ids : List Int) (r : vec3 × List Int),
      parseGridsLoop stof index out v ids = .ok r →
      r.2.length = ids.length + (if index ≤ 1 ∧ 2 ≤ index + out.length then 1 else 0) := by
  induction out with
  | nil =>
    intro index v ids r h
    simp only [parseGridsLoop, Except.ok.injEq] at h
    subst h
    have : ¬ (index ≤ 1 ∧ 2 ≤ index + ([] : List (List Char)).length) := by
      simp only [List.length_nil]; omega
    rw [if_neg this]
    rfl
  | cons s out ih =>
    intro index v ids r h
    unfold parseGridsLoop at h
    split_ifs at h with h1 h3 h4 h5
    · cases hs : stoi s with
      | error e => simp [hs] at h
      | ok id =>
        simp only [hs] at h
        have := ih (index + 1) v (ids ++ [id]) r h
        simp only [List.length_append, List.length_singleton, List.length_cons, List.length_nil] at this ⊢
        split_ifs at this ⊢ <;> omega
    · cases hs : stof s with
      | error e => simp [hs] at h
      | ok x =>
        simp only [hs] at h
        have := ih (index + 1) _ ids r h
        simp only [List.length_cons] at this ⊢
        split_ifs at this ⊢ <;> omega
    · cases hs : stof s with
      | error e => simp [hs] at h
      | ok x =>
        simp only [hs] at h
        have := ih (index + 1) _ ids r h
        simp only [List.length_cons] at this ⊢
        split_ifs at this ⊢ <;> omega
    · cases hs : stof s with
      | error e => simp [hs] at h
      | ok x =>
        simp only [hs] at h
        have := ih (index + 1) _ ids r h
        simp only [List.length_cons] at this ⊢
        split_ifs at this ⊢ <;> omega
    · have := ih (index + 1) v ids r h
      simp only [List.length_cons] at this ⊢
      split_ifs at this ⊢ <;> omega

theorem parseTempLoop_counts (stof : List Char → Except Fault ℚ) (out : List (List Char)) :
    ∀ (index : Nat) (tl : List ℚ) (ids : List Int) (r : List ℚ × List Int),
      parseTempLoop stof index out tl ids = .ok r →
      r.1.length = tl.length + (if index ≤ 3 ∧ 4 ≤ index + out.length then 1 else 0) ∧
      r.2.length = ids.length + (if index ≤ 2 ∧ 3 ≤ index + out.length then 1 else 0) := by
  induction out with
  | nil =>
    intro index tl ids r h
    simp only [parseTempLoop, Except.ok.injEq] at h
    subst h
    have h1 : ¬ (index ≤ 3 ∧ 4 ≤ index + ([] : List (List Char)).length) := by
      simp only [List.length_nil]; omega
    have h2 : ¬ (index ≤ 2 ∧ 3 ≤ index + ([] : List (List Char)).length) := by
      simp only [List.length_nil]; omega
    rw [if_neg h1, if_neg h2]
    exact ⟨rfl, rfl⟩
  | cons s out ih =>
    intro index tl ids r h
    unfold parseTempLoop at h
    split_ifs at h with h2 h3
    · cases hs : stoi s with
      | error e => simp [hs] at h
      | ok id =>
        simp only [hs] at h
        have := ih (index + 1) tl (ids ++ [id]) r h
        simp only [List.length_append, List.length_singleton, List.length_cons, List.length_nil] at this ⊢
        constructor
        · have h1 := this.1
          split_ifs at h1 ⊢ <;> omega
        · have h1 := this.2
          split_ifs at h1 ⊢ <;> omega
    · cases hs : stof s with
      | error e => simp [hs] at h
      | ok t =>
        simp only [hs] at h
        have := ih (index + 1) (tl ++ [t]) ids r h
        simp only [List.length_append, List.length_singleton, List.length_cons, List.length_nil] at this ⊢
        constructor
        · have h1 := this.1
          split_ifs at h1 ⊢ <;> omega
        · have h1 := this.2
          split_ifs at h1 ⊢ <;> omega
    · have := ih (index + 1) tl ids r h
      simp only [List.length_cons] at this ⊢
      constructor
      · have h1 := this.1
        split_ifs at h1 ⊢ <;> omega
      · have h1 := this.2
        split_ifs at h1 ⊢ <;> omega

/-- The lengths of the four vectors after a line whose record has its columns: a GRID
record adds one position and one ID, a TEMP record one value and one ID. -/
theorem readLine_counts (stof : List Char → Except Fault ℚ) (st st1 : ParseState)
    (line : List Char) (h : readLine stof st line = .ok st1)
    (hgrid : isGridRecord line = true → 1 < (tokens line).length)
    (htemp : isTempRecord line = true → 3 < (tokens line).length) :
    st1.gridList.length = st.gridList.length + (if isGridRecord line then 1 else 0) ∧
    st1.gridIDs.length = st.gridIDs.length + (if isGridRecord line then 1 else 0) ∧
    st1.temperatureList.length + st.temperatureIDs.length =
      st1.temperatureIDs.length + st.temperatureList.length := by
  unfold readLine at h
  simp only [isGridRecord, isTempRecord] at hgrid htemp ⊢
  split_ifs at h with hG hC hQ hT
  · unfold parseGridsToIDAndVec3Vec at h
    cases hp : parseGridsLoop stof 0 (tokens line) ⟨0, 0, 0⟩ st.gridIDs with
    | error e => simp [hp] at h
    | ok r =>
      obtain ⟨v, ids⟩ := r
      simp only [hp, Except.ok.injEq] at h
      subst h
      have hc := parseGridsLoop_id_count stof _ _ _ _ _ hp
      have hl := hgrid hG
      have : (0 ≤ 1 ∧ 2 ≤ 0 + (tokens line).length) := by omega
      simp only [this, and_self, if_true] at hc
      exact ⟨by simp [hG], by simp [hG, hc], by simp only []; omega⟩
  · cases hp : parseTRIAToIDList line st.unfoldedIDList with
    | error e => simp [hp] at h
    | ok r =>
      simp only [hp, Except.ok.injEq] at h
      subst h
      exact ⟨by simp [hG], by simp [hG], by simp only []; omega⟩
  · cases hp : parseQUADToIDList line st.unfoldedIDList with
    | error e => simp [hp] at h
    | ok r =>
      simp only [hp, Except.ok.injEq] at h
      subst h
      exact ⟨by simp [hG], by simp [hG], by simp only []; omega⟩
  · unfold parseTempToIDandFloatVec at h
    cases hp : parseTempLoop stof 0 (tokens line) st.temperatureList st.temperatureIDs with
    | error e => simp [hp] at h
    | ok r =>
      obtain ⟨tl, ids⟩ := r
      simp only [hp, Except.ok.injEq] at h
      subst h
      obtain ⟨h1, h2⟩ := parseTempLoop_counts stof _ _ _ _ _ hp
      have hl := htemp (by simp [hG, hC, hQ, hT])
      have c1 : (0 ≤ 3 ∧ 4 ≤ 0 + (tokens line).length) := by omega
      have c2 : (0 ≤ 2 ∧ 3 ≤ 0 + (tokens line).length) := by omega
      simp only [c1, c2, and_self, if_true] at h1 h2
      refine ⟨by simp [hG], by simp [hG], ?_⟩
      show tl.length + st.temperatureIDs.length = ids.length + st.temperatureList.length
      omega
  · simp only [Except.ok.injEq] at h
    subst h
    exact ⟨by simp [hG], by simp [hG], by omega⟩

theorem readLoop_counts (stof : List Char → Except Fault ℚ) (lines : List (List Char)) :
    ∀ (st st1 : ParseState), readLoop stof lines st = .ok st1 →
      (∀ line ∈ lines, isGridRecord line = true → 1 < (tokens line).length) →
      (∀ line ∈ lines, isTempRecord line = true → 3 < (tokens line).length) →
      st1.gridList.length = st.gridList.length + (lines.filter isGridRecord).length ∧
      st1.gridIDs.length = st.gridIDs.length + (lines.filter isGridRecord).length ∧
      st1.temperatureList.length + st.temperatureIDs.length =
        st1.temperatureIDs.length + st.temperatureList.length := by
  induction lines with
  | nil =>
    intro st st1 h _ _
    simp only [readLoop, Except.ok.injEq] at h
    subst h
    exact ⟨by simp, by simp, by omega⟩
  | cons line rest ih =>
    intro st st1 h hgrid htemp
    unfold readLoop at h
    cases hl : readLine stof st line with
    | error e => simp [hl] at h
    | ok st2 =>
      simp only [hl] at h
      obtain ⟨a1, a2, a3⟩ := readLine_counts stof st st2 line hl
        (hgrid line (List.mem_cons_self _ _)) (htemp line (List.mem_cons_self _ _))
      obtain ⟨b1, b2, b3⟩ := ih st2 st1 h
        (fun l hm => hgrid l (List.mem_cons_of_mem _ hm))
        (fun l hm => htemp l (List.mem_cons_of_mem _ hm))
      rw [List.filter_cons]
      split_ifs at a1 a2 ⊢
      · simp only [List.length_cons]; omega
      · omega

theorem copyArrays_of_le (gridList : List vec3) :
    ∀ temperatureList : List (Option ℚ), gridList.length ≤ temperatureList.length →
      copyArrays gridList temperatureList =
        .ok (gridList, temperatureList.take gridList.length) := by
  induction gridList with
  | nil => intro tl _; simp [copyArrays]
  | cons g gl ih =>
    intro tl hle
    cases tl with
    | nil => simp at hle
    | cons t tl =>
      simp only [List.length_cons, Nat.add_le_add_iff_right] at hle
      simp [copyArrays, ih tl hle]

theorem mapFind_mem (m : List (Int × Int)) (key v : Int) (h : mapFind m key = some v) :
    (key, v) ∈ m := by
  induction m with
  | nil => simp [mapFind] at h
  | cons p rest ih =>
    obtain ⟨k, w⟩ := p
    unfold mapFind at h
    split_ifs at h with hk
    · simp only [Option.some.injEq] at h
      subst hk
      subst h
      exact List.mem_cons_self _ _
    · exact List.mem_cons_of_mem _ (ih h)

/-- The access `map[key]` yields a value below `n` and leaves a map whose values are
below `n`, when the values of the map are below `n` and `n` is positive: an absent
key yields 0. -/
theorem mapSubscript_bounded (m : List (Int × Int)) (n key : Int) (hn : 0 < n)
    (hb : ∀ p ∈ m, 0 ≤ p.2 ∧ p.2 < n) :
    (0 ≤ (mapSubscript m key).1 ∧ (mapSubscript m key).1 < n) ∧
    ∀ p ∈ (mapSubscript m key).2, 0 ≤ p.2 ∧ p.2 < n := by
  unfold mapSubscript
  cases hf : mapFind m key with
  | none =>
    refine ⟨⟨le_refl _, hn⟩, ?_⟩
    intro p hp
    simp only [List.mem_append, List.mem_singleton] at hp
    rcases hp with hp | hp
    · exact hb p hp
    · subst hp
      exact ⟨le_refl _, hn⟩
  | some v => exact ⟨hb (key, v) (mapFind_mem m key v hf), hb⟩

theorem remapLoop_bounded (ids : List Int) :
    ∀ (m : List (Int × Int)) (n : Int), 0 < n → (∀ p ∈ m, 0 ≤ p.2 ∧ p.2 < n) →
      ∀ index ∈ remapLoop ids m, 0 ≤ index ∧ index < n := by
  induction ids with
  | nil => intro m n _ _ index h; simp [remapLoop] at h
  | cons id rest ih =>
    intro m n hn hb index h
    obtain ⟨h1, h2⟩ := mapSubscript_bounded m n id hn hb
    simp only [remapLoop, List.mem_cons] at h
    rcases h with h | h
    · rw [h]; exact h1
    · exact ih _ n hn h2 index h

theorem length_remapLoop (ids : List Int) :
    ∀ m : List (Int × Int), (remapLoop ids m).length = ids.length := by
  induction ids with
  | nil => intro m; simp [remapLoop]
  | cons id rest ih => intro m; simp [remapLoop, ih]

theorem buildGridToIndexMap_bounded (l : List Int) :
    ∀ (k : Int) (m : List (Int × Int)), 0 ≤ k →
      (∀ p ∈ m, 0 ≤ p.2 ∧ p.2 < k + (l.length : Int)) →
      ∀ p ∈ buildGridToIndexMap l k m, 0 ≤ p.2 ∧ p.2 < k + (l.length : Int) := by
  induction l with
  | nil => intro k m _ hb; simpa [buildGridToIndexMap] using hb
  | cons g rest ih =>
    intro k m hk hb
    simp only [buildGridToIndexMap]
    have hlen : k + ((g :: rest).length : Int) = (k + 1) + (rest.length : Int) := by
      simp only [List.length_cons, Nat.cast_add, Nat.cast_one]; ring
    rw [hlen] at hb ⊢
    apply ih (k + 1) _ (by omega)
    intro p hp
    unfold mapInsert at hp
    cases hf : mapFind m (g, k).1 with
    | some v =>
      simp only [hf] at hp
      exact hb p hp
    | none =>
      simp only [hf, List.mem_append, List.mem_singleton] at hp
      rcases hp with hp | hp
      · exact hb p hp
      · subst hp
        simp only
        omega

/-- C26: when the line loop ends without exception, the sorted ID vectors are equal,
the input has at least one GRID record, every GRID record has a column 1 (the ID) and
every TEMP record has the columns 2 and 3 (the ID and the value), then `read` returns
a scene; its vertex array and its temperature array have as many entries as the input
has GRID records, as have `gridList` and `temperatureList`, so the reads
`gridList[i]` and `temperatureList[i]` are in bounds; and every entry of the index
buffer is at least 0 and smaller than that number, whether or not a GRID record
defines the ID it comes from. -/
theorem read_arrays_in_bounds (stof : List Char → Except Fault ℚ) (lines : List (List Char))
    (st : ParseState)
    (hparse : readLoop stof lines ParseState.initial = .ok st)
    (hgate : sort st.temperatureIDs = sort st.gridIDs)
    (hone : ∃ line ∈ lines, isGridRecord line = true)
    (hgrid : ∀ line ∈ lines, isGridRecord line = true → 1 < (tokens line).length)
    (htemp : ∀ line ∈ lines, isTempRecord line = true → 3 < (tokens line).length) :
    ∃ scene, read stof lines = .ok (some scene) ∧
      scene.vsg_vertices.length = (lines.filter isGridRecord).length ∧
      scene.vsg_temperatures.length = (lines.filter isGridRecord).length ∧
      st.gridList.length = (lines.filter isGridRecord).length ∧
      st.temperatureList.length = (lines.filter isGridRecord).length ∧
      scene.vsg_indices.length = st.unfoldedIDList.length ∧
      ∀ index ∈ scene.vsg_indices,
        0 ≤ index ∧ index < ((lines.filter isGridRecord).length : Int) := by
  obtain ⟨c1, c2, c3⟩ := readLoop_counts stof lines _ st hparse hgrid htemp
  simp only [ParseState.initial, List.length_nil, Nat.zero_add, Nat.add_zero] at c1 c2 c3
  have hpos : 0 < (lines.filter isGridRecord).length := by
    obtain ⟨line, hm, hl⟩ := hone
    exact List.length_pos_of_mem (List.mem_filter.mpr ⟨hm, hl⟩)
  have hids : st.temperatureIDs.length = st.gridIDs.length := by
    rw [← length_sort st.temperatureIDs, hgate, length_sort]
  have htl : st.temperatureList.length = (lines.filter isGridRecord).length := by omega
  have hbound : ∀ p ∈ gridToIndexMap st,
      0 ≤ p.2 ∧ p.2 < ((lines.filter isGridRecord).length : Int) := by
    have := buildGridToIndexMap_bounded (sort st.gridIDs) 0 [] (le_refl _)
      (by intro p hp; simp at hp)
    rw [length_sort, c2, zero_add] at this
    exact this
  cases htemps : st.temperatureList with
  | nil => rw [htemps] at htl; simp at htl; omega
  | cons t ts =>
    have hcopy := copyArrays_of_le st.gridList
      ((t :: ts).map (fun temp => divide (temp - minElementFrom t ts)
        (maxElementFrom t ts - minElementFrom t ts)))
      (by rw [List.length_map, ← htemps]; omega)
    refine ⟨⟨mainVertexShader, mainFragmentShader, st.gridList,
      List.take st.gridList.length
        ((t :: ts).map (fun temp => divide (temp - minElementFrom t ts)
          (maxElementFrom t ts - minElementFrom t ts))),
      remapLoop st.unfoldedIDList (gridToIndexMap st),
      (remapLoop st.unfoldedIDList (gridToIndexMap st)).length, 1⟩,
      ?_, ?_, ?_, c1, by rw [← htemps]; exact htl, ?_, ?_⟩
    · simp only [read, hparse, assemble, hgate, ne_eq, not_true_eq_false, if_false, htemps,
        normalizeTemperatures, maxElement, minElement, hcopy, ShaderStage.create,
        mainVertexShader, mainFragmentShader]
    · exact c1
    · simp only [List.length_take, List.length_map]
      rw [← htemps]
      omega
    · exact length_remapLoop _ _
    · exact remapLoop_bounded _ _ _ (by exact_mod_cast hpos) hbound

theorem read_arrays_in_bounds_witness :
    readLoop stofInteger danglingLines ParseState.initial =
      .ok ⟨[⟨1, 0, 0⟩, ⟨2, 0, 0⟩], [5, 10], [0, 1], [5, 10], [10, 99, 5]⟩ ∧
    (danglingLines.filter isGridRecord).length = 2 ∧
    remapLoop [10, 99, 5]
      (gridToIndexMap ⟨[⟨1, 0, 0⟩, ⟨2, 0, 0⟩], [5, 10], [0, 1], [5, 10], [10, 99, 5]⟩) =
      [1, 0, 0] ∧
    ∃ scene, read stofInteger danglingLines = .ok (some scene) ∧
      scene.vsg_vertices.length = (danglingLines.filter isGridRecord).length ∧
      scene.vsg_temperatures.length = (danglingLines.filter isGridRecord).length ∧
      ([⟨1, 0, 0⟩, ⟨2, 0, 0⟩] : List vec3).length = (danglingLines.filter isGridRecord).length ∧
      ([0, 1] : List ℚ).length = (danglingLines.filter isGridRecord).length ∧
      scene.vsg_indices.length = ([10, 99, 5] : List Int).length ∧
      ∀ index ∈ scene.vsg_indices,
        0 ≤ index ∧ index < ((danglingLines.filter isGridRecord).length : Int) := by
  have hparse : readLoop stofInteger danglingLines ParseState.initial =
      .ok ⟨[⟨1, 0, 0⟩, ⟨2, 0, 0⟩], [5, 10], [0, 1], [5, 10], [10, 99, 5]⟩ := by rfl
  refine ⟨hparse, by decide, by rfl, ?_⟩
  refine read_arrays_in_bounds stofInteger danglingLines _ hparse (by rfl)
    ⟨_, List.mem_cons_self _ _, by decide⟩ ?_ ?_
  · intro line hm _
    simp only [danglingLines, List.mem_cons, List.mem_singleton, List.not_mem_nil,
      or_false] at hm
    rcases hm with h | h | h | h | h <;> subst h <;> decide
  · intro line hm _
    simp only [danglingLines, List.mem_cons, List.mem_singleton, List.not_mem_nil,
      or_false] at hm
    rcases hm with h | h | h | h | h <;> subst h <;> decide

end NastranImplementation

namespace assimp

/-! ## C8 and C7: the index vector of a mesh and the width of its buffer -/

theorem pushIndices_eq (face : List Nat) :
    ∀ indices : List Nat, pushIndices face indices = indices ++ face := by
  induction face with
  | nil => intro indices; simp [pushIndices]
  | cons k rest ih => intro indices; simp [pushIndices, ih]

/-- The face loop appends the index arrays of the three-index faces, in face order. -/
theorem faceLoop_eq (faces : List aiFace) :
    ∀ indices : List Nat, faceLoop faces indices =
      indices ++ ((faces.filter (fun face => decide (face.mNumIndices = 3))).map
        (fun face => face.mIndices)).flatten := by
  induction faces with
  | nil => intro indices; simp [faceLoop]
  | cons face rest ih =>
    intro indices
    by_cases h : face.mNumIndices = 3
    · simp [faceLoop, h, ih, pushIndices_eq]
    · simp [faceLoop, h, ih]

theorem length_flatten_triangles (faces : List aiFace) :
    (((faces.filter (fun face => decide (face.mNumIndices = 3))).map
        (fun face => face.mIndices)).flatten).length =
      3 * (faces.filter (fun face => decide (face.mNumIndices = 3))).length := by
  induction faces with
  | nil => simp
  | cons face rest ih =>
    by_cases h : face.mNumIndices = 3
    · have h3 : face.mIndices.length = 3 := h
      simp [h, ih, h3]
      omega
    · simp [h, ih]

theorem length_filter_replicate_triangle (n : Nat) (face : aiFace)
    (h : face.mNumIndices = 3) :
    ((List.replicate n face).filter (fun face => decide (face.mNumIndices = 3))).length = n := by
  induction n with
  | zero => simp
  | succ n ih => simp [List.replicate_succ, h, ih]

theorem length_elements_vsg_indices (indices : List Nat) :
    (vsg_indices indices).elements.length = indices.length := by
  unfold vsg_indices
  split_ifs <;> simp [IndexArray.elements]

/-- The index vector of a mesh (the local `indices`) is the concatenation, in face
order, of the index arrays of the faces with exactly 3 indices; every other face adds
nothing.  Its length is three times the number of those faces, so it holds at most as
many triangles as the mesh has faces, and the index buffer has one element for each
of its entries. -/
theorem meshIndices_triangles (mesh : aiMesh) :
    meshIndices mesh =
      ((mesh.mFaces.filter (fun face => decide (face.mNumIndices = 3))).map
        (fun face => face.mIndices)).flatten ∧
    (meshIndices mesh).length =
      3 * (mesh.mFaces.filter (fun face => decide (face.mNumIndices = 3))).length ∧
    (meshIndices mesh).length / 3 ≤ mesh.mFaces.length ∧
    (vsg_indices (meshIndices mesh)).elements.length = (meshIndices mesh).length := by
  have h1 : meshIndices mesh =
      ((mesh.mFaces.filter (fun face => decide (face.mNumIndices = 3))).map
        (fun face => face.mIndices)).flatten := by
    simp [meshIndices, faceLoop_eq]
  have h2 : (meshIndices mesh).length =
      3 * (mesh.mFaces.filter (fun face => decide (face.mNumIndices = 3))).length := by
    rw [h1, length_flatten_triangles]
  refine ⟨h1, h2, ?_, length_elements_vsg_indices _⟩
  have h3 := List.length_filter_le (fun face : aiFace => decide (face.mNumIndices = 3)) mesh.mFaces
  rw [h2]
  omega

theorem meshIndices_length_replicate (mesh : aiMesh) (n : Nat) (face : aiFace)
    (hfaces : mesh.mFaces = List.replicate n face) (h : face.mNumIndices = 3) :
    (meshIndices mesh).length = 3 * n := by
  simp only [meshIndices, faceLoop_eq, List.nil_append, length_flatten_triangles, hfaces]
  rw [length_filter_replicate_triangle n face h]

theorem elementBits_of_length (indices : List Nat) (n : Nat) (hlen : indices.length = n) :
    (vsg_indices indices).elementBits = if n < 65535 then 16 else 32 := by
  subst hlen
  unfold vsg_indices UINT16_MAX
  split_ifs <;> rfl

/-- C7 (the code at the failing inputs): the mesh `wideMesh` has 65537 vertices and
one triangle; its index vector has 3 entries, fewer than 65535, so the buffer gets
16-bit elements and the index 65536 is stored as 0.  The mesh `repeatedMesh` has 3
vertices and 65535 indices, and its buffer gets 32-bit elements. -/
theorem vsg_indices_width_by_index_count :
    (¬ wideMesh.mNumVertices < 65536 ∧
      vsg_indices (meshIndices wideMesh) = .ushortArray [0, 1, 0] ∧
      (vsg_indices (meshIndices wideMesh)).elementBits = 16) ∧
    (repeatedMesh.mNumVertices < 65536 ∧
      (meshIndices repeatedMesh).length = 65535 ∧
      (vsg_indices (meshIndices repeatedMesh)).elementBits = 32) := by
  have hlen : (meshIndices repeatedMesh).length = 65535 :=
    meshIndices_length_replicate repeatedMesh 21845 ⟨[0, 1, 2]⟩ rfl rfl
  have hnum : repeatedMesh.mNumVertices = 3 := rfl
  have hbits := elementBits_of_length (meshIndices repeatedMesh) 65535 hlen
  refine ⟨⟨by decide, by decide, by decide⟩, by rw [hnum]; norm_num, hlen, ?_⟩
  rw [hbits]
  norm_num

/-! ## C8: the emitted index buffer -/

/-- C8 (the code at the failing input): for every mesh the emitted buffer has one
element for every index of the faces with exactly 3 indices, in face order, and no
other element, so it holds at most as many triangles as the mesh has faces; but the
element is the index itself only when there are 65535 indices or more, and the index
modulo 2^16 otherwise.  For `wideMesh` the concatenation of the 3-index faces is
`[0, 1, 65536]` and the emitted buffer is `[0, 1, 0]`. -/
theorem meshGeometry_indices_emitted :
    (∀ mesh : aiMesh,
      (meshGeometry mesh).indices.elements =
        (if (((mesh.mFaces.filter (fun face => decide (face.mNumIndices = 3))).map
            (fun face => face.mIndices)).flatten).length < 65535 then
          (((mesh.mFaces.filter (fun face => decide (face.mNumIndices = 3))).map
            (fun face => face.mIndices)).flatten).map (fun index => index % 2 ^ 16)
        else
          ((mesh.mFaces.filter (fun face => decide (face.mNumIndices = 3))).map
            (fun face => face.mIndices)).flatten) ∧
      (meshGeometry mesh).indices.elements.length / 3 ≤ mesh.mFaces.length ∧
      (meshGeometry mesh).indexCount = (meshGeometry mesh).indices.elements.length) ∧
    ((wideMesh.mFaces.filter (fun face => decide (face.mNumIndices = 3))).map
      (fun face => face.mIndices)).flatten = [0, 1, 65536] ∧
    (meshGeometry wideMesh).indices.elements = [0, 1, 0] ∧
    ([0, 1, 0] : List Nat) ≠ [0, 1, 65536] := by
  refine ⟨?_, rfl, by decide, by decide⟩
  intro mesh
  have h1 : meshIndices mesh =
      ((mesh.mFaces.filter (fun face => decide (face.mNumIndices = 3))).map
        (fun face => face.mIndices)).flatten := by
    simp [meshIndices, faceLoop_eq]
  have h2 : (meshIndices mesh).length =
      3 * (mesh.mFaces.filter (fun face => decide (face.mNumIndices = 3))).length := by
    rw [h1, length_flatten_triangles]
  have h3 := List.length_filter_le (fun face : aiFace => decide (face.mNumIndices = 3))
    mesh.mFaces
  have hlen : (meshGeometry mesh).indices.elements.length = (meshIndices mesh).length :=
    length_elements_vsg_indices _
  refine ⟨?_, by rw [hlen, h2]; omega, by rw [hlen]; rfl⟩
  show (vsg_indices (meshIndices mesh)).elements = _
  rw [← h1]
  unfold vsg_indices UINT16_MAX
  split_ifs <;> rfl

/-! ## C9 and C10: the workflow branch of `processMaterials` -/

/-- The converted return value of a `Get` is `true` exactly when the property is
absent. -/
theorem Get_toBool {α : Type} (property : Option α) (pOut : α) :
    (Get property pOut).1.toBool = property.isNone := by
  cases property <;> simp [Get, aiReturn.toBool, aiReturn.value]

theorem Get_eq_success {α : Type} (property : Option α) (pOut : α) :
    (Get property pOut).1 = AI_SUCCESS ↔ property.isSome = true := by
  cases property <;> simp [Get, AI_SUCCESS]

/-- The branch of line 634 in terms of the material: the PBR path is taken when the
material has a base colour or has no specular colour, the Phong path when it has a
specular colour and no base colour. -/
theorem processMaterial_branch (env : Environment) (mTextures : List aiTexture)
    (options : Options) (material : aiMaterial) :
    processMaterial env mTextures options material =
      if material.baseColor.isSome = true ∨ material.colorSpecular.isNone = true then
        pbrPath env mTextures options material
          { env.pbr with
            specularFactor := (Get material.colorSpecular env.pbr.specularFactor).2
            baseColorFactor := (Get material.baseColor env.pbr.baseColorFactor).2 }
          material.colorSpecular.isNone
      else phongPath env mTextures options material := by
  unfold processMaterial
  simp only [Get_toBool, Get_eq_success]

theorem bindTexture_blank (env : Environment) (mTextures : List aiTexture)
    (material : aiMaterial) (hblank : material.texture = fun _ => none)
    (type : aiTextureType) (dstBinding : Nat) (s : Slots) :
    bindTexture env mTextures material type dstBinding s = .ok (false, s) := by
  simp [bindTexture, getTexture, hblank]

theorem bindTextures_blank (env : Environment) (mTextures : List aiTexture)
    (material : aiMaterial) (hblank : material.texture = fun _ => none)
    (slots : List (aiTextureType × Nat)) :
    ∀ s : Slots, bindTextures env mTextures material slots s = .ok s := by
  induction slots with
  | nil => intro s; rfl
  | cons slot rest ih =>
    intro s
    obtain ⟨type, dstBinding⟩ := slot
    simp [bindTextures, bindTexture_blank env mTextures material hblank, ih]

/-- C9 (the code at the failing inputs): a material whose only property is a
specular colour takes the Phong path, and a material without any property takes the
PBR path with the define `VSG_WORKFLOW_SPECGLOSS`. -/
theorem processMaterial_specular_test_inverted (env : Environment)
    (mTextures : List aiTexture) (options : Options) (specular : vec4) :
    (∃ state, processMaterial env mTextures options
        { aiMaterial.blank with colorSpecular := some specular } = .ok state ∧
      state.hasPhongDescriptor = true ∧ state.hasPbrDescriptor = false) ∧
    (∃ state, processMaterial env mTextures options aiMaterial.blank = .ok state ∧
      state.hasPbrDescriptor = true ∧ state.hasPhongDescriptor = false ∧
      "VSG_WORKFLOW_SPECGLOSS" ∈ state.pipeline.defines) := by
  have hb1 := bindTexture_blank env mTextures
    { aiMaterial.blank with colorSpecular := some specular } rfl
  have hb2 := bindTextures_blank env mTextures aiMaterial.blank rfl
  constructor
  · rw [processMaterial_branch]
    simp only [aiMaterial.blank, Option.isSome_none, Option.isNone_some, or_self,
      Bool.false_eq_true, if_false]
    unfold phongPath
    simp only [aiMaterial.blank] at hb1
    simp only [hb1, if_true]
    exact ⟨_, rfl, by simp [State.hasPhongDescriptor], by simp [State.hasPbrDescriptor]⟩
  · rw [processMaterial_branch]
    simp only [aiMaterial.blank, Option.isNone_none, or_true, if_true]
    unfold pbrPath
    simp only [aiMaterial.blank] at hb2
    simp only [hb2]
    refine ⟨_, rfl, by simp [State.hasPbrDescriptor], by simp [State.hasPhongDescriptor], ?_⟩
    simp only [createPipeline, pbrFactors, if_true]
    split_ifs <;> simp [Get, AI_SUCCESS]

/-- C10 (the code at the failing input): for a material with a base colour, a
metallic factor, a roughness factor and a shininess, and without specular colour,
the define `VSG_WORKFLOW_SPECGLOSS` is in the define set and the metallic and
roughness factors of the bound value are the defaults, not the ones of the
material. -/
theorem processMaterial_base_color_only (env : Environment) (mTextures : List aiTexture)
    (options : Options) (baseColor : vec4) (metallic roughness shininess : ℚ) :
    ∃ state value, processMaterial env mTextures options
        { aiMaterial.blank with
          baseColor := some baseColor, metallicFactor := some metallic,
          roughnessFactor := some roughness, shininess := some shininess } = .ok state ∧
      "VSG_WORKFLOW_SPECGLOSS" ∈ state.pipeline.defines ∧
      state.descList = [.pbrBuffer value 10] ∧
      value.metallicFactor = env.pbr.metallicFactor ∧
      value.roughnessFactor = env.pbr.roughnessFactor := by
  have hb := bindTextures_blank env mTextures
    { aiMaterial.blank with
      baseColor := some baseColor, metallicFactor := some metallic,
      roughnessFactor := some roughness, shininess := some shininess } rfl
  rw [processMaterial_branch]
  simp only [aiMaterial.blank, Option.isSome_some, Option.isNone_none, or_true, if_true]
  unfold pbrPath
  simp only [aiMaterial.blank] at hb
  simp only [hb]
  refine ⟨_, _, rfl, ?_, rfl, ?_, ?_⟩
  · simp only [createPipeline, pbrFactors, if_true]
    split_ifs <;> simp [Get, AI_SUCCESS]
  · simp [pbrFactors, Get, AI_SUCCESS, aiReturn.toBool, aiReturn.value]
  · simp [pbrFactors, Get, AI_SUCCESS, aiReturn.toBool, aiReturn.value]

/-! ## C13: shininess and specular colour of the Phong value -/

/-- What a texture slot does when it ends without a fault: either it leaves the three
vectors as they are, or it appends the define of the type, the binding and one image
descriptor. -/
theorem bindTexture_ok (env : Environment) (mTextures : List aiTexture)
    (material : aiMaterial) (type : aiTextureType) (dstBinding : Nat) (s s1 : Slots)
    (valid : Bool) (h : bindTexture env mTextures material type dstBinding s = .ok (valid, s1)) :
    (valid = false ∧ s1 = s) ∨
    (valid = true ∧ ∃ sampler data,
      s1.defines = s.defines ++ textureDefine type ∧
      s1.descriptorBindings = s.descriptorBindings ++ [dstBinding] ∧
      s1.descList = s.descList ++ [.image sampler data dstBinding]) := by
  unfold bindTexture at h
  unfold getTexture at h
  cases ht : material.texture type with
  | none =>
    simp only [ht, Except.ok.injEq, Prod.mk.injEq] at h
    exact Or.inl ⟨h.1.symm, h.2.symm⟩
  | some tex =>
    simp only [ht] at h
    cases hl : loadImage env mTextures tex.texPath with
    | error e => simp [hl] at h
    | ok image =>
      cases image with
      | none =>
        simp only [hl, Except.ok.injEq, Prod.mk.injEq] at h
        exact Or.inl ⟨h.1.symm, h.2.symm⟩
      | some image =>
        cases image with
        | none => simp [hl] at h
        | some data =>
          simp only [hl, Except.ok.injEq, Prod.mk.injEq] at h
          obtain ⟨hv, hs⟩ := h
          subst hs
          exact Or.inr ⟨hv.symm, _, data, rfl, rfl, rfl⟩

theorem bindTexture_images (env : Environment) (mTextures : List aiTexture)
    (material : aiMaterial) (type : aiTextureType) (dstBinding : Nat) (s s1 : Slots)
    (valid : Bool) (h : bindTexture env mTextures material type dstBinding s = .ok (valid, s1))
    (himg : ∀ d ∈ s.descList, ∃ sampler data binding, d = Descriptor.image sampler data binding) :
    ∀ d ∈ s1.descList, ∃ sampler data binding, d = Descriptor.image sampler data binding := by
  rcases bindTexture_ok env mTextures material type dstBinding s s1 valid h with
    ⟨_, rfl⟩ | ⟨_, sampler, data, _, _, hl⟩
  · exact himg
  · intro d hd
    rw [hl, List.mem_append, List.mem_singleton] at hd
    rcases hd with hd | rfl
    · exact himg d hd
    · exact ⟨sampler, data, dstBinding, rfl⟩

/-- A scene returned by the Phong path ends its descriptor list with the Phong value,
after image descriptors only, and its pipeline is two-sided as lines 738-746
decide. -/
theorem phongPath_ok (env : Environment) (mTextures : List aiTexture) (options : Options)
    (material : aiMaterial) (state : State)
    (h : phongPath env mTextures options material = .ok state) :
    ∃ (diffuseValid emissiveValid specularValid : Bool) (s : Slots),
      state.descList =
        s.descList ++ [.phongBuffer
          (phongValue env material diffuseValid emissiveValid specularValid) 10] ∧
      (∀ d ∈ s.descList, ∃ sampler data binding, d = Descriptor.image sampler data binding) ∧
      state.pipeline = createPipeline .assimp_pbr_frag s.defines s.descriptorBindings
        (if options.two_sided.getD false then true else (Get material.twoSided false).2) := by
  unfold phongPath at h
  simp only at h
  split at h
  · exact absurd h (by simp)
  · rename_i diffuseValid s1 h1
    have i1 := bindTexture_images _ _ _ _ _ _ _ _ h1 (by simp)
    split at h
    · exact absurd h (by simp)
    · rename_i emissiveValid s2 h2
      have i2 := bindTexture_images _ _ _ _ _ _ _ _ h2 i1
      split at h
      · exact absurd h (by simp)
      · rename_i lightmapValid s3 h3
        have i3 := bindTexture_images _ _ _ _ _ _ _ _ h3 i2
        split at h
        · exact absurd h (by simp)
        · rename_i ambientValid s4 h4
          have i4 : ∀ d ∈ s4.descList, ∃ sampler data binding,
              d = Descriptor.image sampler data binding := by
            cases lightmapValid with
            | true =>
              simp only [if_true, Except.ok.injEq, Prod.mk.injEq] at h4
              rw [← h4.2]
              exact i3
            | false =>
              simp only [Bool.false_eq_true, if_false] at h4
              exact bindTexture_images _ _ _ _ _ _ _ _ h4 i3
          split at h
          · exact absurd h (by simp)
          · rename_i normalsValid s5 h5
            have i5 := bindTexture_images _ _ _ _ _ _ _ _ h5 i4
            split at h
            · exact absurd h (by simp)
            · rename_i specularValid s6 h6
              have i6 := bindTexture_images _ _ _ _ _ _ _ _ h6 i5
              simp only [Except.ok.injEq] at h
              subst h
              exact ⟨diffuseValid, emissiveValid, specularValid, s6, rfl, i6, rfl⟩

/-- The Phong value of a material with a specular colour, when the shininess is
absent or below the threshold: shininess 0 and specular colour (0,0,0,0). -/
theorem phongValue_clamped (env : Environment) (material : aiMaterial)
    (diffuseValid emissiveValid specularValid : Bool)
    (hspecular : material.colorSpecular.isSome = true)
    (hlow : ∀ shininess, effectiveShininess material = some shininess →
      shininess < shininessThreshold) :
    (phongValue env material diffuseValid emissiveValid specularValid).shininess = 0 ∧
    (phongValue env material diffuseValid emissiveValid specularValid).specular =
      ⟨0, 0, 0, 0⟩ := by
  have hs : (Get material.colorSpecular env.phong.specular).1 = AI_SUCCESS :=
    (Get_eq_success _ _).mpr hspecular
  have hs' : ¬ (specularValid = true ∧
      (Get material.colorSpecular env.phong.specular).1 ≠ AI_SUCCESS) := fun h => h.2 hs
  unfold phongValue
  simp only [hs', if_false]
  cases hsh : material.shininess with
  | none =>
    simp only [Get, AI_SUCCESS, vec4.uniform]
    split_ifs <;> simp_all
  | some shininess =>
    cases hst : material.shininessStrength with
    | none =>
      have := hlow shininess (by simp [effectiveShininess, hsh, hst])
      simp only [Get, AI_SUCCESS, vec4.uniform]
      split_ifs <;> simp_all
    | some strength =>
      have := hlow (fmul shininess strength) (by simp [effectiveShininess, hsh, hst])
      simp only [Get, AI_SUCCESS, vec4.uniform]
      split_ifs <;> simp_all

/-- C13 (as amended): for every material that takes the Phong path (no base colour, a
specular colour), if the material has no shininess or its shininess, multiplied in
single precision by the shininess strength when one is present, is below the
single-precision constant `0.01f`, then the Phong value bound for the material, the
last descriptor of its set, has shininess 0 and specular colour (0,0,0,0). -/
theorem processMaterial_phong_shininess_clamp (env : Environment)
    (mTextures : List aiTexture) (options : Options) (material : aiMaterial) (state : State)
    (hbase : material.baseColor = none) (hspecular : material.colorSpecular.isSome = true)
    (hlow : ∀ shininess, effectiveShininess material = some shininess →
      shininess < shininessThreshold)
    (hstate : processMaterial env mTextures options material = .ok state) :
    ∃ value, state.descList.getLast? = some (.phongBuffer value 10) ∧
      value.shininess = 0 ∧ value.specular = ⟨0, 0, 0, 0⟩ ∧
      ∀ other binding, Descriptor.phongBuffer other binding ∈ state.descList →
        other = value := by
  rw [processMaterial_branch] at hstate
  have hnone : ¬ (material.baseColor.isSome = true ∨ material.colorSpecular.isNone = true) := by
    rw [hbase]
    cases hc : material.colorSpecular with
    | none => simp [hc] at hspecular
    | some c => simp
  simp only [hnone, if_false] at hstate
  obtain ⟨dv, ev, sv, s, hlist, himg, _⟩ :=
    phongPath_ok env mTextures options material state hstate
  obtain ⟨h1, h2⟩ := phongValue_clamped env material dv ev sv hspecular hlow
  refine ⟨phongValue env material dv ev sv, ?_, h1, h2, ?_⟩
  · rw [hlist]; simp
  · intro other binding hmem
    rw [hlist, List.mem_append, List.mem_singleton] at hmem
    rcases hmem with hmem | hmem
    · obtain ⟨sampler, data, b, hd⟩ := himg _ hmem
      exact Descriptor.noConfusion hd
    · injection hmem

/-- The Phong path of a material without texture ends in a state. -/
theorem phongPath_blank (env : Environment) (mTextures : List aiTexture) (options : Options)
    (material : aiMaterial) (hblank : material.texture = fun _ => none) :
    ∃ state, phongPath env mTextures options material = .ok state := by
  have hb := bindTexture_blank env mTextures material hblank
  unfold phongPath
  simp only [hb, Bool.false_eq_true, if_false]
  exact ⟨_, rfl⟩

theorem processMaterial_phong_shininess_clamp_witness :
    ∃ state, processMaterial sampleEnvironment [] ⟨none⟩ dullMaterial = .ok state ∧
      dullMaterial.baseColor = none ∧ dullMaterial.colorSpecular.isSome = true ∧
      effectiveShininess dullMaterial = some (1 / 1000) ∧
      ∃ value, state.descList.getLast? = some (.phongBuffer value 10) ∧
        value.shininess = 0 ∧ value.specular = ⟨0, 0, 0, 0⟩ ∧
        ∀ other binding, Descriptor.phongBuffer other binding ∈ state.descList →
          other = value := by
  have hlow : ∀ shininess, effectiveShininess dullMaterial = some shininess →
      shininess < shininessThreshold := by
    intro shininess h
    simp only [effectiveShininess, dullMaterial, aiMaterial.blank, Option.some.injEq] at h
    rw [← h, shininessThreshold]
    norm_num
  obtain ⟨state, hstate⟩ := phongPath_blank sampleEnvironment [] ⟨none⟩ dullMaterial rfl
  have hp : processMaterial sampleEnvironment [] ⟨none⟩ dullMaterial = .ok state := by
    rw [processMaterial_branch]
    simpa [dullMaterial, aiMaterial.blank] using hstate
  exact ⟨state, hp, rfl, rfl, rfl,
    processMaterial_phong_shininess_clamp sampleEnvironment [] ⟨none⟩ dullMaterial state rfl rfl
      hlow hp⟩

/-! ## C13: a product that rounds up to the threshold -/

theorem roundHalfEven_eq (q : ℚ) (m : Int) (h1 : (m : ℚ) - 1 / 2 < q)
    (h2 : q < m + 1 / 2) : roundHalfEven q = m := by
  unfold roundHalfEven
  have hf1 : (⌊q⌋ : ℚ) ≤ q := Int.floor_le q
  have hf2 : q < ⌊q⌋ + 1 := Int.lt_floor_add_one q
  split_ifs with ha hb hc
  · have h5 : ⌊q⌋ < m + 1 := by
      have : ((⌊q⌋ : Int) : ℚ) < ((m + 1 : Int) : ℚ) := by push_cast; linarith
      exact_mod_cast this
    have h6 : m - 1 < ⌊q⌋ := by
      have : ((m - 1 : Int) : ℚ) < ((⌊q⌋ : Int) : ℚ) := by push_cast; linarith
      exact_mod_cast this
    omega
  · have h5 : ⌊q⌋ < m := by
      have : ((⌊q⌋ : Int) : ℚ) < ((m : Int) : ℚ) := by linarith
      exact_mod_cast this
    have h6 : m - 2 < ⌊q⌋ := by
      have : ((m - 2 : Int) : ℚ) < ((⌊q⌋ : Int) : ℚ) := by push_cast; linarith
      exact_mod_cast this
    omega
  · exfalso
    have he : q - ⌊q⌋ = 1 / 2 := le_antisymm (not_lt.mp hb) (not_lt.mp ha)
    have h5 : ⌊q⌋ < m := by
      have : ((⌊q⌋ : Int) : ℚ) < ((m : Int) : ℚ) := by linarith
      exact_mod_cast this
    have h6 : m - 1 < ⌊q⌋ := by
      have : ((m - 1 : Int) : ℚ) < ((⌊q⌋ : Int) : ℚ) := by push_cast; linarith
      exact_mod_cast this
    omega
  · exfalso
    have he : q - ⌊q⌋ = 1 / 2 := le_antisymm (not_lt.mp hb) (not_lt.mp ha)
    have h5 : ⌊q⌋ < m := by
      have : ((⌊q⌋ : Int) : ℚ) < ((m : Int) : ℚ) := by linarith
      exact_mod_cast this
    have h6 : m - 1 < ⌊q⌋ := by
      have : ((m - 1 : Int) : ℚ) < ((⌊q⌋ : Int) : ℚ) := by push_cast; linarith
      exact_mod_cast this
    omega

/-- The single-precision value of a positive rational with binary exponent `e` whose
significand lies within a half of the integer `m`. -/
theorem roundToFloat_eq (q : ℚ) (e m : Int) (hq : 0 < q) (h1 : (2 : ℚ) ^ e ≤ q)
    (h2 : q < (2 : ℚ) ^ (e + 1))
    (h3 : (m : ℚ) - 1 / 2 < q / 2 ^ (e - 23)) (h4 : q / 2 ^ (e - 23) < m + 1 / 2) :
    roundToFloat q = m * 2 ^ (e - 23) := by
  have hlog : Int.log 2 |q| = e := by
    rw [abs_of_pos hq]
    have ha : e ≤ Int.log 2 q :=
      (Int.zpow_le_iff_le_log (by norm_num) hq).mp (by exact_mod_cast h1)
    have hb : Int.log 2 q < e + 1 :=
      (Int.lt_zpow_iff_log_lt (by norm_num) hq).mp (by exact_mod_cast h2)
    omega
  unfold roundToFloat
  rw [if_neg (ne_of_gt hq), hlog, roundHalfEven_eq _ m h3 h4]

/-- The single-precision product of `0.001f` and `9.999999f` is `0.01f`: the exact
product is 10737417.726 units of 2^(-30), which rounds to 10737418 units. -/
theorem fmul_rounds_to_threshold :
    fmul (8589935 / 8589934592) (10485759 / 1048576) = shininessThreshold := by
  unfold fmul shininessThreshold
  rw [roundToFloat_eq _ (-7) 10737418 (by norm_num) (by norm_num) (by norm_num)
    (by norm_num) (by norm_num)]
  norm_num

theorem phongValue_roundingMaterial (diffuseValid emissiveValid specularValid : Bool) :
    (phongValue sampleEnvironment roundingMaterial diffuseValid emissiveValid
      specularValid).shininess = shininessThreshold ∧
    (phongValue sampleEnvironment roundingMaterial diffuseValid emissiveValid
      specularValid).specular = ⟨1, 1, 1, 1⟩ := by
  have hlt : ¬ shininessThreshold < shininessThreshold := lt_irrefl _
  unfold phongValue
  simp only [roundingMaterial, aiMaterial.blank, Get, AI_SUCCESS, fmul_rounds_to_threshold,
    hlt, if_true, if_false, ne_eq, not_true_eq_false, and_false]
  split_ifs <;> exact ⟨rfl, rfl⟩

/-- C13 (counterexample): the material `roundingMaterial` takes the Phong path (no
base colour, a specular colour), with the shininess `0.001f` and the shininess
strength `9.999999f`.  The exact product of the two is below `0.01f`, which is below
1/100, but line 754 computes the product in single precision, where it is `0.01f`,
and `0.01f < 0.01f` is false: the Phong value bound for the material keeps the
shininess `0.01f` and the specular colour (1,1,1,1). -/
theorem processMaterial_shininess_product_rounds :
    roundingMaterial.baseColor = none ∧ roundingMaterial.colorSpecular.isSome = true ∧
    roundingMaterial.shininess = some (8589935 / 8589934592) ∧
    roundingMaterial.shininessStrength = some (10485759 / 1048576) ∧
    (8589935 / 8589934592 : ℚ) * (10485759 / 1048576) < shininessThreshold ∧
    shininessThreshold < 1 / 100 ∧
    fmul (8589935 / 8589934592) (10485759 / 1048576) = shininessThreshold ∧
    ∃ state value, processMaterial sampleEnvironment [] ⟨none⟩ roundingMaterial = .ok state ∧
      state.descList.getLast? = some (.phongBuffer value 10) ∧
      value.shininess = shininessThreshold ∧ value.shininess ≠ 0 ∧
      value.specular = ⟨1, 1, 1, 1⟩ := by
  refine ⟨rfl, rfl, rfl, rfl, by norm_num [shininessThreshold],
    by norm_num [shininessThreshold], fmul_rounds_to_threshold, ?_⟩
  obtain ⟨state, hstate⟩ := phongPath_blank sampleEnvironment [] ⟨none⟩ roundingMaterial rfl
  have hp : processMaterial sampleEnvironment [] ⟨none⟩ roundingMaterial = .ok state := by
    rw [processMaterial_branch]
    simpa [roundingMaterial, aiMaterial.blank] using hstate
  obtain ⟨dv, ev, sv, s, hlist, _, _⟩ :=
    phongPath_ok sampleEnvironment [] ⟨none⟩ roundingMaterial state hstate
  obtain ⟨h1, h2⟩ := phongValue_roundingMaterial dv ev sv
  refine ⟨state, phongValue sampleEnvironment roundingMaterial dv ev sv, hp, ?_, h1, ?_, h2⟩
  · rw [hlist]; simp
  · rw [h1]; norm_num [shininessThreshold]

/-! ## C12 and C11 at their failing inputs -/

/-- C12 (the code at the failing input): a material with a base colour whose
two-sided attribute is present and false, converted without the `two_sided` option,
takes the PBR path and comes out two-sided: `VSG_TWOSIDED` is defined and back-face
culling is disabled.  On the Phong path (specular colour instead of base colour) the
same attribute leaves culling enabled and the define out. -/
theorem processMaterial_two_sided_attribute_false (env : Environment)
    (mTextures : List aiTexture) (color : vec4) :
    (∃ state, processMaterial env mTextures ⟨none⟩
        { aiMaterial.blank with baseColor := some color, twoSided := some false } = .ok state ∧
      state.hasPbrDescriptor = true ∧
      "VSG_TWOSIDED" ∈ state.pipeline.defines ∧
      state.pipeline.cullMode = .VK_CULL_MODE_NONE) ∧
    (∃ state, processMaterial env mTextures ⟨none⟩
        { aiMaterial.blank with colorSpecular := some color, twoSided := some false } = .ok state ∧
      state.hasPhongDescriptor = true ∧
      "VSG_TWOSIDED" ∉ state.pipeline.defines ∧
      state.pipeline.cullMode = .VK_CULL_MODE_BACK_BIT) := by
  have hb1 := bindTextures_blank env mTextures
    { aiMaterial.blank with baseColor := some color, twoSided := some false } rfl
  have hb2 := bindTexture_blank env mTextures
    { aiMaterial.blank with colorSpecular := some color, twoSided := some false } rfl
  constructor
  · rw [processMaterial_branch]
    simp only [aiMaterial.blank, Option.isSome_some, true_or, if_true]
    unfold pbrPath
    simp only [aiMaterial.blank] at hb1
    simp only [hb1]
    refine ⟨_, rfl, by simp [State.hasPbrDescriptor], ?_, ?_⟩
    · simp [createPipeline, Get, AI_SUCCESS]
    · simp [createPipeline, Get, AI_SUCCESS]
  · rw [processMaterial_branch]
    simp only [aiMaterial.blank, Option.isSome_none, Option.isNone_some, or_self,
      Bool.false_eq_true, if_false]
    unfold phongPath
    simp only [aiMaterial.blank] at hb2
    simp only [hb2, if_true]
    refine ⟨_, rfl, by simp [State.hasPhongDescriptor], ?_, ?_⟩
    · simp [createPipeline, Get, AI_SUCCESS]
    · simp [createPipeline, Get, AI_SUCCESS]

/-- C11 (the code at the failing input): the diffuse texture of the material is the
embedded texture `*0`, which is uncompressed.  Lines 136-142 read no image and do not
return, so `samplerImage.data` is still empty when line 157 pushes
`VSG_DIFFUSE_MAP` and line 181 dereferences it: the slot ends in a fault, and with it
the whole material. -/
theorem getTexture_uncompressed_embedded (env : Environment) (options : Options)
    (defines : List String) :
    loadImage env [uncompressedTexture] ['*', '0'] = .ok (some none) ∧
    getTexture env [uncompressedTexture] embeddedDiffuseMaterial .DIFFUSE defines =
      .error .undefined_behaviour ∧
    processMaterial env [uncompressedTexture] options embeddedDiffuseMaterial =
      .error .undefined_behaviour := by
  have h1 : loadImage env [uncompressedTexture] ['*', '0'] = .ok (some none) := by
    simp [loadImage, atoi, NastranImplementation.isspace, NastranImplementation.readDigits,
      NastranImplementation.isdigit, uncompressedTexture]
  have h2 : ∀ defines, getTexture env [uncompressedTexture] embeddedDiffuseMaterial .DIFFUSE
      defines = .error .undefined_behaviour := by
    intro defines
    simp [getTexture, embeddedDiffuseMaterial, h1]
  refine ⟨h1, h2 defines, ?_⟩
  rw [processMaterial_branch]
  simp only [embeddedDiffuseMaterial, aiMaterial.blank, Option.isNone_none, or_true, if_true]
  simp only [embeddedDiffuseMaterial, aiMaterial.blank] at h2
  simp [pbrPath, bindTextures, pbrSlots, bindTexture, h2]

/-! ## C19: the vertex arrays of a mesh -/

theorem vertexLoop_lengths (mesh : aiMesh) (count : Nat) : ∀ j : Nat,
    (vertexLoop mesh j count).vertices.length = count ∧
    (vertexLoop mesh j count).normals.length = count ∧
    (vertexLoop mesh j count).texcoords.length = count := by
  induction count with
  | zero => intro j; simp [vertexLoop]
  | succ count ih =>
    intro j
    obtain ⟨h1, h2, h3⟩ := ih (j + 1)
    simp [vertexLoop, h1, h2, h3]

theorem vertexLoop_entries (mesh : aiMesh) (count : Nat) : ∀ j i : Nat, i < count →
    (vertexLoop mesh j count).vertices[i]? = some (vertexAt mesh (j + i)) ∧
    (vertexLoop mesh j count).normals[i]? = some (normalAt mesh (j + i)) ∧
    (vertexLoop mesh j count).texcoords[i]? = some (texcoordAt mesh (j + i)) := by
  induction count with
  | zero => intro j i h; omega
  | succ count ih =>
    intro j i h
    cases i with
    | zero => simp [vertexLoop]
    | succ i =>
      obtain ⟨h1, h2, h3⟩ := ih (j + 1) i (by omega)
      have e : j + (i + 1) = j + 1 + i := by omega
      simp [vertexLoop, h1, h2, h3, e]

/-- C19: for a mesh with n vertices the position, normal and texcoord arrays have
exactly n entries; entry j of the positions is source vertex j; entry j of the
normals is source normal j when the mesh has normals and the zero vector otherwise;
entry j of the texcoords is the (x, y) of UV channel 0 at j when the channel exists
and (0, 0) otherwise; and the colour array is the single value (1, 1, 1, 1). -/
theorem meshGeometry_arrays (mesh : aiMesh) :
    (meshGeometry mesh).vertices.length = mesh.mNumVertices ∧
    (meshGeometry mesh).normals.length = mesh.mNumVertices ∧
    (meshGeometry mesh).texcoords.length = mesh.mNumVertices ∧
    (∀ j, j < mesh.mNumVertices →
      (meshGeometry mesh).vertices[j]? =
        some ⟨(mesh.mVertices j).x, (mesh.mVertices j).y, (mesh.mVertices j).z⟩ ∧
      (meshGeometry mesh).normals[j]? =
        some (match mesh.mNormals with
          | some mNormals => ⟨(mNormals j).x, (mNormals j).y, (mNormals j).z⟩
          | none => ⟨0, 0, 0⟩) ∧
      (meshGeometry mesh).texcoords[j]? =
        some (match mesh.mTextureCoords0 with
          | some mTextureCoords => ⟨(mTextureCoords j).x, (mTextureCoords j).y⟩
          | none => ⟨0, 0⟩)) ∧
    (meshGeometry mesh).colors = [⟨1, 1, 1, 1⟩] := by
  obtain ⟨h1, h2, h3⟩ := vertexLoop_lengths mesh mesh.mNumVertices 0
  refine ⟨h1, h2, h3, ?_, rfl⟩
  intro j hj
  obtain ⟨e1, e2, e3⟩ := vertexLoop_entries mesh mesh.mNumVertices 0 j hj
  simp only [Nat.zero_add] at e1 e2 e3
  exact ⟨e1, e2, e3⟩

theorem meshGeometry_arrays_witness :
    (0 : Nat) < wideMesh.mNumVertices ∧
    (meshGeometry wideMesh).vertices[0]? = some ⟨0, 0, 0⟩ ∧
    (meshGeometry wideMesh).normals[0]? = some ⟨0, 0, 0⟩ ∧
    (meshGeometry wideMesh).texcoords[0]? = some ⟨0, 0⟩ :=
  ⟨by decide, (meshGeometry_arrays wideMesh).2.2.2.1 0 (by decide)⟩

/-! ## C14: one state per material, bound by material index -/

/-- The list that `processMaterials` returns is parallel to the materials: it is
returned when every material ends in a state, and otherwise the fault of a material
is the outcome. -/
theorem processMaterials_parallel (env : Environment) (mTextures : List aiTexture)
    (options : Options) (materials : List aiMaterial) :
    match processMaterials env mTextures options materials with
    | .ok bindDescriptorSets =>
      bindDescriptorSets.length = materials.length ∧
      ∀ (i : Nat) (material : aiMaterial), materials[i]? = some material →
        ∃ state, bindDescriptorSets[i]? = some state ∧
          processMaterial env mTextures options material = .ok state
    | .error e =>
      ∃ material ∈ materials, processMaterial env mTextures options material = .error e := by
  induction materials with
  | nil => simp [processMaterials]
  | cons material rest ih =>
    unfold processMaterials
    cases hm : processMaterial env mTextures options material with
    | error e => exact ⟨material, List.mem_cons_self _ _, hm⟩
    | ok state =>
      cases hr : processMaterials env mTextures options rest with
      | error e =>
        rw [hr] at ih
        obtain ⟨m, hmem, he⟩ := ih
        exact ⟨m, List.mem_cons_of_mem _ hmem, he⟩
      | ok list =>
        rw [hr] at ih
        obtain ⟨hlen, hall⟩ := ih
        refine ⟨by simp [hlen], ?_⟩
        intro i m hi
        cases i with
        | zero =>
          simp only [List.getElem?_cons_zero, Option.some.injEq] at hi
          subst hi
          exact ⟨state, by simp, hm⟩
        | succ i =>
          simp only [List.getElem?_cons_succ] at hi
          obtain ⟨st, h1, h2⟩ := hall i m hi
          exact ⟨st, by simpa using h1, h2⟩

/-- Whenever `processMaterials` returns a list, the list has one `State` pair for
every material, in material order; it ends without list only when the texture lookup
of a material ends in a fault, which does not happen when no material has a texture.
The state group of a mesh receives the pair at the material index of the mesh when
the index is smaller than the length of the list and no state command otherwise, and
its geometry is the same in both cases. -/
theorem processMaterials_one_state_per_material (env : Environment)
    (mTextures : List aiTexture) (options : Options) (materials : List aiMaterial)
    (stateSets : List State) (mesh : aiMesh) :
    (match processMaterials env mTextures options materials with
      | .ok bindDescriptorSets =>
        bindDescriptorSets.length = materials.length ∧
        ∀ (i : Nat) (material : aiMaterial), materials[i]? = some material →
          ∃ state, bindDescriptorSets[i]? = some state ∧
            processMaterial env mTextures options material = .ok state
      | .error e =>
        ∃ material ∈ materials, processMaterial env mTextures options material = .error e) ∧
    ((∀ material ∈ materials, material.texture = fun _ => none) →
      ∃ bindDescriptorSets, processMaterials env mTextures options materials =
        .ok bindDescriptorSets) ∧
    (convertMesh stateSets mesh).stateCommands =
      (match stateSets[mesh.mMaterialIndex]? with
        | some state => [state.first, state.second]
        | none => []) ∧
    (mesh.mMaterialIndex < stateSets.length ↔
      (convertMesh stateSets mesh).stateCommands ≠ []) ∧
    (convertMesh stateSets mesh).children = [meshGeometry mesh] := by
  refine ⟨processMaterials_parallel env mTextures options materials, ?_, ?_, ?_, rfl⟩
  · intro hblank
    have hp := processMaterials_parallel env mTextures options materials
    cases hr : processMaterials env mTextures options materials with
    | ok list => exact ⟨list, rfl⟩
    | error e =>
      rw [hr] at hp
      obtain ⟨material, hmem, he⟩ := hp
      exfalso
      have hb := hblank material hmem
      rw [processMaterial_branch] at he
      split_ifs at he
      · unfold pbrPath at he
        simp only [bindTextures_blank env mTextures material hb] at he
        exact Except.noConfusion he
      · obtain ⟨state, hs⟩ := phongPath_blank env mTextures options material hb
        rw [hs] at he
        exact Except.noConfusion he
  · unfold convertMesh
    by_cases h : mesh.mMaterialIndex < stateSets.length
    · simp [h, List.getElem?_eq_getElem]
    · simp [h, List.getElem?_eq_none (not_lt.mp h)]
  · unfold convertMesh
    by_cases h : mesh.mMaterialIndex < stateSets.length <;> simp [h]

theorem processMaterials_one_state_per_material_witness :
    (∀ material ∈ [aiMaterial.blank, dullMaterial], material.texture = fun _ => none) ∧
    ∃ bindDescriptorSets, processMaterials sampleEnvironment [] ⟨none⟩
      [aiMaterial.blank, dullMaterial] = .ok bindDescriptorSets := by
  have hblank : ∀ material ∈ [aiMaterial.blank, dullMaterial],
      material.texture = fun _ => none := by
    intro material hmem
    simp only [List.mem_cons, List.mem_singleton, List.not_mem_nil, or_false] at hmem
    rcases hmem with rfl | rfl <;> rfl
  exact ⟨hblank,
    (processMaterials_one_state_per_material sampleEnvironment [] ⟨none⟩
      [aiMaterial.blank, dullMaterial] [] wideMesh).2.1 hblank⟩

/-- C14 (the code at the failing input): the scene has one material, whose diffuse
texture is the embedded texture `*0`, and this texture is uncompressed (`mHeight` is
not zero).  The conversion of the material ends in the null dereference of line 181,
so `processMaterials` returns no list at all, where the claim promises a list of one
pair.  A mesh of such a scene would get its geometry and, with a material index
outside the list, no state command. -/
theorem processMaterials_embedded_texture_no_list (env : Environment) (options : Options) :
    ([embeddedDiffuseMaterial] : List aiMaterial).length = 1 ∧
    processMaterials env [uncompressedTexture] options [embeddedDiffuseMaterial] =
      .error .undefined_behaviour ∧
    (∀ bindDescriptorSets : List State,
      processMaterials env [uncompressedTexture] options [embeddedDiffuseMaterial] ≠
        .ok bindDescriptorSets) ∧
    (∀ mesh : aiMesh, (convertMesh [] mesh).stateCommands = [] ∧
      (convertMesh [] mesh).children = [meshGeometry mesh]) := by
  have h1 : loadImage env [uncompressedTexture] ['*', '0'] = .ok (some none) := by
    simp [loadImage, atoi, NastranImplementation.isspace, NastranImplementation.readDigits,
      NastranImplementation.isdigit, uncompressedTexture]
  have h2 : ∀ defines, getTexture env [uncompressedTexture] embeddedDiffuseMaterial .DIFFUSE
      defines = .error .undefined_behaviour := by
    intro defines
    simp [getTexture, embeddedDiffuseMaterial, h1]
  have h3 : processMaterial env [uncompressedTexture] options embeddedDiffuseMaterial =
      .error .undefined_behaviour := by
    rw [processMaterial_branch]
    simp only [embeddedDiffuseMaterial, aiMaterial.blank, Option.isNone_none, or_true, if_true]
    simp only [embeddedDiffuseMaterial, aiMaterial.blank] at h2
    simp [pbrPath, bindTextures, pbrSlots, bindTexture, h2]
  have h4 : processMaterials env [uncompressedTexture] options [embeddedDiffuseMaterial] =
      .error .undefined_behaviour := by
    simp only [processMaterials, h3]
  refine ⟨rfl, h4, ?_, ?_⟩
  · intro bindDescriptorSets h
    rw [h4] at h
    exact Except.noConfusion h
  · intro mesh
    exact ⟨by simp [convertMesh], rfl⟩

/-! ## C18: the up axis of the source -/

/-- C18: the source convention is given by the `UpAxis` integer of the scene metadata
when there is one (1 is X-up, 2 is Y-up, every other value is Z-up); otherwise by the
entry of the caller's table for the extension when there is one; otherwise it is
Y-up. -/
theorem source_coordinateConvention_priority
    (formatCoordinateConventions : List (List Char × CoordinateConvention))
    (ext : List Char) (mMetaData : Option aiMetadata) :
    source_coordinateConvention formatCoordinateConventions ext mMetaData =
      match mMetaData.bind (fun metadata => metadata.upAxis) with
      | some upAxis =>
        if upAxis = 1 then .X_UP else if upAxis = 2 then .Y_UP else .Z_UP
      | none =>
        match mapFind formatCoordinateConventions ext with
        | some convention => convention
        | none => .Y_UP := by
  unfold source_coordinateConvention
  cases mMetaData with
  | none => rfl
  | some metadata =>
    cases h : metadata.upAxis with
    | none => simp [h]
    | some upAxis => simp [h]

/-! ## C17: cameras and lights by name -/

theorem mapFind_mapAssign {α : Type} (m : List (List Char × α)) (k key : List Char) (v : α) :
    mapFind (mapAssign m k v) key = if k = key then some v else mapFind m key := by
  induction m with
  | nil => simp [mapAssign, mapFind]
  | cons p m ih =>
    obtain ⟨k1, v1⟩ := p
    by_cases h1 : k1 = k
    · subst h1
      by_cases h2 : k1 = key <;> simp [mapAssign, mapFind, h2]
    · by_cases h2 : k1 = key
      · subst h2
        have h3 : ¬ k = k1 := fun e => h1 e.symm
        simp [mapAssign, mapFind, h1, h3]
      · simp [mapAssign, mapFind, h1, h2, ih]

theorem getLast?_filter_cons {α : Type} (p : α → Bool) (a : α) (l : List α) :
    ((a :: l).filter p).getLast? =
      match (l.filter p).getLast? with
      | some b => some b
      | none => if p a then some a else none := by
  by_cases h : p a = true
  · simp only [List.filter_cons, h, if_true]
    cases hl : l.filter p with
    | nil => simp
    | cons b bs =>
      rw [List.getLast?_cons_cons]
      cases hg : (b :: bs).getLast? with
      | none => simp at hg
      | some d => rfl
  · have hf : p a = false := by simpa using h
    simp only [List.filter_cons, hf, Bool.false_eq_true, if_false]
    cases hg : (l.filter p).getLast? <;> rfl

/-- The camera that the map holds for a name is the one made from the last scene
camera of that name. -/
theorem mapFind_cameraLoop (mCameras : List aiCamera) (name : List Char) :
    ∀ cameraMap : List (List Char × Camera),
      mapFind (cameraLoop mCameras cameraMap) name =
        match (mCameras.filter (fun camera => decide (camera.mName = name))).getLast? with
        | some camera => some (convertCamera camera)
        | none => mapFind cameraMap name := by
  induction mCameras with
  | nil => intro m; simp [cameraLoop]
  | cons camera rest ih =>
    intro m
    simp only [cameraLoop]
    rw [ih, getLast?_filter_cons, mapFind_mapAssign]
    cases (rest.filter (fun camera => decide (camera.mName = name))).getLast? with
    | some c => rfl
    | none =>
      by_cases h : camera.mName = name <;> simp [h, convertCamera]

theorem getLast?_filterMap_cons {α β : Type} (f : α → Option β) (a : α) (l : List α) :
    ((a :: l).filterMap f).getLast? =
      match (l.filterMap f).getLast? with
      | some b => some b
      | none => f a := by
  cases h : f a with
  | none =>
    simp only [List.filterMap_cons, h]
    cases (l.filterMap f).getLast? <;> rfl
  | some b =>
    simp only [List.filterMap_cons, h]
    cases hl : l.filterMap f with
    | nil => simp
    | cons c cs =>
      rw [List.getLast?_cons_cons]
      cases hg : (c :: cs).getLast? with
      | none => simp at hg
      | some d => rfl

/-- The light that the map holds for a name is the one made from the last scene light
of that name for which the `switch` of lines 385-452 makes a light. -/
theorem mapFind_lightLoop (mLights : List aiLight) (name : List Char) :
    ∀ lightMap : List (List Char × Light),
      mapFind (lightLoop mLights lightMap) name =
        match (mLights.filterMap (fun light =>
            if light.mName = name then convertLight light else none)).getLast? with
        | some light => some light
        | none => mapFind lightMap name := by
  induction mLights with
  | nil => intro m; simp [lightLoop]
  | cons light rest ih =>
    intro m
    simp only [lightLoop]
    rw [getLast?_filterMap_cons]
    cases hc : convertLight light with
    | none =>
      simp only [ite_self]
      rw [ih]
      cases (rest.filterMap (fun light =>
            if light.mName = name then convertLight light else none)).getLast? <;> rfl
    | some vsg_light =>
      simp only
      rw [ih, mapFind_mapAssign]
      cases hl : (rest.filterMap (fun light =>
            if light.mName = name then convertLight light else none)).getLast? with
      | some l => rfl
      | none =>
        by_cases h : light.mName = name <;> simp [h]

/-- C17 (as amended): the transform of a node gets one camera when some scene camera
has exactly the name of the node, and it is the camera made from the last scene
camera of that name; it gets one light when some scene light of one of the six named
types has the name, the one made from the last such light; a name that no camera
(light) has gets none. -/
theorem nodeAttachments_last_of_name (mCameras : List aiCamera) (mLights : List aiLight)
    (name : List Char) :
    nodeAttachments (cameraMap mCameras) (lightMap mLights) name =
      (match (mCameras.filter (fun camera => decide (camera.mName = name))).getLast? with
        | some camera => [Attachment.camera (convertCamera camera)]
        | none => []) ++
      (match (mLights.filterMap (fun light =>
            if light.mName = name then convertLight light else none)).getLast? with
        | some light => [Attachment.light light]
        | none => []) ∧
    ((∃ camera, Attachment.camera camera ∈
        nodeAttachments (cameraMap mCameras) (lightMap mLights) name) ↔
      ∃ camera ∈ mCameras, camera.mName = name) ∧
    ((∃ light, Attachment.light light ∈
        nodeAttachments (cameraMap mCameras) (lightMap mLights) name) ↔
      ∃ light ∈ mLights, light.mName = name ∧ (convertLight light).isSome = true) := by
  have hc := mapFind_cameraLoop mCameras name []
  have hl := mapFind_lightLoop mLights name []
  simp only [mapFind] at hc hl
  have heq : nodeAttachments (cameraMap mCameras) (lightMap mLights) name =
      (match (mCameras.filter (fun camera => decide (camera.mName = name))).getLast? with
        | some camera => [Attachment.camera (convertCamera camera)]
        | none => []) ++
      (match (mLights.filterMap (fun light =>
            if light.mName = name then convertLight light else none)).getLast? with
        | some light => [Attachment.light light]
        | none => []) := by
    unfold nodeAttachments cameraMap lightMap
    rw [hc, hl]
    cases (mCameras.filter (fun camera => decide (camera.mName = name))).getLast? <;>
      cases (mLights.filterMap (fun light =>
            if light.mName = name then convertLight light else none)).getLast? <;> rfl
  refine ⟨heq, ?_, ?_⟩
  · rw [heq]
    cases hf : (mCameras.filter (fun camera => decide (camera.mName = name))).getLast? with
    | none =>
      have hnil : mCameras.filter (fun camera => decide (camera.mName = name)) = [] :=
        List.getLast?_eq_none_iff.mp hf
      constructor
      · rintro ⟨camera, hmem⟩
        simp only [List.nil_append] at hmem
        split at hmem <;> simp at hmem
      · rintro ⟨camera, hmem, hname⟩
        have : camera ∈ mCameras.filter (fun camera => decide (camera.mName = name)) :=
          List.mem_filter.mpr ⟨hmem, by simpa using hname⟩
        rw [hnil] at this
        simp at this
    | some c =>
      have hmem : c ∈ mCameras.filter (fun camera => decide (camera.mName = name)) :=
        List.mem_of_getLast?_eq_some hf
      obtain ⟨h1, h2⟩ := List.mem_filter.mp hmem
      constructor
      · intro _
        exact ⟨c, h1, by simpa using h2⟩
      · intro _
        exact ⟨convertCamera c, by simp⟩
  · rw [heq]
    cases hf : (mLights.filterMap (fun light =>
        if light.mName = name then convertLight light else none)).getLast? with
    | none =>
      have hnil : mLights.filterMap (fun light =>
          if light.mName = name then convertLight light else none) = [] :=
        List.getLast?_eq_none_iff.mp hf
      constructor
      · rintro ⟨light, hmem⟩
        simp only [List.append_nil] at hmem
        split at hmem <;> simp at hmem
      · rintro ⟨light, hmem, hname, hsome⟩
        obtain ⟨vsg_light, hv⟩ := Option.isSome_iff_exists.mp hsome
        have : vsg_light ∈ mLights.filterMap (fun light =>
            if light.mName = name then convertLight light else none) :=
          List.mem_filterMap.mpr ⟨light, hmem, by simp [hname, hv]⟩
        rw [hnil] at this
        simp at this
    | some l =>
      have hmem : l ∈ mLights.filterMap (fun light =>
          if light.mName = name then convertLight light else none) :=
        List.mem_of_getLast?_eq_some hf
      obtain ⟨light, h1, h2⟩ := List.mem_filterMap.mp hmem
      constructor
      · intro _
        by_cases hn : light.mName = name
        · simp only [hn, if_true] at h2
          exact ⟨light, h1, hn, by simp [h2]⟩
        · simp [hn] at h2
      · intro _
        exact ⟨l, by simp⟩

/-- C17 (counterexample): with the two cameras `firstCamera` and `secondCamera`, both
named `cam`, the transform of the node `cam` gets the camera made from the second
one, not from the first camera in scene order. -/
theorem nodeAttachments_two_cameras :
    nodeAttachments (cameraMap [firstCamera, secondCamera]) (lightMap []) ['c', 'a', 'm'] =
      [Attachment.camera (convertCamera secondCamera)] ∧
    nodeAttachments (cameraMap [firstCamera, secondCamera]) (lightMap []) ['c', 'a', 'm'] ≠
      [Attachment.camera (convertCamera firstCamera)] := by
  have h : nodeAttachments (cameraMap [firstCamera, secondCamera]) (lightMap [])
      ['c', 'a', 'm'] = [Attachment.camera (convertCamera secondCamera)] := by rfl
  refine ⟨h, ?_⟩
  rw [h]
  intro heq
  have hx : (convertCamera secondCamera).eye.x = (convertCamera firstCamera).eye.x := by
    injection heq with h1 _
    injection h1 with h2
    rw [h2]
  simp [convertCamera, dconvert, firstCamera, secondCamera] at hx

/-! ## C20: the extension list -/

theorem findFrom_none (c : Char) (a : List Char) (h : c ∉ a) : ∀ pos : Nat,
    findFrom c a pos = none := by
  induction a with
  | nil => intro pos; rfl
  | cons d ds ih =>
    intro pos
    have hd : ¬ d = c := fun e => h (e ▸ List.mem_cons_self _ _)
    simp [findFrom, hd, ih (fun m => h (List.mem_cons_of_mem _ m))]

theorem findFrom_append (c : Char) (a b : List Char) (h : c ∉ a) : ∀ pos : Nat,
    findFrom c (a ++ c :: b) pos = some (pos + a.length) := by
  induction a with
  | nil => intro pos; simp [findFrom]
  | cons d ds ih =>
    intro pos
    have hd : ¬ d = c := fun e => h (e ▸ List.mem_cons_self _ _)
    have hi := ih (fun m => h (List.mem_cons_of_mem _ m)) (pos + 1)
    simp only [List.cons_append, findFrom, hd, if_false, List.length_cons]
    rw [show ds.append (c :: b) = ds ++ c :: b from rfl] at *
    rw [hi]
    congr 1
    omega

theorem findFrom_bounds (c : Char) (a : List Char) : ∀ (pos k : Nat),
    findFrom c a pos = some k → pos ≤ k ∧ k < pos + a.length := by
  induction a with
  | nil => intro pos k h; simp [findFrom] at h
  | cons d ds ih =>
    intro pos k h
    unfold findFrom at h
    split_ifs at h
    · simp only [Option.some.injEq] at h
      subst h
      simp
    · obtain ⟨h1, h2⟩ := ih (pos + 1) k h
      simp only [List.length_cons]
      omega

/-- The number of rounds that `getFeatures` allows is never used up: from any
`start`, with `semicolon` the result of the search from `start`, the loop gives the
same result for every number of rounds above `size + 1 - start`. -/
theorem extensionLoop_rounds (f : Nat) (s : List Char) (rounds : Nat) :
    ∀ (rounds1 start : Nat) (m : List (List Char × Nat)),
      s.length + 1 ≤ rounds + start → s.length + 1 ≤ rounds1 + start →
      extensionLoop f s rounds start (find s ';' start) m =
        extensionLoop f s rounds1 start (find s ';' start) m := by
  induction rounds with
  | zero =>
    intro rounds1 start m h _
    have hnone : find s ';' start = none := by
      unfold find
      rw [List.drop_eq_nil_of_le (by omega)]
      rfl
    rw [hnone]
    cases rounds1 <;> rfl
  | succ rounds ih =>
    intro rounds1 start m h h1
    cases hf : find s ';' start with
    | none => cases rounds1 <;> rfl
    | some semicolon =>
      obtain ⟨hb1, hb2⟩ := findFrom_bounds ';' (s.drop start) start semicolon hf
      simp only [List.length_drop] at hb2
      cases rounds1 with
      | zero => omega
      | succ rounds1 =>
        simp only [extensionLoop]
        cases substr s start (some (semicolon - start)) with
        | error e => rfl
        | ok key => exact ih rounds1 (semicolon + 2) _ (by omega) (by omega)

theorem length_tokensText (es : List (List Char)) : es.length ≤ (tokensText es).length + 1 := by
  induction es with
  | nil => simp
  | cons e es ih =>
    cases es with
    | nil => simp [tokensText]
    | cons e1 es =>
      simp only [tokensText, List.length_cons, List.length_append] at ih ⊢
      omega

/-- The loop and the assignment after it on a text that holds, from `start` on, the
tokens `es` separated by `;*`. -/
theorem extensionLoop_tokens (f : Nat) (s : List Char) (es : List (List Char)) :
    ∀ (start rounds : Nat) (m : List (List Char × Nat)),
      es ≠ [] → (∀ e ∈ es, ';' ∉ e) → s.drop start = tokensText es → start ≤ s.length →
      es.length ≤ rounds →
      ∃ start1 m1 key,
        extensionLoop f s rounds start (find s ';' start) m = .ok (start1, m1) ∧
        substr s start1 none = .ok key ∧
        ∀ k, mapFind (mapAssign m1 key f) k = if k ∈ es then some f else mapFind m k := by
  induction es with
  | nil => intro start rounds m h; exact absurd rfl h
  | cons e es ih =>
    intro start rounds m _ hsemi hdrop hstart hrounds
    have he : ';' ∉ e := hsemi e (List.mem_cons_self _ _)
    cases es with
    | nil =>
      simp only [tokensText] at hdrop
      have hnone : find s ';' start = none := by
        unfold find
        rw [hdrop]
        exact findFrom_none ';' e he start
      refine ⟨start, m, e, ?_, ?_, ?_⟩
      · rw [hnone]
        cases rounds <;> rfl
      · simp [substr, Nat.not_lt.mpr hstart, hdrop]
      · intro k
        rw [mapFind_mapAssign]
        by_cases hk : e = k
        · simp [hk]
        · have hk' : ¬ k = e := fun h => hk h.symm
          simp [hk, hk']
    | cons e1 es =>
      simp only [tokensText] at hdrop
      have hfind : find s ';' start = some (start + e.length) := by
        unfold find
        rw [hdrop]
        exact findFrom_append ';' e _ he start
      have hlen : s.length - start = e.length + 2 + (tokensText (e1 :: es)).length := by
        have := congrArg List.length hdrop
        simp only [List.length_drop, List.length_append, List.length_cons] at this
        omega
      have hdrop2 : s.drop (start + e.length + 2) = tokensText (e1 :: es) := by
        have h1 : s.drop (start + e.length + 2) = (s.drop start).drop (e.length + 2) := by
          rw [List.drop_drop]
          congr 1
        rw [h1, hdrop]
        have h2 : e ++ ';' :: '*' :: tokensText (e1 :: es) =
            (e ++ [';', '*']) ++ tokensText (e1 :: es) := by simp
        rw [h2]
        have h3 : e.length + 2 = (e ++ [';', '*']).length := by simp
        rw [h3, List.drop_left]
      cases rounds with
      | zero => simp at hrounds
      | succ rounds =>
        have hkey : substr s start (some (start + e.length - start)) = .ok e := by
          simp [substr, Nat.not_lt.mpr hstart, hdrop]
        obtain ⟨start1, m1, key, h1, h2, h3⟩ :=
          ih (start + e.length + 2) rounds (mapAssign m e f) (List.cons_ne_nil _ _)
            (fun x hx => hsemi x (List.mem_cons_of_mem _ hx)) hdrop2 (by omega)
            (by simp only [List.length_cons] at hrounds ⊢; omega)
        refine ⟨start1, m1, key, ?_, h2, ?_⟩
        · rw [hfind]
          simp only [extensionLoop, hkey]
          exact h1
        · intro k
          rw [h3 k, mapFind_mapAssign]
          by_cases hk1 : k ∈ e1 :: es
          · simp [hk1]
          · by_cases hk : e = k
            · simp [hk]
            · have hk' : ¬ k = e := fun h => hk h.symm
              simp only [hk1, if_false, hk, List.mem_cons, hk', false_or]

/-- C20: for every non-empty sequence of tokens without `;`, `getFeatures` on the
extension list `*e1;*e2;...;*en` sets in the extension feature map exactly the keys
`e1, ..., en`, each to the mask `READ_FILENAME | READ_ISTREAM | READ_MEMORY`, leaves
every other key as it was, and returns `true`. -/
theorem getFeatures_extension_keys (bits : FeatureBits) (es : List (List Char))
    (features : Features) (hne : es ≠ []) (hsemi : ∀ e ∈ es, ';' ∉ e) :
    ∃ features1, getFeatures bits (extensionList es) features = .ok (features1, true) ∧
      ∀ key, mapFind features1.extensionFeatureMap key =
        if key ∈ es then some (bits.READ_FILENAME ||| bits.READ_ISTREAM ||| bits.READ_MEMORY)
        else mapFind features.extensionFeatureMap key := by
  obtain ⟨start1, m1, key, h1, h2, h3⟩ :=
    extensionLoop_tokens (bits.READ_FILENAME ||| bits.READ_ISTREAM ||| bits.READ_MEMORY)
      (extensionList es) es 1 ((extensionList es).length + 1) features.extensionFeatureMap hne
      hsemi (by simp [extensionList]) (by simp [extensionList])
      (by
        have := length_tokensText es
        simp only [extensionList, List.length_cons]
        omega)
  unfold getFeatures
  simp only [h1, h2]
  exact ⟨_, rfl, h3⟩

theorem getFeatures_extension_keys_witness :
    ([['o', 'b', 'j'], ['.', '3', 'd', 's']] : List (List Char)) ≠ [] ∧
    ∃ features1, getFeatures ⟨1, 2, 4⟩ (extensionList [['o', 'b', 'j'], ['.', '3', 'd', 's']])
        ⟨[], []⟩ = .ok (features1, true) ∧
      ∀ key, mapFind features1.extensionFeatureMap key =
        if key ∈ [['o', 'b', 'j'], ['.', '3', 'd', 's']] then
          some ((⟨1, 2, 4⟩ : FeatureBits).READ_FILENAME ||| (⟨1, 2, 4⟩ : FeatureBits).READ_ISTREAM
            ||| (⟨1, 2, 4⟩ : FeatureBits).READ_MEMORY)
        else mapFind ([] : List (List Char × Nat)) key :=
  ⟨by simp,
   getFeatures_extension_keys ⟨1, 2, 4⟩ [['o', 'b', 'j'], ['.', '3', 'd', 's']] ⟨[], []⟩
    (by simp) (by decide)⟩

/-! ## C22: wrap modes and anisotropy of the samplers -/

/-- C22: `getWrapMode` maps wrap to repeat, clamp to clamp-to-edge, decal to
clamp-to-border, mirror to mirrored-repeat and every other value to repeat; and
whenever `getTexture` returns a sampler, the material has a texture of the requested
type, the three address modes of the sampler are the images under `getWrapMode` of
the three wrap modes of that texture, anisotropy is enabled and its maximum is 16. -/
theorem getTexture_sampler_address_modes :
    (getWrapMode .aiTextureMapMode_Wrap = .REPEAT ∧
      getWrapMode .aiTextureMapMode_Clamp = .CLAMP_TO_EDGE ∧
      getWrapMode .aiTextureMapMode_Decal = .CLAMP_TO_BORDER ∧
      getWrapMode .aiTextureMapMode_Mirror = .MIRRORED_REPEAT ∧
      ∀ other, getWrapMode (.other other) = .REPEAT) ∧
    ∀ (env : Environment) (mTextures : List aiTexture) (material : aiMaterial)
      (type : aiTextureType) (defines : List String) (samplerImage : SamplerData)
      (defines1 : List String) (sampler : Sampler),
      getTexture env mTextures material type defines = .ok (samplerImage, defines1) →
      samplerImage.sampler = some sampler →
      ∃ tex, material.texture type = some tex ∧
        sampler.addressModeU = getWrapMode tex.wrapMode0 ∧
        sampler.addressModeV = getWrapMode tex.wrapMode1 ∧
        sampler.addressModeW = getWrapMode tex.wrapMode2 ∧
        sampler.anisotropyEnable = true ∧ sampler.maxAnisotropy = 16 := by
  refine ⟨⟨rfl, rfl, rfl, rfl, fun _ => rfl⟩, ?_⟩
  intro env mTextures material type defines samplerImage defines1 sampler h hs
  unfold getTexture at h
  cases ht : material.texture type with
  | none =>
    simp only [ht, Except.ok.injEq, Prod.mk.injEq] at h
    rw [← h.1] at hs
    simp at hs
  | some tex =>
    simp only [ht] at h
    cases hl : loadImage env mTextures tex.texPath with
    | error e => simp [hl] at h
    | ok image =>
      cases image with
      | none =>
        simp only [hl, Except.ok.injEq, Prod.mk.injEq] at h
        rw [← h.1] at hs
        simp at hs
      | some image =>
        cases image with
        | none => simp [hl] at h
        | some data =>
          simp only [hl, Except.ok.injEq, Prod.mk.injEq] at h
          rw [← h.1] at hs
          simp only [Option.some.injEq] at hs
          subst hs
          exact ⟨tex, rfl, rfl, rfl, rfl, rfl, rfl⟩

theorem getTexture_sampler_address_modes_witness :
    getTexture imageEnvironment [] mirroredMaterial .DIFFUSE [] =
      .ok (⟨some ⟨.MIRRORED_REPEAT, .CLAMP_TO_EDGE, .CLAMP_TO_BORDER, true, 16⟩,
        some ⟨4, 4, 1⟩⟩, ["VSG_DIFFUSE_MAP"]) ∧
    ∃ tex, mirroredMaterial.texture .DIFFUSE = some tex ∧
      (⟨.MIRRORED_REPEAT, .CLAMP_TO_EDGE, .CLAMP_TO_BORDER, true, 16⟩ : Sampler).addressModeU =
        getWrapMode tex.wrapMode0 ∧
      (⟨.MIRRORED_REPEAT, .CLAMP_TO_EDGE, .CLAMP_TO_BORDER, true, 16⟩ : Sampler).addressModeV =
        getWrapMode tex.wrapMode1 ∧
      (⟨.MIRRORED_REPEAT, .CLAMP_TO_EDGE, .CLAMP_TO_BORDER, true, 16⟩ : Sampler).addressModeW =
        getWrapMode tex.wrapMode2 ∧
      (⟨.MIRRORED_REPEAT, .CLAMP_TO_EDGE, .CLAMP_TO_BORDER, true, 16⟩ : Sampler).anisotropyEnable =
        true ∧
      (⟨.MIRRORED_REPEAT, .CLAMP_TO_EDGE, .CLAMP_TO_BORDER, true, 16⟩ : Sampler).maxAnisotropy =
        16 := by
  have h : getTexture imageEnvironment [] mirroredMaterial .DIFFUSE [] =
      .ok (⟨some ⟨.MIRRORED_REPEAT, .CLAMP_TO_EDGE, .CLAMP_TO_BORDER, true, 16⟩,
        some ⟨4, 4, 1⟩⟩, ["VSG_DIFFUSE_MAP"]) := by
    rfl
  exact ⟨h, getTexture_sampler_address_modes.2 imageEnvironment [] mirroredMaterial .DIFFUSE []
    _ _ _ h rfl⟩

/-! ## C21: the import flags of the three entry points -/

/-- C21 (the code at the failing input): the entry point for a file path hands over
the base flags with smooth-normal generation and the crease angle (the option, or 80)
when `generate_smooth_normals` is true, with hard-edge generation when it is not and
`generate_sharp_normals` is true, and the base flags alone otherwise.  The entry
points for a stream and for a memory buffer hand over the base flags alone and set
no crease angle, whatever the options are: with `smoothOptions` the file path gets
the flags `0xA48848` and the angle 30, the stream and the buffer `0xA48808`, in
which the bit of smooth-normal generation is not set. -/
theorem read_istream_ignores_normal_options :
    (∀ (options : ReadOptions) (ext : List Char) (c : Char) (rest : List Char),
      read_Path (fun _ => true) ext (c :: rest) options =
        some (if options.generate_smooth_normals = some true then
            ⟨_importFlags ||| aiProcess_GenSmoothNormals,
              some (match options.crease_angle with
                | some angle => angle
                | none => 80)⟩
          else if options.generate_sharp_normals = some true then
            ⟨_importFlags ||| aiProcess_GenNormals, none⟩
          else ⟨_importFlags, none⟩)) ∧
    (∀ options : ReadOptions,
      read_istream (fun _ => true) (some options) = some ⟨_importFlags, none⟩ ∧
      read_memory (fun _ => true) (some options) = some ⟨_importFlags, none⟩) ∧
    read_Path (fun _ => true) ['o', 'b', 'j'] ['a', '.', 'o', 'b', 'j'] smoothOptions =
      some ⟨0xA48848, some 30⟩ ∧
    read_istream (fun _ => true) (some smoothOptions) = some ⟨0xA48808, none⟩ ∧
    read_memory (fun _ => true) (some smoothOptions) = some ⟨0xA48808, none⟩ ∧
    read_Path (fun _ => true) ['o', 'b', 'j'] ['a', '.', 'o', 'b', 'j'] sharpOptions =
      some ⟨0xA48828, none⟩ ∧
    read_istream (fun _ => true) (some sharpOptions) = some ⟨0xA48808, none⟩ ∧
    (0xA48808 : Nat).testBit 6 = false ∧ (0xA48808 : Nat).testBit 5 = false ∧
    (0xA48848 : Nat).testBit 6 = true ∧ (0xA48828 : Nat).testBit 5 = true := by
  refine ⟨?_, fun _ => ⟨rfl, rfl⟩, ?_, rfl, rfl, ?_, rfl, by decide, by decide, by decide,
    by decide⟩
  · intro options ext c rest
    obtain ⟨smooth, sharp, angle, hint⟩ := options
    cases smooth with
    | none =>
      cases sharp with
      | none => simp [read_Path, vsg.value]
      | some sharp => cases sharp <;> simp [read_Path, vsg.value]
    | some smooth =>
      cases smooth
      · cases sharp with
        | none => simp [read_Path, vsg.value]
        | some sharp => cases sharp <;> simp [read_Path, vsg.value]
      · cases angle <;> simp [read_Path, vsg.value]
  · simp [read_Path, vsg.value, smoothOptions, _importFlags, aiProcess_Triangulate,
      aiProcess_FlipUVs, aiProcess_OptimizeMeshes, aiProcess_SortByPType,
      aiProcess_ImproveCacheLocality, aiProcess_GenUVCoords, aiProcess_GenSmoothNormals]
  · simp [read_Path, vsg.value, sharpOptions, _importFlags, aiProcess_Triangulate,
      aiProcess_FlipUVs, aiProcess_OptimizeMeshes, aiProcess_SortByPType,
      aiProcess_ImproveCacheLocality, aiProcess_GenUVCoords, aiProcess_GenNormals]

/-! ## C27 and C29 at their failing inputs -/

/-- C27 (the code at the failing input): every face index of the mesh `wideMesh` is
smaller than its vertex count 65537, its index vector `[0, 1, 65536]` has 3 entries,
so the geometry gets the 16-bit buffer, and the buffer holds `[0, 1, 0]`: the source
index 65536 exceeds 65535 and is stored as 65536 mod 2^16 = 0. -/
theorem meshGeometry_wide_mesh_wraps :
    (∀ face ∈ wideMesh.mFaces, ∀ index ∈ face.mIndices, index < wideMesh.mNumVertices) ∧
    meshIndices wideMesh = [0, 1, 65536] ∧
    (meshGeometry wideMesh).indices = .ushortArray [0, 1, 0] ∧
    (meshGeometry wideMesh).indices.elementBits = 16 ∧
    ¬ (65536 ≤ 65535) ∧ 65536 % 2 ^ 16 ≠ 65536 := by
  refine ⟨?_, rfl, by decide, by decide, by decide, by decide⟩
  intro face hface index hindex
  simp only [wideMesh, List.mem_singleton] at hface
  subst hface
  simp only [List.mem_cons, List.mem_singleton, List.not_mem_nil, or_false] at hindex
  rcases hindex with h | h | h <;> subst h <;> decide

/-- C29 (the code at the failing input): the point light and the spot light made from
a source light have the source's diffuse colour, and the spot light and the
directional light have the source's direction, but the position of the point light
and of the spot light is the source's direction, not its position: the lights
`lampLight` and `spotLight`, both at (1, 2, 3), come out at (0, 0, 0) and at
(0, 0, -1). -/
theorem convertLight_position_is_direction :
    (∀ light : aiLight,
      convertLight { light with mType := .aiLightSource_POINT } =
        some (.point light.mName (convert light.mColorDiffuse) (dconvert light.mDirection)) ∧
      convertLight { light with mType := .aiLightSource_SPOT } =
        some (.spot light.mName (convert light.mColorDiffuse) (dconvert light.mDirection)
          (dconvert light.mDirection) light.mAngleInnerCone light.mAngleOuterCone) ∧
      convertLight { light with mType := .aiLightSource_DIRECTIONAL } =
        some (.directional light.mName (convert light.mColorDiffuse)
          (dconvert light.mDirection))) ∧
    dconvert lampLight.mPosition = ⟨1, 2, 3⟩ ∧
    convertLight lampLight = some (.point ['l', 'a', 'm', 'p'] ⟨1, 1, 1⟩ ⟨0, 0, 0⟩) ∧
    dconvert spotLight.mPosition = ⟨1, 2, 3⟩ ∧
    convertLight spotLight =
      some (.spot ['s', 'p', 'o', 't'] ⟨1, 1, 1⟩ ⟨0, 0, -1⟩ ⟨0, 0, -1⟩ (1 / 2) 1) ∧
    (⟨0, 0, 0⟩ : dvec3) ≠ ⟨1, 2, 3⟩ ∧ (⟨0, 0, -1⟩ : dvec3) ≠ ⟨1, 2, 3⟩ := by
  refine ⟨fun _ => ⟨rfl, rfl, rfl⟩, rfl, rfl, rfl, rfl, ?_, ?_⟩
  · intro h
    injection h with h1 h2 h3
    norm_num at h1
  · intro h
    injection h with h1 h2 h3
    norm_num at h1

/-! ## C23: the traversal of the node tree -/

theorem length_addChildren (store : List Group) :
    ∀ (parent : Nat) (children : List Child),
      (addChildren store parent children).length = store.length := by
  induction store with
  | nil => intro parent children; rfl
  | cons g rest ih =>
    intro parent children
    cases parent with
    | zero => rfl
    | succ parent => simp [addChildren, ih]

theorem addChild_eq_addChildren (store : List Group) :
    ∀ (parent : Nat) (child : Child),
      addChild store parent child = addChildren store parent [child] := by
  induction store with
  | nil => intro parent child; rfl
  | cons g rest ih =>
    intro parent child
    cases parent with
    | zero => rfl
    | succ parent => simp [addChild, addChildren, ih]

theorem addChildren_nil (store : List Group) :
    ∀ parent : Nat, addChildren store parent [] = store := by
  induction store with
  | nil => intro parent; rfl
  | cons g rest ih =>
    intro parent
    cases parent with
    | zero => simp [addChildren]
    | succ parent => simp [addChildren, ih]

theorem addChildren_addChildren (store : List Group) :
    ∀ (parent : Nat) (first second : List Child),
      addChildren (addChildren store parent first) parent second =
        addChildren store parent (first ++ second) := by
  induction store with
  | nil => intro parent first second; rfl
  | cons g rest ih =>
    intro parent first second
    cases parent with
    | zero => simp [addChildren]
    | succ parent => simp [addChildren, ih]

theorem addChildren_append (store : List Group) :
    ∀ (parent : Nat) (children : List Child) (tail : List Group), parent < store.length →
      addChildren (store ++ tail) parent children = addChildren store parent children ++ tail := by
  induction store with
  | nil => intro parent children tail h; simp at h
  | cons g rest ih =>
    intro parent children tail h
    cases parent with
    | zero => rfl
    | succ parent =>
      simp only [List.length_cons, Nat.add_lt_add_iff_right] at h
      simp [addChildren, ih parent children tail h]

theorem addChildren_last (store : List Group) :
    ∀ (group : Group) (children : List Child) (tail : List Group),
      addChildren (store ++ group :: tail) store.length children =
        store ++ { group with children := group.children ++ children } :: tail := by
  induction store with
  | nil => intro group children tail; rfl
  | cons g rest ih =>
    intro group children tail
    simp [addChildren, ih]

mutual
theorem length_subtreeGroups (scene : SceneContext) :
    ∀ (node : aiNode) (xform : Nat), (subtreeGroups scene node xform).length = node.size
  | .mk _ _ _ mChildren, xform => by
    simp only [subtreeGroups, aiNode.size, List.length_cons,
      length_forestGroups scene mChildren (xform + 1)]
    omega
theorem length_forestGroups (scene : SceneContext) :
    ∀ (nodes : List aiNode) (start : Nat),
      (forestGroups scene nodes start).length = aiNode.sizeList nodes
  | [], _ => by simp [forestGroups, aiNode.sizeList]
  | child :: rest, start => by
    simp only [forestGroups, aiNode.sizeList, List.length_append,
      length_forestGroups scene rest start,
      length_subtreeGroups scene child (start + aiNode.sizeList rest)]
    omega
end

theorem meshLoop_ok (mMeshes : List aiMesh) (stateSets : List State) (indices : List Nat)
    (h : indices.all (fun index => decide (index < mMeshes.length)) = true) :
    ∃ stategroups, meshLoop mMeshes stateSets indices = .ok stategroups ∧
      ∀ child ∈ stategroups, ∃ stategroup, child = .stategroup stategroup := by
  induction indices with
  | nil => exact ⟨[], rfl, by simp⟩
  | cons index rest ih =>
    simp only [List.all_cons, Bool.and_eq_true, decide_eq_true_eq] at h
    obtain ⟨stategroups, hs, hall⟩ := ih h.2
    have hm : mMeshes[index]? = some (mMeshes.get ⟨index, h.1⟩) := by
      simp [List.getElem?_eq_getElem h.1]
    refine ⟨.stategroup (convertMesh stateSets (mMeshes.get ⟨index, h.1⟩)) :: stategroups,
      by simp only [meshLoop, hm, hs], ?_⟩
    intro child hc
    simp only [List.mem_cons] at hc
    rcases hc with hc | hc
    · exact ⟨_, hc⟩
    · exact hall child hc

theorem meshLoop_error (mMeshes : List aiMesh) (stateSets : List State) (indices : List Nat)
    (h : indices.all (fun index => decide (index < mMeshes.length)) = false) :
    meshLoop mMeshes stateSets indices = .error .undefined_behaviour := by
  induction indices with
  | nil => simp at h
  | cons index rest ih =>
    simp only [List.all_cons, Bool.and_eq_false_iff, decide_eq_false_iff_not, not_lt] at h
    unfold meshLoop
    cases hm : mMeshes[index]? with
    | none => rfl
    | some mesh =>
      have hlt : index < mMeshes.length := by
        by_contra hge
        rw [List.getElem?_eq_none (by omega)] at hm
        exact Option.noConfusion hm
      rcases h with h | h
      · omega
      · simp only [ih h]

theorem pushChildren_eq (children : List aiNode) :
    ∀ (xform : Nat) (nodes : List (Option aiNode × Nat)),
      pushChildren children xform nodes =
        (children.map (fun child => (some child, xform))).reverse ++ nodes := by
  induction children with
  | nil => intro xform nodes; rfl
  | cons child rest ih => intro xform nodes; simp [pushChildren, ih]

mutual
/-- The rounds of the loop that start with a node on top of the stack: after as many
rounds as the subtree of the node has nodes, the stack is the rest of the stack and
the store has got the transform of the node as a child of `parent` and, at its end,
the groups of the subtree. -/
theorem nodeLoop_subtree (scene : SceneContext) :
    ∀ (node : aiNode) (rounds : Nat) (store : List Group) (parent : Nat)
      (nodes : List (Option aiNode × Nat)),
      node.meshesBelow scene.mMeshes.length = true →
      nodeLoop scene (rounds + node.size) store ((some node, parent) :: nodes) =
        nodeLoop scene rounds
          (addChild store parent (.group store.length) ++ subtreeGroups scene node store.length)
          nodes
  | .mk mName mTransformation mMeshes mChildren, rounds, store, parent, nodes => by
    intro hvalid
    simp only [aiNode.meshesBelow, Bool.and_eq_true] at hvalid
    obtain ⟨stategroups, hs, _⟩ := meshLoop_ok scene.mMeshes scene.stateSets mMeshes hvalid.1
    have hsize : rounds + (aiNode.mk mName mTransformation mMeshes mChildren).size =
        (rounds + aiNode.sizeList mChildren) + 1 := by
      simp only [aiNode.size]; omega
    rw [hsize]
    simp only [nodeLoop, visitNode, aiNode.mMeshes, aiNode.mName, aiNode.mTransformation,
      aiNode.mChildren, hs]
    have hlen : (addChild store parent (.group store.length) ++
        [(⟨.MatrixTransform (mat4.create mTransformation.Transpose),
          (nodeAttachments scene.cameraMap scene.lightMap mName).map .attachment ++
            stategroups⟩ : Group)]).length = store.length + 1 := by
      simp [addChild_eq_addChildren, length_addChildren]
    have hx : store.length = (addChild store parent (.group store.length)).length := by
      simp [addChild_eq_addChildren, length_addChildren]
    rw [nodeLoop_forest scene mChildren rounds _ store.length nodes (by rw [hlen]; omega)
      hvalid.2, hlen]
    congr 1
    simp only [subtreeGroups, ownChildren, hs]
    nth_rewrite 2 [hx]
    rw [addChildren_last]
    simp
/-- The rounds of the loop that start after the children of a node were pushed. -/
theorem nodeLoop_forest (scene : SceneContext) :
    ∀ (children : List aiNode) (rounds : Nat) (store : List Group) (xform : Nat)
      (nodes : List (Option aiNode × Nat)), xform < store.length →
      aiNode.meshesBelowList scene.mMeshes.length children = true →
      nodeLoop scene (rounds + aiNode.sizeList children) store
          (pushChildren children xform nodes) =
        nodeLoop scene rounds
          (addChildren store xform ((childPointers children store.length).map .group) ++
            forestGroups scene children store.length)
          nodes
  | [], rounds, store, xform, nodes => by
    intro _ _
    simp [aiNode.sizeList, pushChildren, childPointers, forestGroups, addChildren_nil]
  | child :: rest, rounds, store, xform, nodes => by
    intro hx hvalid
    simp only [aiNode.meshesBelowList, Bool.and_eq_true] at hvalid
    have hsize : rounds + aiNode.sizeList (child :: rest) =
        (rounds + child.size) + aiNode.sizeList rest := by
      simp only [aiNode.sizeList]; omega
    rw [hsize]
    simp only [pushChildren]
    rw [nodeLoop_forest scene rest (rounds + child.size) store xform _ hx hvalid.2,
      nodeLoop_subtree scene child rounds _ xform nodes hvalid.1]
    congr 1
    simp only [List.length_append, length_addChildren, length_forestGroups, childPointers,
      forestGroups, List.map_append, List.map_cons, List.map_nil, addChild_eq_addChildren]
    rw [addChildren_append _ _ _ _ (by rw [length_addChildren]; exact hx),
      addChildren_addChildren]
    simp
end

mutual
/-- A mesh index outside the array of meshes, anywhere in the subtree, ends the loop
in undefined behaviour within the rounds of the subtree. -/
theorem nodeLoop_subtree_fault (scene : SceneContext) :
    ∀ (node : aiNode) (rounds : Nat) (store : List Group) (parent : Nat)
      (nodes : List (Option aiNode × Nat)),
      node.meshesBelow scene.mMeshes.length = false →
      ∃ e, nodeLoop scene (rounds + node.size) store ((some node, parent) :: nodes) =
        some (.error e)
  | .mk mName mTransformation mMeshes mChildren, rounds, store, parent, nodes => by
    intro hvalid
    have hsize : rounds + (aiNode.mk mName mTransformation mMeshes mChildren).size =
        (rounds + aiNode.sizeList mChildren) + 1 := by
      simp only [aiNode.size]; omega
    rw [hsize]
    simp only [aiNode.meshesBelow, Bool.and_eq_false_iff] at hvalid
    cases hown : mMeshes.all (fun index => decide (index < scene.mMeshes.length)) with
    | false =>
      have hs := meshLoop_error scene.mMeshes scene.stateSets mMeshes hown
      exact ⟨.undefined_behaviour, by simp only [nodeLoop, visitNode, aiNode.mMeshes, hs]⟩
    | true =>
      have hrest : aiNode.meshesBelowList scene.mMeshes.length mChildren = false := by
        rcases hvalid with h | h
        · rw [hown] at h; exact Bool.noConfusion h
        · exact h
      obtain ⟨stategroups, hs, _⟩ := meshLoop_ok scene.mMeshes scene.stateSets mMeshes hown
      simp only [nodeLoop, visitNode, aiNode.mMeshes, aiNode.mName, aiNode.mTransformation,
        aiNode.mChildren, hs]
      exact nodeLoop_forest_fault scene mChildren rounds _ store.length nodes
        (by simp [addChild_eq_addChildren, length_addChildren]) hrest
/-- The same for the children of a node. -/
theorem nodeLoop_forest_fault (scene : SceneContext) :
    ∀ (children : List aiNode) (rounds : Nat) (store : List Group) (xform : Nat)
      (nodes : List (Option aiNode × Nat)), xform < store.length →
      aiNode.meshesBelowList scene.mMeshes.length children = false →
      ∃ e, nodeLoop scene (rounds + aiNode.sizeList children) store
          (pushChildren children xform nodes) = some (.error e)
  | [], rounds, store, xform, nodes => by
    intro _ h
    simp [aiNode.meshesBelowList] at h
  | child :: rest, rounds, store, xform, nodes => by
    intro hx hvalid
    have hsize : rounds + aiNode.sizeList (child :: rest) =
        (rounds + child.size) + aiNode.sizeList rest := by
      simp only [aiNode.sizeList]; omega
    rw [hsize]
    simp only [pushChildren]
    cases hrest : aiNode.meshesBelowList scene.mMeshes.length rest with
    | false =>
      exact nodeLoop_forest_fault scene rest (rounds + child.size) store xform _ hx hrest
    | true =>
      have hchild : child.meshesBelow scene.mMeshes.length = false := by
        simp only [aiNode.meshesBelowList, Bool.and_eq_false_iff] at hvalid
        rcases hvalid with h | h
        · exact h
        · rw [hrest] at h; exact Bool.noConfusion h
      rw [nodeLoop_forest scene rest (rounds + child.size) store xform _ hx hrest]
      exact nodeLoop_subtree_fault scene child rounds _ xform nodes hchild
end

theorem meshLoop_stategroups (mMeshes : List aiMesh) (stateSets : List State) :
    ∀ (indices : List Nat) (stategroups : List Child),
      meshLoop mMeshes stateSets indices = .ok stategroups →
      ∀ child ∈ stategroups, ∃ stategroup, child = .stategroup stategroup := by
  intro indices
  induction indices with
  | nil =>
    intro stategroups h child hc
    simp only [meshLoop, Except.ok.injEq] at h
    subst h
    simp at hc
  | cons index rest ih =>
    intro stategroups h child hc
    unfold meshLoop at h
    cases hm : mMeshes[index]? with
    | none => simp [hm] at h
    | some mesh =>
      simp only [hm] at h
      cases hr : meshLoop mMeshes stateSets rest with
      | error e => simp [hr] at h
      | ok children =>
        simp only [hr, Except.ok.injEq] at h
        subst h
        simp only [List.mem_cons] at hc
        rcases hc with hc | hc
        · exact ⟨_, hc⟩
        · exact ih children hr child hc

/-- The groups among the children of a transform are the transforms of the children
of its node: the children that `visitNode` adds are no groups. -/
theorem groups_ownChildren (scene : SceneContext) (mName : List Char) (mMeshes : List Nat)
    (kind : GroupKind) (pointers : List Nat) :
    Group.groups ⟨kind, ownChildren scene mName mMeshes ++ pointers.map .group⟩ = pointers := by
  have hown : (ownChildren scene mName mMeshes).filterMap (fun child =>
      match child with
      | .group pointer => some pointer
      | _ => none) = [] := by
    rw [List.filterMap_eq_nil_iff]
    intro child hc
    simp only [ownChildren, List.mem_append, List.mem_map] at hc
    rcases hc with ⟨a, _, ha⟩ | hc
    · subst ha; rfl
    · cases hm : meshLoop scene.mMeshes scene.stateSets mMeshes with
      | error e => simp [hm] at hc
      | ok stategroups =>
        simp only [hm] at hc
        obtain ⟨g, hg⟩ := meshLoop_stategroups _ _ _ _ hm child hc
        subst hg; rfl
  simp only [Group.groups, List.filterMap_append, hown, List.nil_append]
  induction pointers with
  | nil => rfl
  | cons p ps ih => simp [List.filterMap_cons, ih]

mutual
theorem isTransform_subtreeGroups (scene : SceneContext) :
    ∀ (node : aiNode) (xform : Nat), ∀ group ∈ subtreeGroups scene node xform,
      group.isTransform = true
  | .mk _ _ _ mChildren, xform => by
    intro group hg
    simp only [subtreeGroups, List.mem_cons] at hg
    rcases hg with hg | hg
    · subst hg; rfl
    · exact isTransform_forestGroups scene mChildren (xform + 1) group hg
theorem isTransform_forestGroups (scene : SceneContext) :
    ∀ (nodes : List aiNode) (start : Nat), ∀ group ∈ forestGroups scene nodes start,
      group.isTransform = true
  | [], _ => by
    intro group hg
    simp [forestGroups] at hg
  | child :: rest, start => by
    intro group hg
    simp only [forestGroups, List.mem_append] at hg
    rcases hg with hg | hg
    · exact isTransform_forestGroups scene rest start group hg
    · exact isTransform_subtreeGroups scene child _ group hg
end

mutual
theorem mirrors_subtreeGroups (scene : SceneContext) :
    ∀ (node : aiNode) (before after : List Group) (xform : Nat), xform = before.length →
      mirrors (before ++ subtreeGroups scene node xform ++ after) node xform = true
  | .mk mName mTransformation mMeshes mChildren, before, after, xform => by
    intro hx
    subst hx
    have hat : (before ++ subtreeGroups scene (.mk mName mTransformation mMeshes mChildren)
        before.length ++ after)[before.length]? =
        some ⟨.MatrixTransform (mat4.create mTransformation.Transpose),
          ownChildren scene mName mMeshes ++
            (childPointers mChildren (before.length + 1)).map .group⟩ := by
      rw [List.append_assoc, List.getElem?_append_right (le_refl _)]
      simp [subtreeGroups]
    simp only [mirrors, hat, groups_ownChildren, decide_True, Bool.true_and]
    have hshape : before ++ subtreeGroups scene (.mk mName mTransformation mMeshes mChildren)
        before.length ++ after =
        (before ++ [⟨.MatrixTransform (mat4.create mTransformation.Transpose),
          ownChildren scene mName mMeshes ++
            (childPointers mChildren (before.length + 1)).map .group⟩]) ++
          forestGroups scene mChildren (before.length + 1) ++ after := by
      simp [subtreeGroups]
    rw [hshape]
    exact mirrorsList_forestGroups scene mChildren _ after (before.length + 1) (by simp)
theorem mirrorsList_forestGroups (scene : SceneContext) :
    ∀ (nodes : List aiNode) (before after : List Group) (start : Nat), start = before.length →
      mirrorsList (before ++ forestGroups scene nodes start ++ after) nodes
        (childPointers nodes start).reverse = true
  | [], before, after, start => by
    intro _
    simp [childPointers, mirrorsList]
  | child :: rest, before, after, start => by
    intro hs
    simp only [childPointers, List.reverse_append, List.reverse_cons, List.reverse_nil,
      List.nil_append, List.singleton_append, mirrorsList, Bool.and_eq_true, forestGroups]
    constructor
    · have := mirrors_subtreeGroups scene child (before ++ forestGroups scene rest start) after
        (start + aiNode.sizeList rest) (by simp [length_forestGroups, hs])
      simpa [List.append_assoc] using this
    · have := mirrorsList_forestGroups scene rest before
        (subtreeGroups scene child (start + aiNode.sizeList rest) ++ after) start hs
      simpa [List.append_assoc] using this
end

mutual
theorem attached_subtreeGroups (scene : SceneContext) :
    ∀ (node : aiNode) (xform : Nat),
      (xform :: attached (subtreeGroups scene node xform)).Perm (List.range' xform node.size)
  | .mk mName mTransformation mMeshes mChildren, xform => by
    have h := attached_forestGroups scene mChildren (xform + 1)
    have hr : List.range' xform (aiNode.mk mName mTransformation mMeshes mChildren).size =
        xform :: List.range' (xform + 1) (aiNode.sizeList mChildren) := by
      rw [aiNode.size, Nat.add_comm 1, List.range'_succ]
    rw [hr]
    apply List.Perm.cons
    simpa [attached, subtreeGroups, groups_ownChildren] using h
theorem attached_forestGroups (scene : SceneContext) :
    ∀ (nodes : List aiNode) (start : Nat),
      (childPointers nodes start ++ attached (forestGroups scene nodes start)).Perm
        (List.range' start (aiNode.sizeList nodes))
  | [], start => by
    simp [childPointers, forestGroups, attached, aiNode.sizeList]
  | child :: rest, start => by
    have h1 := attached_forestGroups scene rest start
    have h2 := attached_subtreeGroups scene child (start + aiNode.sizeList rest)
    have hr : List.range' start (aiNode.sizeList (child :: rest)) =
        List.range' start (aiNode.sizeList rest) ++
          List.range' (start + aiNode.sizeList rest) child.size := by
      rw [List.range'_append_1, aiNode.sizeList]
    rw [hr]
    have hsplit : attached (forestGroups scene (child :: rest) start) =
        attached (forestGroups scene rest start) ++
          attached (subtreeGroups scene child (start + aiNode.sizeList rest)) := by
      simp [attached, forestGroups]
    rw [hsplit]
    simp only [childPointers, List.append_assoc, List.singleton_append]
    refine List.Perm.trans ?_ (List.Perm.append h1 h2)
    rw [List.append_assoc]
    apply List.Perm.append_left
    exact List.perm_middle.symm
end

/-- The store that the loop leaves for a tree whose mesh indices are valid. -/
theorem traverse_eq (scene : SceneContext) (root : aiNode) (extra : Nat)
    (hvalid : root.meshesBelow scene.mMeshes.length = true) :
    traverse scene (root.size + extra) (some root) =
      some (.ok (⟨.StateGroup, [.group 1]⟩ :: subtreeGroups scene root 1)) := by
  unfold traverse
  rw [Nat.add_comm, nodeLoop_subtree scene root extra [scenegraph] 0 [] hvalid]
  cases extra <;> rfl

theorem traverse_fault (scene : SceneContext) (root : aiNode) (extra : Nat)
    (hvalid : root.meshesBelow scene.mMeshes.length = false) :
    ∃ e, traverse scene (root.size + extra) (some root) = some (.error e) := by
  unfold traverse
  rw [Nat.add_comm]
  exact nodeLoop_subtree_fault scene root extra [scenegraph] 0 [] hvalid

/-- C23: for every source tree `root` and every bound on the rounds that is at least
the number of nodes of the tree, the work-stack loop ends within the bound.  When
every mesh index of the tree lies in the array of meshes, it ends with a store of
groups that holds the state group `scenegraph` at 0 and, after it, as many groups as
the tree has nodes, all of them transforms; the only child of `scenegraph` is the
transform at 1; every pointer from 1 to the number of nodes is attached exactly once
as a child in the whole store; and the transform at 1 mirrors the tree: it carries
the matrix of the root, and the transforms among its children are, from the last
added to the first, the mirrors of the children of the root, and so on down the
tree. -/
theorem traverse_mirrors_source_tree (scene : SceneContext) (root : aiNode) (extra : Nat) :
    (∃ result, traverse scene (root.size + extra) (some root) = some result) ∧
    (root.meshesBelow scene.mMeshes.length = true →
      ∃ store, traverse scene (root.size + extra) (some root) = some (.ok store) ∧
        store.length = root.size + 1 ∧
        store[0]? = some ⟨.StateGroup, [.group 1]⟩ ∧
        (∀ pointer group, 1 ≤ pointer → store[pointer]? = some group →
          group.isTransform = true) ∧
        (store.filter Group.isTransform).length = root.size ∧
        (attached store).Perm (List.range' 1 root.size) ∧
        mirrors store root 1 = true) := by
  constructor
  · cases hvalid : root.meshesBelow scene.mMeshes.length with
    | true => exact ⟨_, traverse_eq scene root extra hvalid⟩
    | false =>
      obtain ⟨e, he⟩ := traverse_fault scene root extra hvalid
      exact ⟨_, he⟩
  · intro hvalid
    refine ⟨_, traverse_eq scene root extra hvalid, ?_, by simp, ?_, ?_, ?_, ?_⟩
    · simp [length_subtreeGroups]
    · intro pointer group hp hg
      cases pointer with
      | zero => omega
      | succ pointer =>
        simp only [List.getElem?_cons_succ] at hg
        exact isTransform_subtreeGroups scene root 1 group (List.getElem?_mem hg)
    · have hall : (subtreeGroups scene root 1).filter Group.isTransform =
          subtreeGroups scene root 1 :=
        List.filter_eq_self.mpr (isTransform_subtreeGroups scene root 1)
      rw [List.filter_cons_of_neg (by simp [Group.isTransform]), hall, length_subtreeGroups]
    · have h := attached_subtreeGroups scene root 1
      simpa [attached, Group.groups] using h
    · exact mirrors_subtreeGroups scene root [⟨.StateGroup, [.group 1]⟩] [] 1 rfl |>
        fun h => by simpa using h

theorem traverse_sampleTree :
    traverse sampleScene 4 (some sampleTree) =
      some (.ok
        [⟨.StateGroup, [.group 1]⟩,
         ⟨.MatrixTransform (mat4.create (translation 0).Transpose), [.group 2, .group 3]⟩,
         ⟨.MatrixTransform (mat4.create (translation 2).Transpose),
           [.stategroup (convertMesh [] triangleMesh)]⟩,
         ⟨.MatrixTransform (mat4.create (translation 1).Transpose), [.group 4]⟩,
         ⟨.MatrixTransform (mat4.create (translation 3).Transpose), []⟩]) := by
  rfl

theorem traverse_mirrors_source_tree_witness :
    sampleTree.meshesBelow sampleScene.mMeshes.length = true ∧
    sampleTree.size = 4 ∧
    ∃ store, traverse sampleScene (sampleTree.size + 0) (some sampleTree) = some (.ok store) ∧
      store.length = sampleTree.size + 1 ∧
      store[0]? = some ⟨.StateGroup, [.group 1]⟩ ∧
      (∀ pointer group, 1 ≤ pointer → store[pointer]? = some group →
        group.isTransform = true) ∧
      (store.filter Group.isTransform).length = sampleTree.size ∧
      (attached store).Perm (List.range' 1 sampleTree.size) ∧
      mirrors store sampleTree 1 = true :=
  ⟨by decide, by decide, (traverse_mirrors_source_tree sampleScene sampleTree 0).2 (by decide)⟩

end assimp
